import Mathlib

/-!
# go-ocf/go-sdk: connection and observation concurrency layer

Shallow embedding of

* `backend/resourceSubscription.go` (cloud subscription client),
* `local/core/device.go` (per-device connection manager),
* `local/observeResource.go` (observation multiplexer),

followed by the properties established about them.  Calls on external
collaborators (gRPC stream, consumer handlers, transports, devices) are
recorded in an explicit chronological log, and their results are supplied by
an environment record.
-/

set_option autoImplicit false

/-! ## Go standard library fragments -/

namespace Go

/-- Flag characters of a formatting directive, as the flag loop of `doPrintf` reads
them. -/
def isFlag (c : Char) : Bool :=
  c == '#' || c == '0' || c == '+' || c == '-' || c == ' '

/-- Function `parsenum` of package fmt on the rest of the format: whether a number
was read, and the text after it.  `num` is the value read so far and `isnum` tells
whether a digit has been read.  When the value read exceeds one million and a further
digit follows, the scan gives up and skips the whole text (`tooLarge`). -/
def parsenum : Nat → Bool → List Char → Bool × List Char
  | _, isnum, [] => (isnum, [])
  | num, isnum, c :: cs =>
    if c.isDigit then
      if num > 1000000 then (false, [])
      else parsenum (num * 10 + (c.toNat - '0'.toNat)) true cs
    else (isnum, c :: cs)

/-- Function `parseArgNumber` of package fmt on a text that starts with `[`: the
number of characters to skip, and whether a well-formed index `[n]` was read. -/
def parseArgNumber (format : List Char) : Nat × Bool :=
  if format.length < 3 then (1, false)
  else
    match (format.drop 1).indexOf? ']' with
    | none => (1, false)
    | some k =>
      let r := parsenum 0 false ((format.drop 1).take k)
      (k + 2, r.1 && r.2.isEmpty)

/-- Method `argNumber` of package fmt when no operand is passed: the new value of
`goodArgNum`, the text after the index, and whether an index was found.  No index is
in range without operands, so a bracket always clears `goodArgNum`. -/
def argNumber (goodArgNum : Bool) (format : List Char) : Bool × List Char × Bool :=
  match format with
  | '[' :: _ => (false, format.drop (parseArgNumber format).1, (parseArgNumber format).2)
  | _ => (goodArgNum, format, false)

/-- The width of a directive of `doPrintf` when no operand is passed, read after the
flags and the first argument index: the text written, `goodArgNum`, the rest of the
format and `afterIndex`.  A `*` finds no operand and writes `%!(BADWIDTH)`. -/
def widthPart (goodArgNum afterIndex : Bool) (format : List Char) :
    List Char × Bool × List Char × Bool :=
  match format with
  | '*' :: rest => ("%!(BADWIDTH)".toList, goodArgNum, rest, false)
  | _ =>
    (([] : List Char), goodArgNum && !(afterIndex && (parsenum 0 false format).1),
      (parsenum 0 false format).2, afterIndex)

/-- The precision of a directive of `doPrintf` when no operand is passed: the text
written, `goodArgNum`, the rest of the format and `afterIndex`.  A `*` finds no operand
and writes `%!(BADPREC)`. -/
def precisionPart (goodArgNum afterIndex : Bool) (format : List Char) :
    List Char × Bool × List Char × Bool :=
  match format with
  | '.' :: rest =>
    match (argNumber (goodArgNum && !afterIndex) rest).2.1 with
    | '*' :: rest3 =>
      ("%!(BADPREC)".toList, (argNumber (goodArgNum && !afterIndex) rest).1, rest3, false)
    | rest2 =>
      (([] : List Char), (argNumber (goodArgNum && !afterIndex) rest).1,
        (parsenum 0 false rest2).2, (argNumber (goodArgNum && !afterIndex) rest).2.2)
  | _ => (([] : List Char), goodArgNum, format, afterIndex)

/-- The verb of a directive of `doPrintf` when no operand is passed: the text written
and the rest of the format.  `%` is written as such; another verb is reported as
`%!v(BADINDEX)` after a bad argument index and as `%!v(MISSING)` otherwise; the end of
the format gives `%!(NOVERB)`. -/
def verbPart (goodArgNum : Bool) (format : List Char) : List Char × List Char :=
  match format with
  | [] => ("%!(NOVERB)".toList, [])
  | verb :: rest =>
    if verb == '%' then (['%'], rest)
    else if !goodArgNum then ("%!".toList ++ verb :: "(BADINDEX)".toList, rest)
    else ("%!".toList ++ verb :: "(MISSING)".toList, rest)

/-- One directive of `doPrintf` when no operand is passed, on the text that follows
its `%`: flags, argument index, width, precision, argument index, verb.  The result is
the text written and the rest of the format. -/
def directive (format : List Char) : List Char × List Char :=
  let a1 := argNumber true (format.dropWhile isFlag)
  let w := widthPart a1.1 a1.2.2 a1.2.1
  let p := precisionPart w.2.1 w.2.2.2 w.2.2.1
  let a3 := if p.2.2.2 then (p.2.1, p.2.2.1, true) else argNumber p.2.1 p.2.2.1
  let v := verbPart a3.1 a3.2.1
  (w.1 ++ p.1 ++ v.1, v.2)

/-- Rendering of a format string by `fmt.Sprintf` when no operand is passed
(`doPrintf` with an empty operand list): plain text is copied and each directive is
rendered by `directive`.  `fuel` bounds the number of steps; every step reads at least
one character, so the length of the format is enough. -/
def sprintfNoArgs : Nat → List Char → List Char
  | 0, _ => []
  | _ + 1, [] => []
  | fuel + 1, c :: cs =>
    if c == '%' then (directive cs).1 ++ sprintfNoArgs fuel (directive cs).2
    else c :: sprintfNoArgs fuel cs

/-- Text of the error built by `fmt.Errorf(format)` with no operand. -/
def Errorf (format : String) : String :=
  String.mk (sprintfNoArgs format.length format.toList)

/-- Rendering of a slice of errors by the `%v` verb: `[e1 e2 ... en]`. -/
def formatErrors (errors : List String) : String :=
  "[" ++ " ".intercalate errors ++ "]"

/-- Sequential reading of `atomic.CompareAndSwapUint32(addr, old, new)`:
`cur` is the value stored at `addr`; the result is the value stored afterwards and
whether the swap happened. -/
def CompareAndSwapUint32 (cur old new : Nat) : Nat × Bool :=
  if cur = old then (new % 2 ^ 32, true) else (cur, false)

end Go

/-! ## backend/resourceSubscription.go -/

namespace Backend

/-- The `oneof` payload of a `pb.Event`. -/
inductive EventType
  | operationProcessed (code : Nat) (message : String)
  | subscriptionCanceled (reason : String)
  | resourceContentChanged (content : String)
  | other (shape : String)
  deriving DecidableEq, Repr

/-- Message `pb.Event` of the gateway stream. -/
structure Event where
  subscriptionId : String
  type : EventType
  deriving DecidableEq, Repr

/-- Status code `pb.Event_OperationProcessed_ErrorStatus_OK`. -/
def ErrorStatus_OK : Nat := 0

/-- Getter `ev.GetSubscriptionCanceled()` followed by `GetReason()`; `none` is the nil pointer. -/
def Event.GetSubscriptionCanceled (ev : Event) : Option String :=
  match ev.type with
  | .subscriptionCanceled reason => some reason
  | _ => none

/-- Getter `ev.GetResourceContentChanged()`; `none` is the nil pointer. -/
def Event.GetResourceContentChanged (ev : Event) : Option String :=
  match ev.type with
  | .resourceContentChanged content => some content
  | _ => none

/-- Getter `ev.GetOperationProcessed()`; `none` is the nil pointer. -/
def Event.GetOperationProcessed (ev : Event) : Option (Nat × String) :=
  match ev.type with
  | .operationProcessed code message => some (code, message)
  | _ => none

/-- Outcome of one `client.Recv()`. -/
inductive RecvResult
  | eof
  | fail (err : String)
  | event (ev : Event)
  deriving DecidableEq, Repr

/-- Calls made by a subscription on its stream and on its handler, and by
`NewResourceSubscription` on the gateway; `goRunRecv` is the launch of the goroutine
that runs `runRecv`. -/
inductive Call
  | recv
  | closeSend
  | onClose
  | error (err : String)
  | handleResourceContentChanged (content : String)
  | subscribeForEvents
  | send
  | goRunRecv
  deriving DecidableEq, Repr

/-- Behaviour of the collaborators of one subscription.  `closeSend k` is the result
of the call to `client.CloseSend()` made after `k` earlier ones, and `handle k content`
the result of `HandleResourceContentChanged` on `content` after `k` earlier
invocations (`none` is the nil error).  `formatEvent ev` is the text that the `%+v`
verb gives for the event `ev`, which the protocol buffer library decides. -/
structure Env where
  closeSend : Nat → Option String
  handle : Nat → String → Option String
  formatEvent : Event → String

/-- Struct `ResourceSubscription`, with the chronological log of its outgoing calls.
`wait` identifies the wait handle `wg.Wait`. -/
structure ResourceSubscription where
  subscriptionID : String
  wait : Nat
  canceled : Nat
  log : List Call
  deriving DecidableEq, Repr

/-- Number of `CloseSend` calls in a log. -/
def closeSendCount (log : List Call) : Nat :=
  log.count Call.closeSend

/-- Number of handler invocations `HandleResourceContentChanged` in a log. -/
def handleCount (log : List Call) : Nat :=
  (log.filter fun c => match c with
    | .handleResourceContentChanged _ => true
    | _ => false).length

/-- Number of `OnClose` notifications in a log. -/
def onCloseCount (log : List Call) : Nat :=
  log.count Call.onClose

/-- Number of `Error` notifications in a log. -/
def errorCount (log : List Call) : Nat :=
  (log.filter fun c => match c with
    | .error _ => true
    | _ => false).length

/-- Method `(s *ResourceSubscription) Cancel`: the wait handle, or the error of the
half-close. -/
def Cancel (env : Env) (s : ResourceSubscription) :
    ResourceSubscription × Except String Nat :=
  let (cur, swapped) := Go.CompareAndSwapUint32 s.canceled s.canceled 1
  let s1 := { s with canceled := cur }
  if !swapped then
    (s1, .ok s1.wait)
  else
    let err := env.closeSend (closeSendCount s1.log)
    let s2 := { s1 with log := s1.log ++ [Call.closeSend] }
    match err with
    | some e => (s2, .error e)
    | none => (s2, .ok s2.wait)

/-- Appends a call to the log of a subscription. -/
def ResourceSubscription.emit (s : ResourceSubscription) (c : Call) : ResourceSubscription :=
  { s with log := s.log ++ [c] }

/-- Method `(s *ResourceSubscription) runRecv` run against the successive results of
`client.Recv()`.  The boolean tells whether the loop returned; it is `false` when the
given results are used up while the loop still waits for the next message. -/
def runRecv (env : Env) : List RecvResult → ResourceSubscription → ResourceSubscription × Bool
  | [], s => (s, false)
  | r :: rest, s =>
    let s := s.emit Call.recv
    match r with
    | .eof =>
      let s := (Cancel env s).1
      (s.emit Call.onClose, true)
    | .fail err =>
      let s := (Cancel env s).1
      (s.emit (Call.error err), true)
    | .event ev =>
      match ev.GetSubscriptionCanceled with
      | some reason =>
        let s := (Cancel env s).1
        let s := if reason = "" then s.emit Call.onClose else s
        (s.emit (Call.error (Go.Errorf reason)), true)
      | none =>
        match ev.GetResourceContentChanged with
        | some ct =>
          let err := env.handle (handleCount s.log) ct
          let s := s.emit (Call.handleResourceContentChanged ct)
          match err with
          | some e =>
            let s := (Cancel env s).1
            (s.emit (Call.error e), true)
          | none => runRecv env rest s
        | none =>
          let s := (Cancel env s).1
          (s.emit (Call.error
            ("unknown event occurs on recv resource content changed: "
              ++ env.formatEvent ev)), true)

/-- A subscription as `NewResourceSubscription` builds it. -/
def newSubscription (subscriptionID : String) (wait : Nat) : ResourceSubscription :=
  { subscriptionID := subscriptionID, wait := wait, canceled := 0, log := [] }

/-- Results of the collaborators during one call of `NewResourceSubscription`:
whether `handle` implements `ResourceContentChangedHandler`, the errors of
`SubscribeForEvents` and `Send` (`none` is nil), the result of the first `Recv`, and
the identity of the wait handle of the new wait group. -/
structure NewOutcome where
  isResourceContentChangedHandler : Bool
  subscribeForEvents : Option String
  send : Option String
  recv : RecvResult
  wait : Nat

/-- Method `(c *Client) NewResourceSubscription`: the calls made, and the new
subscription or the error.  The receive loop is launched, not run: it runs as
`runRecv` on the subscription returned.  `formatEvent` is the rendering of an event by
the `%+v` verb. -/
def NewResourceSubscription (formatEvent : Event → String) (out : NewOutcome) :
    List Call × Except String ResourceSubscription :=
  if !out.isResourceContentChangedHandler then
    ([], .error (Go.Errorf "invalid handler - it's supports: ResourceContentChangedHandler"))
  else
    match out.subscribeForEvents with
    | some err => ([Call.subscribeForEvents], .error err)
    | none =>
      match out.send with
      | some err => ([Call.subscribeForEvents, Call.send], .error err)
      | none =>
        match out.recv with
        | .eof => ([Call.subscribeForEvents, Call.send, Call.recv], .error "EOF")
        | .fail err => ([Call.subscribeForEvents, Call.send, Call.recv], .error err)
        | .event ev =>
          match ev.GetOperationProcessed with
          | none =>
            ([Call.subscribeForEvents, Call.send, Call.recv],
              .error ("unexpected event " ++ formatEvent ev))
          | some (code, message) =>
            if code ≠ ErrorStatus_OK then
              ([Call.subscribeForEvents, Call.send, Call.recv], .error (Go.Errorf message))
            else
              ([Call.subscribeForEvents, Call.send, Call.recv, Call.goRunRecv],
                .ok { subscriptionID := ev.subscriptionId, wait := out.wait, canceled := 0,
                      log := [Call.subscribeForEvents, Call.send, Call.recv, Call.goRunRecv] })

/-- Whether the text `m` occurs in the text `text`. -/
def containsText (text m : String) : Bool :=
  decide (m.data <:+: text.data)

/-- Outcomes in which the gateway acknowledges the subscription with the status
`code` and the message `message`. -/
def ackOutcome (code : Nat) (message : String) : NewOutcome :=
  { isResourceContentChangedHandler := true, subscribeForEvents := none, send := none,
    recv := .event ⟨"sub-1", .operationProcessed code message⟩, wait := 0 }

/-- The notification that ends the receive loop on a result of `Recv` other than a
content-changed event and a subscription-cancelled message. -/
def terminalNotification (env : Env) : RecvResult → Call
  | .eof => Call.onClose
  | .fail err => Call.error err
  | .event ev =>
    Call.error ("unknown event occurs on recv resource content changed: "
      ++ env.formatEvent ev)

/-- Whether a result of `Recv` is neither a content-changed event nor a
subscription-cancelled message. -/
def isPlainTerminal : RecvResult → Bool
  | .eof => true
  | .fail _ => true
  | .event ev => ev.GetSubscriptionCanceled.isNone && ev.GetResourceContentChanged.isNone

/-- The stream results that carry content-changed events, each given by its
subscription identifier and its content. -/
def contentEvents (contents : List (String × String)) : List RecvResult :=
  contents.map fun e => RecvResult.event ⟨e.1, EventType.resourceContentChanged e.2⟩

/-- The calls of a loop that receives and handles the contents one after the other. -/
def handledCalls (contents : List (String × String)) : List Call :=
  contents.flatMap fun e => [Call.recv, Call.handleResourceContentChanged e.2]

/-- The answers of the content handler to the contents handled one after the other,
the first one after `n` earlier invocations. -/
def handlerAnswers (env : Env) : Nat → List (String × String) → List (Option String)
  | _, [] => []
  | n, e :: rest => env.handle n e.2 :: handlerAnswers env (n + 1) rest

/-- A sample environment whose content handler rejects the content `bad`. -/
def sampleEnv : Env :=
  { closeSend := fun _ => none,
    handle := fun _ ct => if ct = "bad" then some "rejected" else none,
    formatEvent := fun ev => "subscription_id:" ++ ev.subscriptionId }

/-- Runs `Cancel` the given number of times in a row, collecting the results. -/
def cancelTimes (env : Env) : Nat → ResourceSubscription →
    ResourceSubscription × List (Except String Nat)
  | 0, s => (s, [])
  | n + 1, s =>
    let r := Cancel env s
    let rs := cancelTimes env n r.1
    (rs.1, r.2 :: rs.2)

end Backend

/-! ## local/core/device.go -/

namespace Core

/-- Identity of a live transport handle `*coap.ClientCloseHandler`. -/
abbrev Conn := Nat

/-- Value `kitNet.Addr` as the device code uses it. -/
structure Addr where
  scheme : String
  host : String
  port : Nat
  deriving DecidableEq, Repr

/-- Method `addr.GetScheme()`. -/
def Addr.GetScheme (a : Addr) : String := a.scheme

/-- Method `addr.String()`: `host:port` (renamed, `String` being the type of texts). -/
def Addr.HostPort (a : Addr) : String := a.host ++ ":" ++ toString a.port

/-- Method `addr.URL()`: `scheme://host:port`. -/
def Addr.URL (a : Addr) : String := a.scheme ++ "://" ++ a.HostPort

/-- Value `schema.Endpoint`, reduced to the result of `endpoint.GetAddr()`. -/
structure Endpoint where
  GetAddr : Except String Addr
  deriving Repr

/-- The four transport dial functions. -/
inductive Transport
  | udp
  | udpSecure
  | tcp
  | tcpSecure
  deriving DecidableEq, Repr

/-- Calls made by a device on its collaborators. -/
inductive Call
  | getCertificate
  | getCertificateAuthorities
  | dial (t : Transport) (addr : String)
  | connClose (c : Conn)
  | registerCloseHandler (c : Conn) (key : String)
  | stopObservations
  deriving DecidableEq, Repr

/-- Behaviour of the collaborators of a device.  The first four fields are the values
of the constants `schema.UDPScheme`, `schema.UDPSecureScheme`, `schema.TCPScheme` and
`schema.TCPSecureScheme`, `stopObservations` is the result of the method
`(d *Device) stopObservations`, and the others are the results of the certificate
providers and of the transport.  The natural number passed to a function is the length
of the log at the time of the call, so a result may depend on everything that happened
before. -/
structure Env where
  UDPScheme : String
  UDPSecureScheme : String
  TCPScheme : String
  TCPSecureScheme : String
  getCertificate : Nat → Option String
  getCertificateAuthorities : Nat → Option String
  dial : Transport → String → Nat → Except String Conn
  connClose : Conn → Nat → Option String
  stopObservations : Nat → Option String

/-- Struct `deviceConfiguration`, reduced to the switches read by the connection code. -/
structure deviceConfiguration where
  disableDTLS : Bool
  disableTCPTLS : Bool
  deriving DecidableEq, Repr

/-- Struct `Device`.  The map `conn` is an association list, `closeHandlers` records
which map key the callback registered on a connection deletes, and `log` is the
chronological list of outgoing calls. -/
structure Device where
  deviceID : String
  cfg : deviceConfiguration
  conn : List (String × Conn)
  closeHandlers : List (Conn × String)
  log : List Call
  deriving DecidableEq, Repr

/-- Function `NewDevice`. -/
def NewDevice (cfg : deviceConfiguration) (deviceID : String) : Device :=
  { deviceID := deviceID, cfg := cfg, conn := [], closeHandlers := [], log := [] }

/-- Appends a call to the log of a device. -/
def Device.emit (d : Device) (c : Call) : Device :=
  { d with log := d.log ++ [c] }

/-- Builtin `delete(m, key)` on the connection map. -/
def mapDelete (m : List (String × Conn)) (key : String) : List (String × Conn) :=
  m.filter fun e => e.1 != key

/-- Loop of `popConnections` over the entries of the map as they were when the
`range` started. -/
def popLoop : List (String × Conn) → List (String × Conn) → List Conn →
    List (String × Conn) × List Conn
  | [], m, conns => (m, conns)
  | (key, conn) :: rest, m, conns => popLoop rest (mapDelete m key) (conns ++ [conn])

/-- Method `(d *Device) popConnections`. -/
def popConnections (d : Device) : Device × List Conn :=
  let r := popLoop d.conn d.conn []
  ({ d with conn := r.1 }, r.2)

/-- Loop of `Close` over the popped connections. -/
def closeLoop (env : Env) : List Conn → Device → List String → Device × List String
  | [], d, errors => (d, errors)
  | conn :: rest, d, errors =>
    let err := env.connClose conn d.log.length
    let d := d.emit (Call.connClose conn)
    match err with
    | some e => closeLoop env rest d (errors ++ [e])
    | none => closeLoop env rest d errors

/-- Method `(d *Device) Close`; `none` is the nil error. -/
def Close (env : Env) (d : Device) : Device × Option String :=
  let err := env.stopObservations d.log.length
  let d := d.emit Call.stopObservations
  let errors : List String := match err with
    | some e => [e]
    | none => []
  let p := popConnections d
  let r := closeLoop env p.2 p.1 errors
  if r.2.length > 0 then
    (r.1, some ("cannot close device " ++ r.1.deviceID ++ ": " ++ Go.formatErrors r.2))
  else
    (r.1, none)

/-- The certificate lookups shared by `DialTCPSecure` and `DialUDPSecure`, followed by
the dial itself. -/
def dialSecure (env : Env) (t : Transport) (addr : String) (d : Device) :
    Device × Except String Conn :=
  let err := env.getCertificate d.log.length
  let d := d.emit Call.getCertificate
  match err with
  | some e => (d, .error e)
  | none =>
    let err := env.getCertificateAuthorities d.log.length
    let d := d.emit Call.getCertificateAuthorities
    match err with
    | some e => (d, .error e)
    | none =>
      let r := env.dial t addr d.log.length
      (d.emit (Call.dial t addr), r)

/-- Function `DialTCPSecure`. -/
def DialTCPSecure (env : Env) (addr : String) (d : Device) : Device × Except String Conn :=
  dialSecure env Transport.tcpSecure addr d

/-- Function `DialUDPSecure`. -/
def DialUDPSecure (env : Env) (addr : String) (d : Device) : Device × Except String Conn :=
  dialSecure env Transport.udpSecure addr d

/-- Plain dial `coap.DialUDP` / `coap.DialTCP`. -/
def dialPlain (env : Env) (t : Transport) (addr : String) (d : Device) :
    Device × Except String Conn :=
  let r := env.dial t addr d.log.length
  (d.emit (Call.dial t addr), r)

/-- Method `(d *Device) getConn`. -/
def getConn (d : Device) (addr : String) : Option Conn :=
  d.conn.lookup addr

/-- Text built by `fmt.Errorf("cannot connect to %v: %w", url, err)`. -/
def errMsg (url err : String) : String :=
  "cannot connect to " ++ url ++ ": " ++ err

/-- The error return that follows each dial: a failure `err` of the dial is
returned as `fmt.Errorf(errMsg, addr.URL(), err)`. -/
def wrapDialError (url : String) (r : Device × Except String Conn) :
    Device × Except String Conn :=
  match r with
  | (d, .error err) => (d, .error (errMsg url err))
  | (d, .ok c) => (d, .ok c)

/-- The `switch` of `connectToEndpoint`: picks the dial function from the scheme. -/
def connectToEndpoint_dial (env : Env) (d : Device) (addr : Addr) :
    Device × Except String Conn :=
  if addr.GetScheme = env.UDPScheme then
    wrapDialError addr.URL (dialPlain env Transport.udp addr.HostPort d)
  else if addr.GetScheme = env.UDPSecureScheme then
    if d.cfg.disableDTLS then
      (d, .error (errMsg addr.URL (Go.Errorf "dtls is disabled by client option")))
    else
      wrapDialError addr.URL (DialUDPSecure env addr.HostPort d)
  else if addr.GetScheme = env.TCPScheme then
    wrapDialError addr.URL (dialPlain env Transport.tcp addr.HostPort d)
  else if addr.GetScheme = env.TCPSecureScheme then
    if d.cfg.disableTCPTLS then
      (d, .error (errMsg addr.URL (Go.Errorf "tcp-tls is disabled by client option")))
    else
      wrapDialError addr.URL (DialTCPSecure env addr.HostPort d)
  else
    (d, .error (errMsg addr.URL ("unknown scheme :" ++ addr.GetScheme)))

/-- The locked tail of `connectToEndpoint` after a successful dial of `c`:
check the map again, then either drop `c` or insert it. -/
def connectToEndpoint_insert (d : Device) (url : String) (c : Conn) : Device × Conn :=
  match d.conn.lookup url with
  | some conn => (d.emit (Call.connClose c), conn)
  | none =>
    let d := d.emit (Call.registerCloseHandler c url)
    ({ d with closeHandlers := d.closeHandlers ++ [(c, url)], conn := d.conn ++ [(url, c)] }, c)

/-- The callback passed to `RegisterCloseHandler` for map key `url`. -/
def closeHandler (d : Device) (url : String) : Device :=
  { d with conn := mapDelete d.conn url }

/-- The close notification of connection `c`: every callback registered on `c` runs. -/
def connClosed (d : Device) (c : Conn) : Device :=
  (d.closeHandlers.filter fun e => e.1 = c).foldl (fun d e => closeHandler d e.2) d

/-- Method `(d *Device) connectToEndpoint`, run without interference between its
lookup, its dial and its locked tail. -/
def connectToEndpoint (env : Env) (d : Device) (endpoint : Endpoint) :
    Device × Except String Conn :=
  match endpoint.GetAddr with
  | .error err => (d, .error err)
  | .ok addr =>
    match getConn d addr.URL with
    | some conn => (d, .ok conn)
    | none =>
      match connectToEndpoint_dial env d addr with
      | (d, .error err) => (d, .error err)
      | (d, .ok c) =>
        let r := connectToEndpoint_insert d addr.URL c
        (r.1, .ok r.2)

/-- Loop of `connectToEndpoints` with its accumulator `errors`. -/
def connectToEndpointsLoop (env : Env) : List Endpoint → Device → List String →
    Device × Except String Conn
  | [], d, errors =>
    if errors.length > 0 then
      (d, .error (Go.formatErrors errors))
    else
      (d, .error (Go.Errorf "cannot connect to empty endpoints"))
  | endpoint :: rest, d, errors =>
    match connectToEndpoint env d endpoint with
    | (d, .error err) => connectToEndpointsLoop env rest d (errors ++ [err])
    | (d, .ok conn) => (d, .ok conn)

/-- Method `(d *Device) connectToEndpoints`. -/
def connectToEndpoints (env : Env) (d : Device) (endpoints : List Endpoint) :
    Device × Except String Conn :=
  connectToEndpointsLoop env endpoints d []

/-- The attempts made one after the other on a list of endpoints as long as they
fail: the device afterwards, the failures in order, and the first connection
obtained if there is one. -/
def tryEach (env : Env) : List Endpoint → Device → Device × List String × Option Conn
  | [], d => (d, [], none)
  | endpoint :: rest, d =>
    match connectToEndpoint env d endpoint with
    | (d, .error err) =>
      let r := tryEach env rest d
      (r.1, err :: r.2.1, r.2.2)
    | (d, .ok conn) => (d, [], some conn)

/-- What a step may do to a device when it only talks to collaborators: the log
grows by `calls`, and when the step yields a connection `c` the last call is a dial
of `hostPort` that returned `c`. -/
def DialFrame (env : Env) (hostPort : String) (d : Device)
    (r : Device × Except String Conn) : Prop :=
  ∃ calls, r.1 = { d with log := d.log ++ calls } ∧
    ∀ c, r.2 = .ok c → ∃ t before, calls = before ++ [Call.dial t hostPort] ∧
      env.dial t hostPort (d.log.length + before.length) = .ok c

/-- The failures met when the connections `conns` are closed one after the other,
the first one at log length `n`. -/
def closeFailures (env : Env) : List Conn → Nat → List String
  | [], _ => []
  | c :: cs, n => (env.connClose c n).toList ++ closeFailures env cs (n + 1)

/-- Everything that fails during `Close`: stopping the observations, then closing
the connections of the map. -/
def closeErrors (env : Env) (d : Device) : List String :=
  (env.stopObservations d.log.length).toList ++
    closeFailures env (d.conn.map Prod.snd) (d.log.length + 1)

/-- A sample environment: certificates are found, authorities are not, only plain
TCP dials succeed, and connection 7 fails to close. -/
def sampleEnv : Env :=
  { UDPScheme := "coap"
    UDPSecureScheme := "coaps"
    TCPScheme := "coap+tcp"
    TCPSecureScheme := "coaps+tcp"
    getCertificate := fun _ => none
    getCertificateAuthorities := fun _ => some "no authorities"
    dial := fun t _ n => if t = Transport.tcp then .ok (100 + n) else .error "connection refused"
    connClose := fun c _ => if c = 7 then some "broken pipe" else none
    stopObservations := fun _ => none }

/-- Sample endpoints: one malformed, then one per scheme. -/
def sampleEndpoints : List Endpoint :=
  [⟨.error "invalid endpoint"⟩, ⟨.ok ⟨"coap", "10.0.0.1", 5683⟩⟩,
   ⟨.ok ⟨"coaps", "10.0.0.1", 5684⟩⟩, ⟨.ok ⟨"coap+tcp", "10.0.0.1", 5683⟩⟩,
   ⟨.ok ⟨"coaps+tcp", "10.0.0.1", 5684⟩⟩]

/-- A sample device without connections. -/
def sampleDevice : Device := NewDevice ⟨false, false⟩ "dev-1"

/-- A sample device holding two connections, the first of which fails to close. -/
def sampleConnectedDevice : Device :=
  { deviceID := "dev-2", cfg := ⟨false, false⟩,
    conn := [("coap://10.0.0.2:5683", 7), ("coap+tcp://10.0.0.2:5683", 8)],
    closeHandlers := [(7, "coap://10.0.0.2:5683"), (8, "coap+tcp://10.0.0.2:5683")],
    log := [] }

/-- A sample run: the sample device connects (connection 103 over plain TCP), is closed,
and connects again to the same endpoints (connection 110 under the same address). -/
def sampleReconnectedDevice : Device :=
  (connectToEndpoints sampleEnv
    (Close sampleEnv (connectToEndpoints sampleEnv sampleDevice sampleEndpoints).1).1
    sampleEndpoints).1

end Core

/-! ## local/observeResource.go -/

namespace Local

/-- Function `strings.Split(s, sep)` for a separator of one character, on the
characters of `s`. -/
def splitChars (sep : Char) : List Char → List (List Char)
  | [] => [[]]
  | c :: cs =>
    if c = sep then [] :: splitChars sep cs
    else
      match splitChars sep cs with
      | [] => [[c]]
      | x :: xs => (c :: x) :: xs

/-- Function `strings.Split(s, "/")`. -/
def Split (s : String) : List String :=
  (splitChars '/' s.data).map String.mk

/-- Function `getObservationID`: `strings.Join` of the two identifiers with `/`. -/
def getObservationID (resourceCacheID resourceObservationID : String) : String :=
  resourceCacheID ++ "/" ++ resourceObservationID

/-- Function `parseIDs`. -/
def parseIDs (ID : String) : Except String (String × String) :=
  match Split ID with
  | [v0, v1] => .ok (v0, v1)
  | _ => .error (Go.Errorf "invalid ID")

/-- Pointer `*RefDevice`: the identity of the reference and the device it stands for. -/
structure RefDevice where
  ref : Nat
  deviceID : String
  deriving DecidableEq, Repr, Inhabited

/-- Method `(d *RefDevice) DeviceID`. -/
def RefDevice.DeviceID (d : RefDevice) : String := d.deviceID

/-- Value `message.Message`; `none` is the nil body. -/
structure Message where
  body : Option String
  deriving DecidableEq, Repr, Inhabited

/-- Type `decodeFunc`: the closure built by `createDecodeFunc`, identified with the
message it captures. -/
abbrev decodeFunc := Message

/-- Function `createDecodeFunc`. -/
def createDecodeFunc (message : Message) : decodeFunc := message

/-- Method `observerCodec.Decode(m, &p)` for a non-nil target: the message itself, or
an error when its body is nil. -/
def observerCodec_Decode (m : Message) : Except String Message :=
  match m.body with
  | none => .error (Go.Errorf "unexpected empty body")
  | some _ => .ok m

/-- Struct `observationHandler`: one logical subscription.  `handler` identifies the
consumer handler and `codec` its codec; `firstMessage = none` is the nil function. -/
structure observationHandler where
  handler : Nat
  codec : Nat
  isClosed : Bool
  firstMessage : Option decodeFunc
  deriving DecidableEq, Repr, Inhabited

/-- Struct `observationsHandler`: one registry entry.  The map `observations` sends a
subscription identifier to the address of its `observationHandler`; `device = none`
is the nil pointer and `lastMessage = none` the empty atomic value. -/
structure observationsHandler where
  id : String
  device : Option RefDevice
  observationID : String
  lastMessage : Option decodeFunc
  observations : List (String × Nat)
  deriving DecidableEq, Repr, Inhabited

/-- Calls made by the multiplexer on its collaborators.  A physical observation
request records the registry key and the address of the registry entry it is made
for and the identifier it returned (`none` when it failed); a stop request records
the registry key of the entry it is made for. -/
inductive Call
  | getRefDevice (deviceID : String)
  | observeResourceWithCodec (key : String) (d : RefDevice) (link : String) (codec : Nat)
      (h : Nat) (observationID : Option String)
  | storeDeviceToPermanentCache (d : RefDevice)
  | acquire (d : RefDevice)
  | release (d : RefDevice)
  | stopObservingResource (key : String) (d : RefDevice) (observationID : String)
  | removeDeviceFromPermanentCache (deviceID : String) (d : RefDevice)
  | goHandleFirstMessage (subscription : Nat)
  | handle (handler : Nat) (decode : decodeFunc) (codec : Nat)
  | onClose (handler : Nat)
  | error (handler : Nat) (err : String)
  deriving DecidableEq, Repr

/-- Struct `Client`, reduced to the observation registry.  `observeResourceCache` sends
a registry key to the address of its entry in `handlers`; `handlers` and
`subscriptions` hold the allocated `observationsHandler` and `observationHandler`
objects, an address being a position; `log` is the chronological list of outgoing
calls. -/
structure Client where
  observeResourceCache : List (String × Nat)
  handlers : List observationsHandler
  subscriptions : List observationHandler
  log : List Call
  deriving DecidableEq, Repr

/-- A client that observes nothing. -/
def Client.empty : Client :=
  { observeResourceCache := [], handlers := [], subscriptions := [], log := [] }

/-- Appends a call to the log of a client. -/
def Client.emit (c : Client) (call : Call) : Client :=
  { c with log := c.log ++ [call] }

/-- Dereference of a `*observationsHandler`. -/
def Client.handlerAt (c : Client) (p : Nat) : observationsHandler :=
  c.handlers.getD p default

/-- Dereference of a `*observationHandler`. -/
def Client.subscriptionAt (c : Client) (s : Nat) : observationHandler :=
  c.subscriptions.getD s default

/-- Assignment through a `*observationsHandler`. -/
def Client.updateHandler (c : Client) (p : Nat) (f : observationsHandler → observationsHandler) :
    Client :=
  { c with handlers := c.handlers.set p (f (c.handlerAt p)) }

/-- Assignment through a `*observationHandler`. -/
def Client.updateSubscription (c : Client) (s : Nat)
    (f : observationHandler → observationHandler) : Client :=
  { c with subscriptions := c.subscriptions.set s (f (c.subscriptionAt s)) }

/-- Method `Store` of `kitSync.Map`. -/
def mapStore (m : List (String × Nat)) (key : String) (value : Nat) : List (String × Nat) :=
  if (m.lookup key).isSome then m.map fun e => if e.1 = key then (key, value) else e
  else m ++ [(key, value)]

/-- Method `Delete` of `kitSync.Map`. -/
def mapDelete (m : List (String × Nat)) (key : String) : List (String × Nat) :=
  m.filter fun e => e.1 != key

/-- Results of the collaborators during one call of `ObserveResource`, each of them
being called at most once: `uuid.NewV4`, `GetRefDevice`, `core.GetResourceLink`,
`ObserveResourceWithCodec` and `StoreDeviceToPermanentCache`. -/
structure ObserveOutcome where
  newV4 : Except String String
  getRefDevice : Except String RefDevice
  getResourceLink : Except String String
  observeResourceWithCodec : Except String String
  storeDeviceToPermanentCache : Option String

/-- Method `LoadOrStoreWithFunc` of the registry as `ObserveResource` calls it: the
client afterwards, the address of the entry and whether it was loaded. -/
def LoadOrStoreWithFunc (c : Client) (key : String) : Client × Nat × Bool :=
  match c.observeResourceCache.lookup key with
  | some p => (c, p, true)
  | none =>
    let h : observationsHandler :=
      { id := key, device := none, observationID := "", lastMessage := none, observations := [] }
    ({ c with handlers := c.handlers ++ [h],
              observeResourceCache := c.observeResourceCache ++ [(key, c.handlers.length)] },
      c.handlers.length, false)

/-- Method `(c *Client) ObserveResource` for consumer handler `handler` and codec
`codec`; `newV5` is the hash `uuid.NewV5(uuid.NamespaceURL, _).String()`.  The
goroutine `go obsHandler.HandleFirstMessage()` is recorded in the log and runs as a
step of its own. -/
def ObserveResource (newV5 : String → String) (out : ObserveOutcome) (c : Client)
    (deviceID href : String) (handler codec : Nat) : Client × Except String String :=
  match out.newV4 with
  | .error err => (c, .error err)
  | .ok resourceObservationID =>
    let key := newV5 (deviceID ++ href)
    let r := LoadOrStoreWithFunc c key
    let c := r.1
    let h := r.2.1
    let loaded := r.2.2
    let firstMessage := (c.handlerAt h).lastMessage
    let obsHandler : observationHandler :=
      { handler := handler, codec := codec, isClosed := false, firstMessage := firstMessage }
    let s := c.subscriptions.length
    let c := { c with subscriptions := c.subscriptions ++ [obsHandler] }
    let c := c.updateHandler h fun o =>
      { o with observations := mapStore o.observations resourceObservationID s }
    if loaded then
      (c.emit (Call.goHandleFirstMessage s), .ok (getObservationID key resourceObservationID))
    else
      let c := c.emit (Call.getRefDevice deviceID)
      match out.getRefDevice with
      | .error err => (c, .error err)
      | .ok d =>
        match out.getResourceLink with
        | .error err => (c.emit (Call.release d), .error err)
        | .ok link =>
          let c := c.emit (Call.observeResourceWithCodec key d link codec h
            out.observeResourceWithCodec.toOption)
          match out.observeResourceWithCodec with
          | .error err => (c.emit (Call.release d), .error err)
          | .ok observationID =>
            let c := c.emit (Call.storeDeviceToPermanentCache d)
            match out.storeDeviceToPermanentCache with
            | some err => (c.emit (Call.release d), .error err)
            | none =>
              let c := c.emit (Call.acquire d)
              let c := c.updateHandler h fun o =>
                { o with observationID := observationID, device := some d }
              (c.emit (Call.release d), .ok (getObservationID key resourceObservationID))

/-- Method `(c *Client) StopObservingResource`; `stopResult` is what the device
answers to `StopObservingResource` if it is asked, and `none` is the nil error. -/
def StopObservingResource (stopResult : Option String) (c : Client) (observationID : String) :
    Client × Option String :=
  match parseIDs observationID with
  | .error err => (c, some err)
  | .ok (resourceCacheID, internalResourceObservationID) =>
    match c.observeResourceCache.lookup resourceCacheID with
    | none => (c, none)
    | some h =>
      let resourceObservationID := (c.handlerAt h).observationID
      match (c.handlerAt h).observations.lookup internalResourceObservationID with
      | none => (c, none)
      | some _ =>
        let c := c.updateHandler h fun o =>
          { o with observations := mapDelete o.observations internalResourceObservationID }
        if (c.handlerAt h).observations.length = 0 then
          let deleteDevice := (c.handlerAt h).device
          let c := { c with
            observeResourceCache := mapDelete c.observeResourceCache resourceCacheID }
          match deleteDevice with
          | none => (c, none)
          | some d =>
            let c := c.emit (Call.stopObservingResource resourceCacheID d resourceObservationID)
            let c := c.emit (Call.removeDeviceFromPermanentCache d.DeviceID d)
            (c.emit (Call.release d), stopResult)
        else (c, none)

/-- Method `(c *Client) closeObservingResource` for the entry at address `o`. -/
def closeObservingResource (c : Client) (o : Nat) : Client :=
  match c.observeResourceCache.lookup (c.handlerAt o).id with
  | none => c
  | some _ =>
    let c := { c with
      observeResourceCache := mapDelete c.observeResourceCache (c.handlerAt o).id }
    match (c.handlerAt o).device with
    | some d =>
      let c := c.emit (Call.stopObservingResource (c.handlerAt o).id d (c.handlerAt o).observationID)
      let c := c.emit (Call.removeDeviceFromPermanentCache d.DeviceID d)
      c.emit (Call.release d)
    | none => c

/-- Method `(h *observationHandler) handleMessageLocked` for the subscription at
address `s`. -/
def observationHandler.handleMessageLocked (c : Client) (s : Nat) (decode : Option decodeFunc) :
    Client :=
  match decode with
  | none => c
  | some f =>
    if (c.subscriptionAt s).isClosed then c
    else c.emit (Call.handle (c.subscriptionAt s).handler f (c.subscriptionAt s).codec)

/-- Method `(h *observationHandler) HandleMessage`. -/
def observationHandler.HandleMessage (c : Client) (s : Nat) (decode : Option decodeFunc) :
    Client :=
  let c := c.updateSubscription s fun h => { h with firstMessage := none }
  observationHandler.handleMessageLocked c s decode

/-- Method `(h *observationHandler) HandleFirstMessage`. -/
def observationHandler.HandleFirstMessage (c : Client) (s : Nat) : Client :=
  match (c.subscriptionAt s).firstMessage with
  | none => c
  | some f => observationHandler.handleMessageLocked c s (some f)

/-- Method `(h *observationHandler) OnClose`. -/
def observationHandler.OnClose (c : Client) (s : Nat) : Client :=
  if (c.subscriptionAt s).isClosed then c
  else
    let c := c.updateSubscription s fun h => { h with isClosed := true }
    c.emit (Call.onClose (c.subscriptionAt s).handler)

/-- Method `(h *observationHandler) Error`. -/
def observationHandler.Error (c : Client) (s : Nat) (err : String) : Client :=
  if (c.subscriptionAt s).isClosed then c
  else
    let c := c.updateSubscription s fun h => { h with isClosed := true }
    c.emit (Call.error (c.subscriptionAt s).handler err)

/-- Method `(o *observationsHandler) OnClose` for the entry at address `o`. -/
def observationsHandler.OnClose (c : Client) (o : Nat) : Client :=
  let c := closeObservingResource c o
  let pulled := (c.handlerAt o).observations
  let c := c.updateHandler o fun h => { h with observations := [] }
  pulled.foldl (fun c e => c.emit (Call.onClose (c.subscriptionAt e.2).handler)) c

/-- Method `(o *observationsHandler) Error` for the entry at address `o`. -/
def observationsHandler.Error (c : Client) (o : Nat) (err : String) : Client :=
  let c := closeObservingResource c o
  let pulled := (c.handlerAt o).observations
  let c := c.updateHandler o fun h => { h with observations := [] }
  pulled.foldl (fun c e => c.emit (Call.error (c.subscriptionAt e.2).handler err)) c

/-- Method `(o *observationsHandler) Handle` for the entry at address `o`; `body` is
the result of decoding the physical message. -/
def observationsHandler.Handle (c : Client) (o : Nat) (body : Except String Message) : Client :=
  match body with
  | .error err => observationsHandler.Error c o err
  | .ok message =>
    let decode := createDecodeFunc message
    let c := c.updateHandler o fun h => { h with lastMessage := some decode }
    let observations := (c.handlerAt o).observations.map Prod.snd
    observations.foldl (fun c s => observationHandler.HandleMessage c s (some decode)) c

/-- Physical messages handled one after the other by the entry at address `o`. -/
def handleAll (o : Nat) : List Message → Client → Client
  | [], c => c
  | m :: ms, c => handleAll o ms (observationsHandler.Handle c o (.ok m))

/-- Number of physical observation requests for `key` that succeeded. -/
def issued (key : String) (log : List Call) : Nat :=
  (log.filter fun call => match call with
    | .observeResourceWithCodec k _ _ _ _ (some _) => k == key
    | _ => false).length

/-- Number of physical observation requests for `key`, successful or not. -/
def requested (key : String) (log : List Call) : Nat :=
  (log.filter fun call => match call with
    | .observeResourceWithCodec k _ _ _ _ _ => k == key
    | _ => false).length

/-- Number of stop requests sent to a device for the registry entry of `key`. -/
def stopped (key : String) (log : List Call) : Nat :=
  (log.filter fun call => match call with
    | .stopObservingResource k _ _ => k == key
    | _ => false).length

/-- The text holds no `/`. -/
def noSlash (s : String) : Bool :=
  !s.data.contains '/'

/-- One call of the consumer on the multiplexer, with the results its collaborators
give during that call. -/
inductive Op
  | observe (deviceID href : String) (handler codec : Nat) (out : ObserveOutcome)
  | stop (observationID : String) (stopResult : Option String)

/-- A client together with what its consumer knows: the composite identifiers that
successful `ObserveResource` calls returned, and the subscription identifiers that
`uuid.NewV4` produced so far. -/
structure World where
  client : Client
  returned : List String
  generated : List String

/-- The world before any call. -/
def World.init : World :=
  { client := Client.empty, returned := [], generated := [] }

/-- Effect of one call on the world. -/
def step (newV5 : String → String) (w : World) : Op → World
  | .observe deviceID href handler codec out =>
    let r := ObserveResource newV5 out w.client deviceID href handler codec
    { client := r.1,
      returned := match r.2 with
        | .ok id => id :: w.returned
        | .error _ => w.returned,
      generated := match out.newV4 with
        | .ok u => u :: w.generated
        | .error _ => w.generated }
  | .stop observationID stopResult =>
    { w with client := (StopObservingResource stopResult w.client observationID).1 }

/-- Whether a call respects the contract of its collaborators and of the consumer:
`uuid.NewV4` gives an identifier it never gave before, written without `/`, and
`StopObservingResource` is given an identifier that `ObserveResource` returned. -/
def admissible (w : World) : Op → Bool
  | .observe _ _ _ _ out =>
    match out.newV4 with
    | .ok u => !w.generated.contains u && noSlash u
    | .error _ => true
  | .stop observationID _ => w.returned.contains observationID

/-- The world after a sequence of calls. -/
def run (newV5 : String → String) : World → List Op → World
  | w, [] => w
  | w, op :: ops => run newV5 (step newV5 w op) ops

/-- Whether every call of a sequence is admissible when it is made. -/
def admissibleRun (newV5 : String → String) : World → List Op → Bool
  | _, [] => true
  | w, op :: ops => admissible w op && admissibleRun newV5 (step newV5 w op) ops

/-- Calls of `ObserveResource` on the same pair made one after the other, each with
its consumer handler, codec and outcomes: the client afterwards and the results. -/
def observeMany (newV5 : String → String) (deviceID href : String) :
    List (Nat × Nat × ObserveOutcome) → Client → Client × List (Except String String)
  | [], c => (c, [])
  | (handler, codec, out) :: rest, c =>
    let r := ObserveResource newV5 out c deviceID href handler codec
    let rs := observeMany newV5 deviceID href rest r.1
    (rs.1, r.2 :: rs.2)

/-- The subscription identifiers that `uuid.NewV4` gives in a list of calls. -/
def generatedIDs : List (Nat × Nat × ObserveOutcome) → List String
  | [] => []
  | (_, _, out) :: rest =>
    match out.newV4 with
    | .ok u => u :: generatedIDs rest
    | .error _ => generatedIDs rest

/-- Whether a result is a success. -/
def isOk (r : Except String String) : Bool :=
  match r with
  | .ok _ => true
  | .error _ => false

/-- Invariant of the worlds reached by admissible calls.  `wf`: a registry key leads
to an allocated entry that carries this key.  `gen`: the subscription identifier in a
returned composite identifier was produced by `uuid.NewV4`.  `bal_none`: for a key
without entry, every physical observation that was started has been stopped.
`bal_some`: for a key with an entry, either the entry holds its device reference and
exactly one started observation is not stopped, or it holds none, at most one is not
stopped, and the entry holds a subscriber whose identifier was never returned. -/
structure Inv (w : World) : Prop where
  wf : ∀ k p, w.client.observeResourceCache.lookup k = some p →
    p < w.client.handlers.length ∧ (w.client.handlerAt p).id = k
  gen : ∀ id, id ∈ w.returned → ∀ k u, parseIDs id = .ok (k, u) → u ∈ w.generated
  bal_none : ∀ k, w.client.observeResourceCache.lookup k = none →
    issued k w.client.log = stopped k w.client.log
  bal_some : ∀ k p, w.client.observeResourceCache.lookup k = some p →
    (((w.client.handlerAt p).device.isSome = true ∧
        issued k w.client.log = stopped k w.client.log + 1) ∨
      ((w.client.handlerAt p).device = none ∧
        issued k w.client.log ≤ stopped k w.client.log + 1 ∧
        ∃ u, ((w.client.handlerAt p).observations.lookup u).isSome = true ∧
          u ∈ w.generated ∧
          ∀ id, id ∈ w.returned → ∀ k2, parseIDs id ≠ .ok (k2, u)))

/-- A sample registry hash: a tag followed by the text with every `/` replaced. -/
def sampleNewV5 (s : String) : String :=
  "key-" ++ String.mk (s.data.map fun ch => if ch = '/' then '-' else ch)

/-- Sample outcomes in which every collaborator succeeds; `u` is the fresh
subscription identifier. -/
def sampleOutcome (u : String) : ObserveOutcome :=
  { newV4 := .ok u, getRefDevice := .ok ⟨1, "dev-1"⟩, getResourceLink := .ok "/sensor",
    observeResourceWithCodec := .ok "obs-1", storeDeviceToPermanentCache := none }

/-- Sample outcomes in which the device is not found. -/
def sampleOutcomeNoDevice (u : String) : ObserveOutcome :=
  { sampleOutcome u with getRefDevice := .error "device not found" }

/-- Sample outcomes in which the physical observation starts and the device cannot be
stored afterwards. -/
def sampleOutcomeNoStore (u : String) : ObserveOutcome :=
  { sampleOutcome u with storeDeviceToPermanentCache := some "cache is full" }

/-- A sample sequence of calls: two subscriptions to `/sensor` of `dev-1`, the stop of
the second, a failed subscription to `/light`, a third subscription to `/sensor`, and
the stop of the first and of the third. -/
def sampleOps : List Op :=
  [Op.observe "dev-1" "/sensor" 10 0 (sampleOutcome "u1"),
   Op.observe "dev-1" "/sensor" 11 0 (sampleOutcome "u2"),
   Op.stop "key-dev-1-sensor/u2" none,
   Op.observe "dev-1" "/light" 12 0 (sampleOutcomeNoStore "u3"),
   Op.observe "dev-1" "/sensor" 13 0 (sampleOutcome "u4"),
   Op.stop "key-dev-1-sensor/u1" none,
   Op.stop "key-dev-1-sensor/u4" (some "timeout")]

/-- Three sample subscriptions to the same pair. -/
def sampleCalls : List (Nat × Nat × ObserveOutcome) :=
  [(10, 0, sampleOutcome "u1"), (11, 0, sampleOutcome "u2"), (12, 0, sampleOutcome "u3")]

/-- The client after one successful subscription of handler 10 to `/sensor` of `dev-1`. -/
def sampleClient1 : Client :=
  (ObserveResource sampleNewV5 (sampleOutcome "u1") Client.empty "dev-1" "/sensor" 10 0).1

/-- The client after a second successful subscription, of handler 11. -/
def sampleClient2 : Client :=
  (ObserveResource sampleNewV5 (sampleOutcome "u2") sampleClient1 "dev-1" "/sensor" 11 0).1

/-- One delivery to a logical subscriber: a live message, through `HandleMessage`, or
the run of its replay task, `HandleFirstMessage`.  Both methods hold the lock of the
subscriber for their whole body, so the deliveries to one subscriber happen one after
the other in some order. -/
inductive Delivery
  | live (m : Message)
  | replay
  deriving DecidableEq, Repr

/-- Effect of one delivery to the subscriber at address `s`. -/
def deliver (s : Nat) (c : Client) : Delivery → Client
  | .live m => observationHandler.HandleMessage c s (some m)
  | .replay => observationHandler.HandleFirstMessage c s

/-- Deliveries to the subscriber at address `s`, one after the other. -/
def deliverAll (s : Nat) : List Delivery → Client → Client
  | [], c => c
  | d :: ds, c => deliverAll s ds (deliver s c d)

/-- The messages passed to `Handle` of the consumer handler `handler`, in order. -/
def deliveredTo (handler : Nat) (log : List Call) : List Message :=
  log.filterMap fun call => match call with
    | .handle h m _ => if h = handler then some m else none
    | _ => none

/-- The terminal notifications given to the consumer handler `handler`, in order. -/
def terminalsOf (handler : Nat) (log : List Call) : List Call :=
  log.filter fun call => match call with
    | .onClose h => h = handler
    | .error h _ => h = handler
    | _ => false

/-- The sample client after the message `U1` was handled and a third subscriber, with
consumer handler 12, joined: its replay task is launched and has not run yet. -/
def sampleJoined : Client :=
  (ObserveResource sampleNewV5 (sampleOutcome "u3")
    (handleAll 0 [⟨some "U1"⟩] sampleClient2) "dev-1" "/sensor" 12 0).1

/-- The sample client after a registration of consumer handler 10 to `/sensor` of
`dev-1` that failed while the device was stored, the physical observation being
started already, and a successful subscription of consumer handler 11 afterwards. -/
def sampleUnstored : Client :=
  (ObserveResource sampleNewV5 (sampleOutcome "u2")
    (ObserveResource sampleNewV5 (sampleOutcomeNoStore "u1") Client.empty
      "dev-1" "/sensor" 10 0).1 "dev-1" "/sensor" 11 0).1

end Local

/-! ## Properties of the Go standard library fragments -/

namespace Go

/-- Reading a number leaves no more of the format than it was given. -/
theorem parsenum_length (l : List Char) : ∀ (num : Nat) (isnum : Bool),
    (parsenum num isnum l).2.length ≤ l.length := by
  induction l with
  | nil => intro num isnum; simp [parsenum]
  | cons c cs ih =>
    intro num isnum
    unfold parsenum
    split
    · split
      · simp
      · exact Nat.le_succ_of_le (ih _ _)
    · simp

/-- Reading an argument index leaves no more of the format than it was given. -/
theorem argNumber_length (good : Bool) (l : List Char) :
    (argNumber good l).2.1.length ≤ l.length := by
  unfold argNumber
  split <;> simp

/-- Reading a width leaves no more of the format than it was given. -/
theorem widthPart_length (good afterIndex : Bool) (l : List Char) :
    (widthPart good afterIndex l).2.2.1.length ≤ l.length := by
  unfold widthPart
  split
  · simp
  · exact parsenum_length _ _ _

/-- Reading a precision leaves no more of the format than it was given. -/
theorem precisionPart_length (good afterIndex : Bool) (l : List Char) :
    (precisionPart good afterIndex l).2.2.1.length ≤ l.length := by
  unfold precisionPart
  split
  · rename_i rest
    have h := argNumber_length (good && !afterIndex) rest
    split
    · rename_i rest3 heq
      rw [heq] at h
      simp at h ⊢
      omega
    · have h2 := parsenum_length (argNumber (good && !afterIndex) rest).2.1 0 false
      simp only [List.length_cons]
      omega
  · simp

/-- Reading a verb leaves no more of the format than it was given. -/
theorem verbPart_length (good : Bool) (l : List Char) :
    (verbPart good l).2.length ≤ l.length := by
  unfold verbPart
  split
  · simp
  · split
    · simp
    · split <;> simp

/-- Dropping a prefix does not lengthen a list. -/
theorem dropWhile_length (l : List Char) (p : Char → Bool) :
    (l.dropWhile p).length ≤ l.length := by
  induction l with
  | nil => simp
  | cons c cs ih =>
    simp only [List.dropWhile_cons]
    split
    · exact Nat.le_succ_of_le ih
    · exact Nat.le_refl _

/-- A directive leaves no more of the format than it was given. -/
theorem directive_length (l : List Char) : (directive l).2.length ≤ l.length := by
  have h0 := dropWhile_length l isFlag
  have h1 := argNumber_length true (l.dropWhile isFlag)
  have h2 := widthPart_length (argNumber true (l.dropWhile isFlag)).1
    (argNumber true (l.dropWhile isFlag)).2.2 (argNumber true (l.dropWhile isFlag)).2.1
  simp only [directive]
  generalize widthPart _ _ _ = w at h2 ⊢
  have h3 := precisionPart_length w.2.1 w.2.2.2 w.2.2.1
  generalize precisionPart _ _ _ = p at h3 ⊢
  have h5 := verbPart_length
  split
  · have := h5 p.2.1 p.2.2.1
    simp only
    omega
  · have h4 := argNumber_length p.2.1 p.2.2.1
    have := h5 (argNumber p.2.1 p.2.2.1).1 (argNumber p.2.1 p.2.2.1).2.1
    omega

/-- The rendering does not depend on the fuel once the fuel covers the length of the
format: `Errorf` never stops before the end of its format. -/
theorem sprintfNoArgs_fuel (n : Nat) : ∀ (l : List Char) (m : Nat),
    l.length ≤ n → l.length ≤ m → sprintfNoArgs n l = sprintfNoArgs m l := by
  induction n with
  | zero =>
    intro l m hn hm
    have : l = [] := List.length_eq_zero.mp (Nat.le_zero.mp hn)
    subst this
    cases m <;> simp [sprintfNoArgs]
  | succ n ih =>
    intro l m hn hm
    cases l with
    | nil => cases m <;> simp [sprintfNoArgs]
    | cons c cs =>
      cases m with
      | zero => simp at hm
      | succ m =>
        simp only [List.length_cons, Nat.add_le_add_iff_right] at hn hm
        have hd := directive_length cs
        simp only [sprintfNoArgs]
        rw [ih cs m hn hm, ih (directive cs).2 m (by omega) (by omega)]

/-- Text without `%` is rendered as it stands. -/
theorem sprintfNoArgs_plain (l : List Char) (h : '%' ∉ l) :
    sprintfNoArgs l.length l = l := by
  induction l with
  | nil => rfl
  | cons c cs ih =>
    have hc : c ≠ '%' := fun e => h (by simp [e])
    have hcs : '%' ∉ cs := fun e => h (by simp [e])
    simp [sprintfNoArgs, hc, ih hcs]

/-- The error built from a text without `%` has that text. -/
theorem Errorf_plain (format : String) (h : '%' ∉ format.toList) :
    Errorf format = format := by
  have := sprintfNoArgs_plain format.toList h
  simp only [String.toList] at this
  simp only [Errorf, String.length, String.toList, this]

end Go

/-! ## Properties of backend/resourceSubscription.go -/

namespace Backend

theorem Cancel_log (env : Env) (s : ResourceSubscription) :
    (Cancel env s).1.log = s.log ++ [Call.closeSend] := by
  unfold Cancel Go.CompareAndSwapUint32
  simp only [if_true]
  cases env.closeSend (closeSendCount s.log) <;> simp

theorem closeSendCount_append (l1 l2 : List Call) :
    closeSendCount (l1 ++ l2) = closeSendCount l1 + closeSendCount l2 := by
  simp [closeSendCount]

theorem cancelTimes_closeSendCount (env : Env) (n : Nat) (s : ResourceSubscription) :
    closeSendCount (cancelTimes env n s).1.log = closeSendCount s.log + n := by
  induction n generalizing s with
  | zero => simp [cancelTimes]
  | succ n ih =>
    simp only [cancelTimes]
    rw [ih, Cancel_log, closeSendCount_append]
    simp [closeSendCount]
    omega

/-- C1 (evaluation at the failing input): when the stream delivers a
subscription-cancelled message with the empty reason, `runRecv` returns after
calling both `OnClose` and `Error` on the handler, whatever the environment and
the earlier state of the subscription. -/
theorem runRecv_canceled_empty_reason_notifies_both (env : Env) (s : ResourceSubscription)
    (sid : String) :
    runRecv env [RecvResult.event ⟨sid, EventType.subscriptionCanceled ""⟩] s
      = ((⟨s.subscriptionID, s.wait, 1, s.log ++ [Call.recv, Call.closeSend,
            Call.onClose, Call.error ""]⟩ : ResourceSubscription), true)
    ∧ onCloseCount [Call.recv, Call.closeSend, Call.onClose, Call.error ""] = 1
    ∧ errorCount [Call.recv, Call.closeSend, Call.onClose, Call.error ""] = 1 := by
  refine ⟨?_, by decide, by decide⟩
  simp only [runRecv, Event.GetSubscriptionCanceled, ResourceSubscription.emit, Cancel,
    Go.CompareAndSwapUint32]
  cases env.closeSend (closeSendCount (s.log ++ [Call.recv])) <;>
    simp [Go.Errorf, Go.sprintfNoArgs]

theorem Cancel_result (env : Env) (s : ResourceSubscription) :
    (Cancel env s).1.wait = s.wait ∧
      ((Cancel env s).2 = .ok s.wait ∨ ∃ e, (Cancel env s).2 = .error e) := by
  unfold Cancel Go.CompareAndSwapUint32
  simp only [if_true]
  cases env.closeSend (closeSendCount s.log) <;> simp

theorem cancelTimes_results (env : Env) (n : Nat) (s : ResourceSubscription) :
    ∀ r, r ∈ (cancelTimes env n s).2 → r = .ok s.wait ∨ ∃ e, r = .error e := by
  induction n generalizing s with
  | zero => simp [cancelTimes]
  | succ n ih =>
    intro r hr
    simp only [cancelTimes, List.mem_cons] at hr
    rcases hr with rfl | hr
    · exact (Cancel_result env s).2
    · have := ih (Cancel env s).1 r hr
      rwa [(Cancel_result env s).1] at this

/-- C2 (evaluation of the defect): every call of `Cancel` executes the half-close
`client.CloseSend`: after `n` calls in a row the log holds `n` more `CloseSend`
calls than before, the flag `canceled` never preventing one; in particular two calls
on a new subscription execute it twice.  Each call returns the wait handle of the
subscription or the error of its half-close. -/
theorem Cancel_executes_closeSend_on_every_call (env : Env) (n : Nat)
    (s : ResourceSubscription) :
    closeSendCount (cancelTimes env n s).1.log = closeSendCount s.log + n ∧
    closeSendCount (cancelTimes env 2 (newSubscription "sub" 0)).1.log = 2 ∧
    ∀ r, r ∈ (cancelTimes env n s).2 → r = .ok s.wait ∨ ∃ e, r = .error e := by
  refine ⟨cancelTimes_closeSendCount env n s, ?_, cancelTimes_results env n s⟩
  rw [cancelTimes_closeSendCount]
  rfl

theorem handleCount_append (l1 l2 : List Call) :
    handleCount (l1 ++ l2) = handleCount l1 + handleCount l2 := by
  simp [handleCount]

theorem Cancel_fst (env : Env) (s : ResourceSubscription) :
    (Cancel env s).1 = { s with canceled := 1, log := s.log ++ [Call.closeSend] } := by
  unfold Cancel Go.CompareAndSwapUint32
  simp only [if_true]
  cases env.closeSend (closeSendCount s.log) <;> simp

/-- One turn of the receive loop on a content-changed event. -/
theorem runRecv_content (env : Env) (s : ResourceSubscription) (sid ct : String)
    (rest : List RecvResult) :
    runRecv env (RecvResult.event ⟨sid, EventType.resourceContentChanged ct⟩ :: rest) s
      = match env.handle (handleCount s.log) ct with
        | none => runRecv env rest
            { s with log := s.log ++ [Call.recv, Call.handleResourceContentChanged ct] }
        | some e =>
          ({ s with canceled := 1,
                    log := s.log ++ [Call.recv, Call.handleResourceContentChanged ct,
                      Call.closeSend, Call.error e] }, true) := by
  have hc : handleCount (s.log ++ [Call.recv]) = handleCount s.log := by
    simp [handleCount]
  simp only [runRecv, Event.GetSubscriptionCanceled, Event.GetResourceContentChanged,
    ResourceSubscription.emit, hc]
  cases env.handle (handleCount s.log) ct with
  | none => simp
  | some e => simp [Cancel_fst]

/-- One turn of the receive loop on a result that is neither a content-changed event
nor a subscription-cancelled message. -/
theorem runRecv_terminal (env : Env) (s : ResourceSubscription) (t : RecvResult)
    (rest : List RecvResult) (ht : isPlainTerminal t = true) :
    runRecv env (t :: rest) s
      = ({ s with canceled := 1,
                  log := s.log ++ [Call.recv, Call.closeSend, terminalNotification env t] },
          true) := by
  cases t with
  | eof => simp [runRecv, Cancel_fst, ResourceSubscription.emit, terminalNotification]
  | fail err => simp [runRecv, Cancel_fst, ResourceSubscription.emit, terminalNotification]
  | event ev =>
    simp only [isPlainTerminal, Bool.and_eq_true, Option.isNone_iff_eq_none] at ht
    simp [runRecv, ht.1, ht.2, Cancel_fst, ResourceSubscription.emit, terminalNotification]

theorem runRecv_all_handled (env : Env) (contents : List (String × String))
    (s : ResourceSubscription) (t : RecvResult) (rest : List RecvResult)
    (hnil : ∀ r, r ∈ handlerAnswers env (handleCount s.log) contents → r = none)
    (ht : isPlainTerminal t = true) :
    runRecv env (contentEvents contents ++ t :: rest) s
      = ({ s with canceled := 1,
                  log := s.log ++ handledCalls contents
                    ++ [Call.recv, Call.closeSend, terminalNotification env t] }, true) := by
  induction contents generalizing s with
  | nil =>
    simp only [contentEvents, List.map_nil, List.nil_append, handledCalls, List.flatMap_nil,
      List.append_nil]
    exact runRecv_terminal env s t rest ht
  | cons e cs ih =>
    simp only [handlerAnswers, List.mem_cons, forall_eq_or_imp] at hnil
    simp only [contentEvents, List.map_cons, List.cons_append]
    rw [runRecv_content, hnil.1]
    simp only
    have hc : handleCount (s.log ++ [Call.recv, Call.handleResourceContentChanged e.2])
        = handleCount s.log + 1 := by simp [handleCount]
    have := ih { s with log := s.log ++ [Call.recv, Call.handleResourceContentChanged e.2] }
      (by simpa only [hc] using hnil.2)
    simp only [contentEvents] at this
    rw [this]
    simp [handledCalls]

theorem runRecv_handler_error (env : Env) (handled : List (String × String))
    (bad : String × String) (later : List (String × String)) (e : String)
    (s : ResourceSubscription) (rest : List RecvResult)
    (hnil : ∀ r, r ∈ handlerAnswers env (handleCount s.log) handled → r = none)
    (hbad : env.handle (handleCount s.log + handled.length) bad.2 = some e) :
    runRecv env (contentEvents (handled ++ bad :: later) ++ rest) s
      = ({ s with canceled := 1,
                  log := s.log ++ handledCalls (handled ++ [bad])
                    ++ [Call.closeSend, Call.error e] }, true) := by
  induction handled generalizing s with
  | nil =>
    simp only [List.nil_append, contentEvents, List.map_cons, List.cons_append,
      List.length_nil, Nat.add_zero] at hbad ⊢
    rw [runRecv_content, hbad]
    simp [handledCalls]
  | cons x xs ih =>
    simp only [handlerAnswers, List.mem_cons, forall_eq_or_imp] at hnil
    simp only [contentEvents, List.map_cons, List.cons_append]
    rw [runRecv_content, hnil.1]
    simp only
    have hc : handleCount (s.log ++ [Call.recv, Call.handleResourceContentChanged x.2])
        = handleCount s.log + 1 := by simp [handleCount]
    have := ih { s with log := s.log ++ [Call.recv, Call.handleResourceContentChanged x.2] }
      (by simpa only [hc] using hnil.2)
      (by simp only [hc]; simpa [Nat.add_assoc, Nat.add_comm 1] using hbad)
    simp only [contentEvents] at this
    rw [this]
    simp [handledCalls]

/-- C12 (evaluation of the defect): on a subscription-cancelled message with reason
`reason`, `runRecv` cancels, notifies and returns without another `Recv`.  It always
notifies `Error`, with the text that `fmt.Errorf(reason)` builds from `reason` taken
as a format, and for the empty reason it notifies `OnClose` first: the empty reason
gives both `OnClose` and `Error("")`, and the reason `quota 100% used` gives an error
whose text is not that reason. -/
theorem runRecv_canceled_notifications (env : Env) (s : ResourceSubscription)
    (sid reason : String) (rest : List RecvResult) :
    runRecv env (RecvResult.event ⟨sid, EventType.subscriptionCanceled reason⟩ :: rest) s
      = ({ s with canceled := 1,
                  log := s.log ++ [Call.recv, Call.closeSend]
                    ++ (if reason = "" then [Call.onClose] else [])
                    ++ [Call.error (Go.Errorf reason)] }, true) ∧
    (runRecv env [RecvResult.event ⟨sid, EventType.subscriptionCanceled ""⟩] s).1.log
      = s.log ++ [Call.recv, Call.closeSend, Call.onClose, Call.error ""] ∧
    (runRecv env [RecvResult.event ⟨sid, EventType.subscriptionCanceled "quota 100% used"⟩]
        s).1.log
      = s.log ++ [Call.recv, Call.closeSend, Call.error "quota 100%!u(MISSING)sed"] := by
  have h : ∀ (reason : String) (rest : List RecvResult),
      runRecv env (RecvResult.event ⟨sid, EventType.subscriptionCanceled reason⟩ :: rest) s
      = ({ s with canceled := 1,
                  log := s.log ++ [Call.recv, Call.closeSend]
                    ++ (if reason = "" then [Call.onClose] else [])
                    ++ [Call.error (Go.Errorf reason)] }, true) := by
    intro reason rest
    simp only [runRecv, Event.GetSubscriptionCanceled, Cancel_fst, ResourceSubscription.emit]
    split_ifs <;> simp
  refine ⟨h reason rest, ?_, ?_⟩
  · rw [h]
    have : Go.Errorf "" = "" := by decide
    simp [this]
  · rw [h]
    have h1 : Go.Errorf "quota 100% used" = "quota 100%!u(MISSING)sed" := by decide
    have h2 : ¬ ("quota 100% used" = "") := by decide
    simp [h1, h2]

/-- C13: the receive loop on content-changed events followed by a terminal condition.
(1) When the content handler accepts every event and the next result `t` is EOF, a
receive error or a message of another shape, the loop receives and handles the events
one by one in arrival order, receives `t`, half-closes, and notifies once: `OnClose`
for EOF, `Error(e)` for the receive error `e`, the unknown-event error otherwise.
(2) When the handler accepts the events `handled` and answers the error `e` to the
next one, the loop handles these events in order, half-closes and notifies `Error(e)`;
no later event is handled.  In both cases the loop returns and whatever follows on the
stream (`rest`) is never received. -/
theorem runRecv_handles_in_order_then_notifies_once (env : Env) (s : ResourceSubscription)
    (rest : List RecvResult) :
    (∀ contents t,
      (∀ r, r ∈ handlerAnswers env (handleCount s.log) contents → r = none) →
      isPlainTerminal t = true →
      runRecv env (contentEvents contents ++ t :: rest) s
        = ({ s with canceled := 1,
                    log := s.log ++ handledCalls contents
                      ++ [Call.recv, Call.closeSend, terminalNotification env t] }, true)) ∧
    (∀ handled bad later e,
      (∀ r, r ∈ handlerAnswers env (handleCount s.log) handled → r = none) →
      env.handle (handleCount s.log + handled.length) bad.2 = some e →
      runRecv env (contentEvents (handled ++ bad :: later) ++ rest) s
        = ({ s with canceled := 1,
                    log := s.log ++ handledCalls (handled ++ [bad])
                      ++ [Call.closeSend, Call.error e] }, true)) :=
  ⟨fun contents t hnil ht => runRecv_all_handled env contents s t rest hnil ht,
    fun handled bad later e hnil hbad =>
      runRecv_handler_error env handled bad later e s rest hnil hbad⟩

theorem runRecv_handles_in_order_then_notifies_once_witness :
    runRecv sampleEnv (contentEvents [("sub-1", "a"), ("sub-1", "b")]
        ++ RecvResult.eof :: [RecvResult.fail "late"]) (newSubscription "sub-1" 0)
      = ({ subscriptionID := "sub-1", wait := 0, canceled := 1,
           log := [Call.recv, Call.handleResourceContentChanged "a",
                   Call.recv, Call.handleResourceContentChanged "b",
                   Call.recv, Call.closeSend, Call.onClose] }, true) ∧
    runRecv sampleEnv (contentEvents ([("sub-1", "a")] ++ ("sub-1", "bad") :: [("sub-1", "c")])
        ++ [RecvResult.eof]) (newSubscription "sub-1" 0)
      = ({ subscriptionID := "sub-1", wait := 0, canceled := 1,
           log := [Call.recv, Call.handleResourceContentChanged "a",
                   Call.recv, Call.handleResourceContentChanged "bad",
                   Call.closeSend, Call.error "rejected"] }, true) :=
  ⟨(runRecv_handles_in_order_then_notifies_once sampleEnv (newSubscription "sub-1" 0)
      [RecvResult.fail "late"]).1 [("sub-1", "a"), ("sub-1", "b")] RecvResult.eof
      (by decide) rfl,
    (runRecv_handles_in_order_then_notifies_once sampleEnv (newSubscription "sub-1" 0)
      [RecvResult.eof]).2 [("sub-1", "a")] ("sub-1", "bad") [("sub-1", "c")] "rejected"
      (by decide) rfl⟩

/-- C14 (evaluation at the failing input): an acknowledgment that is not an
operation-processed message, or that carries a status other than OK, makes
`NewResourceSubscription` return an error after its single `Recv`, without launching
the receive loop.  For a status other than OK the text of the error is what
`fmt.Errorf(message)` builds from the server message taken as a format: for the
message `disk 100% full` it is `disk 100%!f(MISSING)ull`, which does not contain the
message. -/
theorem NewResourceSubscription_bad_acknowledgment (formatEvent : Event → String)
    (code : Nat) (message sid shape : String) (wait : Nat) :
    NewResourceSubscription formatEvent (ackOutcome (code + 1) message)
      = ([Call.subscribeForEvents, Call.send, Call.recv], .error (Go.Errorf message)) ∧
    NewResourceSubscription formatEvent
        { isResourceContentChangedHandler := true, subscribeForEvents := none, send := none,
          recv := .event ⟨sid, .other shape⟩, wait := wait }
      = ([Call.subscribeForEvents, Call.send, Call.recv],
          .error ("unexpected event " ++ formatEvent ⟨sid, .other shape⟩)) ∧
    NewResourceSubscription formatEvent (ackOutcome 1 "disk 100% full")
      = ([Call.subscribeForEvents, Call.send, Call.recv],
          .error "disk 100%!f(MISSING)ull") ∧
    containsText "disk 100%!f(MISSING)ull" "disk 100% full" = false ∧
    NewResourceSubscription formatEvent (ackOutcome 1 "resource not found")
      = ([Call.subscribeForEvents, Call.send, Call.recv], .error "resource not found") := by
  refine ⟨?_, ?_, ?_, by decide, ?_⟩
  · simp [NewResourceSubscription, ackOutcome, Event.GetOperationProcessed, ErrorStatus_OK]
  · simp [NewResourceSubscription, Event.GetOperationProcessed]
  · have h1 : Go.Errorf "disk 100% full" = "disk 100%!f(MISSING)ull" := by decide
    simp [NewResourceSubscription, ackOutcome, Event.GetOperationProcessed, ErrorStatus_OK, h1]
  · have h1 : Go.Errorf "resource not found" = "resource not found" := by decide
    simp [NewResourceSubscription, ackOutcome, Event.GetOperationProcessed, ErrorStatus_OK, h1]

end Backend

/-! ## Properties of local/core/device.go -/

namespace Core

theorem dialPlain_frame (env : Env) (t : Transport) (a : String) (d : Device) :
    DialFrame env a d (dialPlain env t a d) := by
  refine ⟨[Call.dial t a], rfl, ?_⟩
  intro c hc
  exact ⟨t, [], rfl, by simpa [dialPlain] using hc⟩

theorem dialSecure_frame (env : Env) (t : Transport) (a : String) (d : Device) :
    DialFrame env a d (dialSecure env t a d) := by
  unfold dialSecure Device.emit
  cases h1 : env.getCertificate d.log.length with
  | some e => exact ⟨[Call.getCertificate], by simp, by simp⟩
  | none =>
    simp only [List.length_append, List.length_singleton, List.append_assoc,
      List.singleton_append]
    cases h2 : env.getCertificateAuthorities (d.log.length + 1) with
    | some e =>
      exact ⟨[Call.getCertificate, Call.getCertificateAuthorities], by simp, by simp⟩
    | none =>
      refine ⟨[Call.getCertificate, Call.getCertificateAuthorities, Call.dial t a], by simp, ?_⟩
      intro c hc
      exact ⟨t, [Call.getCertificate, Call.getCertificateAuthorities], rfl, by simpa using hc⟩

theorem wrapDialError_frame (env : Env) (a url : String) (d : Device)
    (r : Device × Except String Conn) (h : DialFrame env a d r) :
    DialFrame env a d (wrapDialError url r) := by
  obtain ⟨calls, h1, h2⟩ := h
  rcases r with ⟨d1, _ | c⟩
  · exact ⟨calls, h1, by simp [wrapDialError]⟩
  · exact ⟨calls, h1, by simpa [wrapDialError] using h2⟩

theorem frame_of_error (env : Env) (a : String) (d : Device) (e : String) :
    DialFrame env a d (d, .error e) :=
  ⟨[], by simp, by simp⟩

/-- The dial step only appends to the log, and a connection it yields comes from a
dial of the address that is the last call made. -/
theorem connectToEndpoint_dial_frame (env : Env) (d : Device) (addr : Addr) :
    DialFrame env addr.HostPort d (connectToEndpoint_dial env d addr) := by
  unfold connectToEndpoint_dial DialUDPSecure DialTCPSecure
  split_ifs
  · exact wrapDialError_frame _ _ _ _ _ (dialPlain_frame _ _ _ _)
  · exact frame_of_error _ _ _ _
  · exact wrapDialError_frame _ _ _ _ _ (dialSecure_frame _ _ _ _)
  · exact wrapDialError_frame _ _ _ _ _ (dialPlain_frame _ _ _ _)
  · exact frame_of_error _ _ _ _
  · exact wrapDialError_frame _ _ _ _ _ (dialSecure_frame _ _ _ _)
  · exact frame_of_error _ _ _ _

theorem connectToEndpoint_cached (env : Env) (d : Device) (e : Endpoint) (addr : Addr)
    (c : Conn) (ha : e.GetAddr = .ok addr) (hc : d.conn.lookup addr.URL = some c) :
    connectToEndpoint env d e = (d, .ok c) := by
  simp [connectToEndpoint, ha, getConn, hc]

theorem connectToEndpoint_error_frame (env : Env) (d d1 : Device) (e : Endpoint)
    (err : String) (h : connectToEndpoint env d e = (d1, .error err)) :
    ∃ calls, d1 = { d with log := d.log ++ calls } := by
  unfold connectToEndpoint at h
  cases ha : e.GetAddr with
  | error x =>
    simp only [ha] at h
    exact ⟨[], by simp [← (Prod.mk.inj h).1]⟩
  | ok addr =>
    simp only [ha, getConn] at h
    cases hl : d.conn.lookup addr.URL with
    | some c => simp [hl] at h
    | none =>
      simp only [hl] at h
      obtain ⟨calls, hf, -⟩ := connectToEndpoint_dial_frame env d addr
      rcases hd : connectToEndpoint_dial env d addr with ⟨d2, x | c⟩
      · simp only [hd] at h hf
        exact ⟨calls, by rw [← (Prod.mk.inj h).1, hf]⟩
      · simp [hd] at h

theorem connectToEndpoint_dialled (env : Env) (d d1 : Device) (e : Endpoint) (addr : Addr)
    (c : Conn) (ha : e.GetAddr = .ok addr) (hl : d.conn.lookup addr.URL = none)
    (h : connectToEndpoint env d e = (d1, .ok c)) :
    ∃ t before, env.dial t addr.HostPort (d.log.length + before.length) = .ok c ∧
      d1 = { d with
        log := d.log ++ before ++ [Call.dial t addr.HostPort, Call.registerCloseHandler c addr.URL],
        closeHandlers := d.closeHandlers ++ [(c, addr.URL)],
        conn := d.conn ++ [(addr.URL, c)] } := by
  unfold connectToEndpoint at h
  simp only [ha, getConn, hl] at h
  obtain ⟨calls, hf, hok⟩ := connectToEndpoint_dial_frame env d addr
  rcases hd : connectToEndpoint_dial env d addr with ⟨d2, x | c2⟩
  · simp [hd] at h
  · simp only [hd] at h hf hok
    obtain ⟨t, before, hcalls, hdial⟩ := hok c2 rfl
    subst hf
    simp only [connectToEndpoint_insert, hl, Device.emit, Prod.mk.injEq, Except.ok.injEq] at h
    obtain ⟨h1, h2⟩ := h
    subst h2
    refine ⟨t, before, hdial, ?_⟩
    rw [← h1, hcalls]
    simp

/-- The loop of `connectToEndpoints` and the plain succession of attempts agree. -/
theorem connectToEndpointsLoop_eq_tryEach (env : Env) (eps : List Endpoint) (d : Device)
    (errors : List String) :
    connectToEndpointsLoop env eps d errors =
      ((tryEach env eps d).1,
        match (tryEach env eps d).2.2 with
        | some c => .ok c
        | none =>
          if (errors ++ (tryEach env eps d).2.1).length > 0 then
            .error (Go.formatErrors (errors ++ (tryEach env eps d).2.1))
          else .error (Go.Errorf "cannot connect to empty endpoints")) := by
  induction eps generalizing d errors with
  | nil => simp only [connectToEndpointsLoop, tryEach, List.append_nil]; split_ifs <;> rfl
  | cons e rest ih =>
    simp only [connectToEndpointsLoop, tryEach]
    rcases hc : connectToEndpoint env d e with ⟨d1, err | c⟩
    · simp only [ih, List.append_assoc, List.singleton_append]
    · simp

theorem tryEach_none (env : Env) (eps : List Endpoint) (d : Device)
    (h : (tryEach env eps d).2.2 = none) :
    (tryEach env eps d).2.1.length = eps.length ∧
      ∃ calls, (tryEach env eps d).1 = { d with log := d.log ++ calls } := by
  induction eps generalizing d with
  | nil => exact ⟨rfl, [], by simp [tryEach]⟩
  | cons e rest ih =>
    simp only [tryEach] at h ⊢
    rcases hc : connectToEndpoint env d e with ⟨d1, err | c⟩
    · simp only [hc] at h ⊢
      obtain ⟨hlen, calls, hframe⟩ := ih d1 h
      obtain ⟨calls1, h1⟩ := connectToEndpoint_error_frame env d d1 e err hc
      refine ⟨by simp [hlen], calls1 ++ calls, ?_⟩
      rw [hframe, h1]
      simp
    · simp [hc] at h

theorem tryEach_some (env : Env) (eps : List Endpoint) (d : Device) (conn : Conn)
    (h : (tryEach env eps d).2.2 = some conn) :
    ∃ before e after d1 errs, eps = before ++ e :: after ∧
      tryEach env before d = (d1, errs, none) ∧
      connectToEndpoint env d1 e = ((tryEach env eps d).1, .ok conn) ∧
      ∀ after2, tryEach env (before ++ e :: after2) d = ((tryEach env eps d).1, errs, some conn) := by
  induction eps generalizing d with
  | nil => simp [tryEach] at h
  | cons e rest ih =>
    rcases hc : connectToEndpoint env d e with ⟨d1, err | c⟩
    · simp only [tryEach, hc] at h ⊢
      obtain ⟨before, e2, after, d2, errs, heq, hpre, hconn, hindep⟩ := ih d1 h
      refine ⟨e :: before, e2, after, d2, err :: errs, by simp [heq], ?_, hconn, ?_⟩
      · simp [tryEach, hc, hpre]
      · intro after2
        simp [tryEach, hc, hindep after2]
    · simp only [tryEach, hc] at h ⊢
      simp only [Option.some.injEq] at h
      subst h
      exact ⟨[], e, rest, d, [], rfl, rfl, hc, by intro after2; simp [tryEach, hc]⟩

/-- C6: when `connectToEndpoints` returns a connection, the endpoint list splits as
`before ++ e :: after` where every endpoint of `before` was attempted in order and
failed (leaving the map as it was), the connection is the one `connectToEndpoint`
gives for `e`, which is either the connection cached under the address of `e` (then
this attempt changes nothing in the device: no dial, same map) or the connection
returned by a dial of that address, inserted under it; and nothing after `e` is
attempted: the outcome is the same whatever follows `e`. -/
theorem connectToEndpoints_returns_first_usable (env : Env) (d d1 : Device)
    (eps : List Endpoint) (conn : Conn)
    (h : connectToEndpoints env d eps = (d1, .ok conn)) :
    ∃ before e after d0 errs addr,
      eps = before ++ e :: after ∧
      tryEach env before d = (d0, errs, none) ∧ errs.length = before.length ∧
      d0.conn = d.conn ∧
      connectToEndpoint env d0 e = (d1, .ok conn) ∧
      e.GetAddr = .ok addr ∧
      ((d.conn.lookup addr.URL = some conn ∧ d1 = d0) ∨
        (d.conn.lookup addr.URL = none ∧
          ∃ t calls, env.dial t addr.HostPort (d0.log.length + calls.length) = .ok conn ∧
            d1 = { d0 with
              log := d0.log ++ calls ++
                [Call.dial t addr.HostPort, Call.registerCloseHandler conn addr.URL],
              closeHandlers := d0.closeHandlers ++ [(conn, addr.URL)],
              conn := d0.conn ++ [(addr.URL, conn)] })) ∧
      ∀ after2, connectToEndpoints env d (before ++ e :: after2) = (d1, .ok conn) := by
  unfold connectToEndpoints at h
  rw [connectToEndpointsLoop_eq_tryEach] at h
  cases ht : (tryEach env eps d).2.2 with
  | none =>
    simp only [ht, List.nil_append] at h
    split_ifs at h <;> simp at h
  | some c =>
    simp only [ht, Prod.mk.injEq, Except.ok.injEq] at h
    obtain ⟨hd1, hc⟩ := h
    subst hc
    obtain ⟨before, e, after, d0, errs, heq, hpre, hconn, hindep⟩ := tryEach_some env eps d c ht
    rw [hd1] at hconn hindep
    have hnone : (tryEach env before d).2.2 = none := by rw [hpre]
    obtain ⟨hlen, calls, hframe⟩ := tryEach_none env before d hnone
    rw [hpre] at hlen hframe
    simp only at hlen hframe
    have hmap : d0.conn = d.conn := by rw [hframe]
    cases ha : e.GetAddr with
    | error x => simp [connectToEndpoint, ha] at hconn
    | ok addr =>
      refine ⟨before, e, after, d0, errs, addr, heq, hpre, hlen, hmap, hconn, ha, ?_, ?_⟩
      · cases hl : d.conn.lookup addr.URL with
        | some c2 =>
          left
          have := connectToEndpoint_cached env d0 e addr c2 ha (by rw [hmap, hl])
          rw [this] at hconn
          simp only [Prod.mk.injEq, Except.ok.injEq] at hconn
          exact ⟨by rw [hconn.2], hconn.1.symm⟩
        | none =>
          right
          exact ⟨rfl, connectToEndpoint_dialled env d0 d1 e addr c ha (by rw [hmap, hl]) hconn⟩
      · intro after2
        unfold connectToEndpoints
        rw [connectToEndpointsLoop_eq_tryEach, hindep after2]

theorem connectToEndpoints_returns_first_usable_witness :
    ∃ before e after d0 errs addr,
      sampleEndpoints = before ++ e :: after ∧
      tryEach sampleEnv before sampleDevice = (d0, errs, none) ∧ errs.length = before.length ∧
      d0.conn = sampleDevice.conn ∧
      connectToEndpoint sampleEnv d0 e
        = ((connectToEndpoints sampleEnv sampleDevice sampleEndpoints).1, .ok 103) ∧
      e.GetAddr = .ok addr ∧
      ((sampleDevice.conn.lookup addr.URL = some 103 ∧
          (connectToEndpoints sampleEnv sampleDevice sampleEndpoints).1 = d0) ∨
        (sampleDevice.conn.lookup addr.URL = none ∧
          ∃ t calls, sampleEnv.dial t addr.HostPort (d0.log.length + calls.length) = .ok 103 ∧
            (connectToEndpoints sampleEnv sampleDevice sampleEndpoints).1 = { d0 with
              log := d0.log ++ calls ++
                [Call.dial t addr.HostPort, Call.registerCloseHandler 103 addr.URL],
              closeHandlers := d0.closeHandlers ++ [(103, addr.URL)],
              conn := d0.conn ++ [(addr.URL, 103)] })) ∧
      ∀ after2, connectToEndpoints sampleEnv sampleDevice (before ++ e :: after2)
        = ((connectToEndpoints sampleEnv sampleDevice sampleEndpoints).1, .ok 103) :=
  connectToEndpoints_returns_first_usable sampleEnv sampleDevice _ sampleEndpoints 103 rfl

theorem formatErrors_ne_empty_endpoints (errs : List String) :
    Go.formatErrors errs ≠ Go.Errorf "cannot connect to empty endpoints" := by
  intro h
  have h2 := congrArg String.data h
  have h3 : (Go.Errorf "cannot connect to empty endpoints").data
      = "cannot connect to empty endpoints".data := by decide
  rw [h3] at h2
  simp only [Go.formatErrors, String.data_append] at h2
  have h4 := congrArg List.head? h2
  simp at h4

/-- C7: `connectToEndpoints` returns an error exactly when no attempt yields a
connection.  For the empty list the error is "cannot connect to empty endpoints" and
the device is untouched; for a non-empty list of endpoints that all fail, the error
is the rendering `[e1 ... en]` of the `n` failures in list order and the connection
map is unchanged; the two errors are never the same. -/
theorem connectToEndpoints_error_iff_all_fail (env : Env) (d : Device)
    (eps : List Endpoint) :
    ((∃ err, (connectToEndpoints env d eps).2 = .error err) ↔ (tryEach env eps d).2.2 = none) ∧
    (eps = [] →
      connectToEndpoints env d eps = (d, .error "cannot connect to empty endpoints")) ∧
    (eps ≠ [] → (tryEach env eps d).2.2 = none →
      (connectToEndpoints env d eps).2 = .error (Go.formatErrors (tryEach env eps d).2.1) ∧
      (tryEach env eps d).2.1.length = eps.length ∧
      (connectToEndpoints env d eps).1.conn = d.conn ∧
      Go.formatErrors (tryEach env eps d).2.1 ≠ "cannot connect to empty endpoints") := by
  refine ⟨?_, ?_, ?_⟩
  · unfold connectToEndpoints
    rw [connectToEndpointsLoop_eq_tryEach]
    cases ht : (tryEach env eps d).2.2 with
    | none => simp only [List.nil_append]; split_ifs <;> simp
    | some c => simp
  · intro h
    subst h
    simp only [connectToEndpoints, connectToEndpointsLoop]
    simp only [List.length_nil, gt_iff_lt, lt_self_iff_false, if_false, Prod.mk.injEq,
      Except.error.injEq, true_and]
    decide
  · intro hne ht
    obtain ⟨hlen, calls, hframe⟩ := tryEach_none env eps d ht
    have hpos : 0 < (tryEach env eps d).2.1.length := by
      rw [hlen]; exact List.length_pos.mpr hne
    refine ⟨?_, hlen, ?_, ?_⟩
    · unfold connectToEndpoints
      rw [connectToEndpointsLoop_eq_tryEach]
      simp only [ht, List.nil_append]
      rw [if_pos hpos]
    · unfold connectToEndpoints
      rw [connectToEndpointsLoop_eq_tryEach]
      simp only [hframe]
    · have h := formatErrors_ne_empty_endpoints (tryEach env eps d).2.1
      have h3 : Go.Errorf "cannot connect to empty endpoints"
          = "cannot connect to empty endpoints" := by decide
      rwa [h3] at h

theorem connectToEndpoints_error_iff_all_fail_witness :
    (connectToEndpoints sampleEnv sampleDevice (sampleEndpoints.take 3)).2
      = .error ("[invalid endpoint cannot connect to coap://10.0.0.1:5683: connection refused "
          ++ "cannot connect to coaps://10.0.0.1:5684: no authorities]") ∧
    (connectToEndpoints sampleEnv sampleDevice (sampleEndpoints.take 3)).2
      = .error (Go.formatErrors (tryEach sampleEnv (sampleEndpoints.take 3) sampleDevice).2.1) ∧
    (tryEach sampleEnv (sampleEndpoints.take 3) sampleDevice).2.1.length = 3 ∧
    (connectToEndpoints sampleEnv sampleDevice (sampleEndpoints.take 3)).1.conn = [] ∧
    connectToEndpoints sampleEnv sampleDevice []
      = (sampleDevice, .error "cannot connect to empty endpoints") :=
  have h := connectToEndpoints_error_iff_all_fail sampleEnv sampleDevice (sampleEndpoints.take 3)
  have h2 := h.2.2 (by simp [sampleEndpoints]) rfl
  ⟨rfl, h2.1, h2.2.1, h2.2.2.1,
    (connectToEndpoints_error_iff_all_fail sampleEnv sampleDevice []).2.1 rfl⟩

theorem lookup_append_of_none (m : List (String × Conn)) (k key : String) (c : Conn)
    (h : m.lookup key = none) :
    (m ++ [(key, c)]).lookup k = if k = key then some c else m.lookup k := by
  induction m with
  | nil =>
    by_cases hk : k = key
    · subst hk; simp [List.lookup]
    · have : (k == key) = false := by simpa using hk
      simp [List.lookup, this, hk]
  | cons e rest ih =>
    obtain ⟨k2, c2⟩ := e
    simp only [List.cons_append, List.lookup] at h ⊢
    cases hkey : (key == k2) with
    | true => simp [hkey] at h
    | false =>
      simp only [hkey] at h
      cases hk : (k == k2) with
      | true =>
        have h1 : k = k2 := by simpa using hk
        have h2 : ¬ key = k2 := by simpa using hkey
        have h3 : ¬ k = key := by rw [h1]; exact fun h => h2 h.symm
        simp [h3]
      | false => simpa using ih h

/-- C8: the locked tail of `connectToEndpoint` after a successful dial of `c`.  If the
map already holds `existing` under the address, `c` is closed, no close handler is
registered, `existing` is returned and the map is unchanged.  Otherwise a close
handler is registered on `c`, `c` is inserted under the address (every other key
keeps its entry) and `c` is returned.  In both cases the returned connection is the
one the map holds for the address afterwards, and a later dial `c2` of the same
address converges on it. -/
theorem connectToEndpoint_insert_converges (d : Device) (url : String) (c : Conn) :
    (∀ existing, d.conn.lookup url = some existing →
      (connectToEndpoint_insert d url c).2 = existing ∧
      (connectToEndpoint_insert d url c).1.conn = d.conn ∧
      (connectToEndpoint_insert d url c).1.log = d.log ++ [Call.connClose c] ∧
      (connectToEndpoint_insert d url c).1.closeHandlers = d.closeHandlers) ∧
    (d.conn.lookup url = none →
      (connectToEndpoint_insert d url c).2 = c ∧
      (∀ k, (connectToEndpoint_insert d url c).1.conn.lookup k
        = if k = url then some c else d.conn.lookup k) ∧
      (connectToEndpoint_insert d url c).1.log = d.log ++ [Call.registerCloseHandler c url] ∧
      (connectToEndpoint_insert d url c).1.closeHandlers = d.closeHandlers ++ [(c, url)]) ∧
    (connectToEndpoint_insert d url c).1.conn.lookup url
      = some (connectToEndpoint_insert d url c).2 ∧
    (∀ c2, (connectToEndpoint_insert (connectToEndpoint_insert d url c).1 url c2).2
        = (connectToEndpoint_insert d url c).2 ∧
      (connectToEndpoint_insert (connectToEndpoint_insert d url c).1 url c2).1.log
        = (connectToEndpoint_insert d url c).1.log ++ [Call.connClose c2] ∧
      (connectToEndpoint_insert (connectToEndpoint_insert d url c).1 url c2).1.conn
        = (connectToEndpoint_insert d url c).1.conn) := by
  have key : (connectToEndpoint_insert d url c).1.conn.lookup url
      = some (connectToEndpoint_insert d url c).2 := by
    cases hl : d.conn.lookup url with
    | some x => simp [connectToEndpoint_insert, hl, Device.emit]
    | none =>
      simp only [connectToEndpoint_insert, hl, Device.emit]
      rw [lookup_append_of_none _ _ _ _ hl]
      simp
  refine ⟨?_, ?_, key, ?_⟩
  · intro existing hl
    simp [connectToEndpoint_insert, hl, Device.emit]
  · intro hl
    refine ⟨by simp [connectToEndpoint_insert, hl], ?_, by simp [connectToEndpoint_insert, hl, Device.emit],
      by simp [connectToEndpoint_insert, hl, Device.emit]⟩
    intro k
    simp only [connectToEndpoint_insert, hl, Device.emit]
    exact lookup_append_of_none _ _ _ _ hl
  · intro c2
    generalize connectToEndpoint_insert d url c = r at key ⊢
    simp [connectToEndpoint_insert, key, Device.emit]

theorem connectToEndpoint_insert_converges_witness :
    ((connectToEndpoint_insert sampleConnectedDevice "coap://10.0.0.2:5683" 9).2 = 7 ∧
      (connectToEndpoint_insert sampleConnectedDevice "coap://10.0.0.2:5683" 9).1.conn
        = sampleConnectedDevice.conn ∧
      (connectToEndpoint_insert sampleConnectedDevice "coap://10.0.0.2:5683" 9).1.log
        = sampleConnectedDevice.log ++ [Call.connClose 9] ∧
      (connectToEndpoint_insert sampleConnectedDevice "coap://10.0.0.2:5683" 9).1.closeHandlers
        = sampleConnectedDevice.closeHandlers) ∧
    ((connectToEndpoint_insert sampleDevice "coap://10.0.0.2:5683" 9).2 = 9 ∧
      (∀ k, (connectToEndpoint_insert sampleDevice "coap://10.0.0.2:5683" 9).1.conn.lookup k
        = if k = "coap://10.0.0.2:5683" then some 9 else sampleDevice.conn.lookup k) ∧
      (connectToEndpoint_insert sampleDevice "coap://10.0.0.2:5683" 9).1.log
        = sampleDevice.log ++ [Call.registerCloseHandler 9 "coap://10.0.0.2:5683"] ∧
      (connectToEndpoint_insert sampleDevice "coap://10.0.0.2:5683" 9).1.closeHandlers
        = sampleDevice.closeHandlers ++ [(9, "coap://10.0.0.2:5683")]) :=
  ⟨(connectToEndpoint_insert_converges sampleConnectedDevice "coap://10.0.0.2:5683" 9).1 7
      (by decide),
    (connectToEndpoint_insert_converges sampleDevice "coap://10.0.0.2:5683" 9).2.1 (by decide)⟩

theorem popLoop_eq (snap m : List (String × Conn)) (conns : List Conn) :
    popLoop snap m conns
      = (m.filter (fun e => snap.all fun x => e.1 != x.1), conns ++ snap.map Prod.snd) := by
  induction snap generalizing m conns with
  | nil => simp [popLoop]
  | cons x rest ih =>
    obtain ⟨key, conn⟩ := x
    simp only [popLoop, ih, mapDelete, List.filter_filter, List.all_cons, List.map_cons,
      List.append_assoc, List.singleton_append, Prod.mk.injEq, and_true]
    apply List.filter_congr
    intro e _
    rw [Bool.and_comm]

theorem popConnections_eq (d : Device) :
    popConnections d = ({ d with conn := [] }, d.conn.map Prod.snd) := by
  simp only [popConnections, popLoop_eq, List.nil_append, Prod.mk.injEq, and_true]
  congr 1
  rw [List.filter_eq_nil_iff]
  intro e he
  simp only [List.all_eq_true, bne_iff_ne, ne_eq, not_forall, Classical.not_imp,
    Decidable.not_not]
  exact ⟨e, he, rfl⟩

theorem closeLoop_eq (env : Env) (conns : List Conn) (d : Device) (errors : List String) :
    closeLoop env conns d errors
      = ({ d with log := d.log ++ conns.map Call.connClose },
          errors ++ closeFailures env conns d.log.length) := by
  induction conns generalizing d errors with
  | nil => simp [closeLoop, closeFailures]
  | cons c rest ih =>
    simp only [closeLoop, closeFailures, Device.emit]
    cases env.connClose c d.log.length with
    | none => simp [ih]
    | some e => simp [ih]

/-- C9: `Close` stops the observations, then calls `Close` once per entry of the
connection map, in the order of the drained map and whether or not earlier ones
failed, and leaves the map empty.  It returns nil exactly when nothing failed, and
otherwise the single error `cannot close device <deviceID>: [e1 ... en]` that lists
every failure. -/
theorem Close_drains_and_closes_every_connection (env : Env) (d : Device) :
    (Close env d).1.conn = [] ∧
    (Close env d).1.log
      = d.log ++ Call.stopObservations :: (d.conn.map Prod.snd).map Call.connClose ∧
    (∀ c, ((Close env d).1.log.drop d.log.length).count (Call.connClose c)
      = (d.conn.map Prod.snd).count c) ∧
    ((Close env d).2 = none ↔ closeErrors env d = []) ∧
    (closeErrors env d ≠ [] →
      (Close env d).2
        = some ("cannot close device " ++ d.deviceID ++ ": " ++ Go.formatErrors (closeErrors env d))) := by
  have hlog : (Close env d).1.log
      = d.log ++ Call.stopObservations :: (d.conn.map Prod.snd).map Call.connClose := by
    simp only [Close, popConnections_eq, closeLoop_eq, Device.emit]
    split_ifs <;> simp
  have hres : (Close env d).2 = if closeErrors env d = [] then none else
      some ("cannot close device " ++ d.deviceID ++ ": " ++ Go.formatErrors (closeErrors env d)) := by
    simp only [Close, popConnections_eq, closeLoop_eq, Device.emit, closeErrors,
      List.length_append, List.length_singleton]
    cases env.stopObservations d.log.length with
    | none =>
      simp only [List.nil_append, Option.toList]
      by_cases h : closeFailures env (d.conn.map Prod.snd) (d.log.length + 1) = []
      · simp [h]
      · have : 0 < (closeFailures env (d.conn.map Prod.snd) (d.log.length + 1)).length :=
          List.length_pos.mpr h
        simp [h, this]
    | some e => simp [Option.toList]
  refine ⟨?_, hlog, ?_, ?_, ?_⟩
  · simp only [Close, popConnections_eq, closeLoop_eq, Device.emit]
    split_ifs <;> rfl
  · intro c
    rw [hlog, List.drop_left]
    rw [List.count_cons_of_ne (by simp)]
    induction d.conn.map Prod.snd with
    | nil => simp
    | cons x rest ih =>
      by_cases hx : x = c
      · subst hx; simp [ih]
      · simp [List.count_cons, hx, ih]
  · rw [hres]
    split_ifs with h <;> simp [h]
  · intro h
    rw [hres, if_neg h]

theorem Close_drains_and_closes_every_connection_witness :
    Close sampleEnv sampleConnectedDevice
      = ({ sampleConnectedDevice with
            conn := [],
            log := [Call.stopObservations, Call.connClose 7, Call.connClose 8] },
          some "cannot close device dev-2: [broken pipe]") ∧
    (Close sampleEnv sampleConnectedDevice).2
      = some ("cannot close device " ++ sampleConnectedDevice.deviceID ++ ": "
          ++ Go.formatErrors (closeErrors sampleEnv sampleConnectedDevice)) :=
  ⟨rfl, (Close_drains_and_closes_every_connection sampleEnv sampleConnectedDevice).2.2.2.2
    (by decide)⟩

/-- C17 (evaluation at the failing input): the callback registered for a connection
deletes the entry stored under the address it was registered with, whichever
connection that entry holds.  After the sample device connected (connection 103), was
closed and connected again (connection 110 under the same address), the map holds 110
only, and the late close notification of 103 removes the entry of 110, leaving the map
empty. -/
theorem closeHandler_deletes_by_address :
    (∀ (d : Device) (url : String),
      (closeHandler d url).conn = d.conn.filter fun e => e.1 != url) ∧
    (connectToEndpoints sampleEnv sampleDevice sampleEndpoints).1.conn
      = [("coap+tcp://10.0.0.1:5683", 103)] ∧
    (Close sampleEnv (connectToEndpoints sampleEnv sampleDevice sampleEndpoints).1).1.conn
      = [] ∧
    sampleReconnectedDevice.conn = [("coap+tcp://10.0.0.1:5683", 110)] ∧
    sampleReconnectedDevice.closeHandlers
      = [(103, "coap+tcp://10.0.0.1:5683"), (110, "coap+tcp://10.0.0.1:5683")] ∧
    (connClosed sampleReconnectedDevice 103).conn = [] :=
  ⟨fun _ _ => rfl, rfl, rfl, rfl, rfl, rfl⟩

end Core

/-! ## Properties of local/observeResource.go -/

namespace Local

/-- C5 (evaluation at failing inputs): a registration that creates the registry entry
and then fails leaves the entry in the registry with the failed subscriber in its
subscriber set.  When the device is not found, the call returns the error and the
registry still holds the entry; when storing the device fails after the physical
observation was started, the call returns the error, the entry is still there
without device reference, and no stop request has been sent. -/
theorem ObserveResource_failure_keeps_entry :
    ObserveResource sampleNewV5 (sampleOutcomeNoDevice "u1") Client.empty "dev-1" "/sensor" 10 0
      = ({ observeResourceCache := [("key-dev-1-sensor", 0)],
           handlers := [{ id := "key-dev-1-sensor", device := none, observationID := "",
                          lastMessage := none, observations := [("u1", 0)] }],
           subscriptions := [{ handler := 10, codec := 0, isClosed := false,
                               firstMessage := none }],
           log := [Call.getRefDevice "dev-1"] },
         .error "device not found") ∧
    ObserveResource sampleNewV5 (sampleOutcomeNoStore "u1") Client.empty "dev-1" "/sensor" 10 0
      = ({ observeResourceCache := [("key-dev-1-sensor", 0)],
           handlers := [{ id := "key-dev-1-sensor", device := none, observationID := "",
                          lastMessage := none, observations := [("u1", 0)] }],
           subscriptions := [{ handler := 10, codec := 0, isClosed := false,
                               firstMessage := none }],
           log := [Call.getRefDevice "dev-1",
                   Call.observeResourceWithCodec "key-dev-1-sensor" ⟨1, "dev-1"⟩ "/sensor" 0 0
                     (some "obs-1"),
                   Call.storeDeviceToPermanentCache ⟨1, "dev-1"⟩,
                   Call.release ⟨1, "dev-1"⟩] },
         .error "cache is full") ∧
    (ObserveResource sampleNewV5 (sampleOutcome "u2")
        (ObserveResource sampleNewV5 (sampleOutcomeNoDevice "u1") Client.empty
          "dev-1" "/sensor" 10 0).1 "dev-1" "/sensor" 11 0).2
      = .ok "key-dev-1-sensor/u2" ∧
    requested "key-dev-1-sensor"
      (ObserveResource sampleNewV5 (sampleOutcome "u2")
        (ObserveResource sampleNewV5 (sampleOutcomeNoDevice "u1") Client.empty
          "dev-1" "/sensor" 10 0).1 "dev-1" "/sensor" 11 0).1.log = 0 := by
  refine ⟨rfl, rfl, rfl, rfl⟩

theorem lookup_mapDelete (m : List (String × Nat)) (key k : String) :
    (mapDelete m key).lookup k = if k = key then none else m.lookup k := by
  induction m with
  | nil => simp [mapDelete]
  | cons e rest ih =>
    obtain ⟨k2, v⟩ := e
    simp only [mapDelete] at ih ⊢
    by_cases h2 : k2 = key
    · subst h2
      simp only [List.filter_cons, bne_self_eq_false, Bool.false_eq_true, if_false, ih]
      by_cases hk : k = k2
      · simp [hk]
      · have : (k == k2) = false := by simpa using hk
        simp [hk, List.lookup, this]
    · have hb : (k2 != key) = true := by simpa using h2
      simp only [List.filter_cons, hb, if_true, List.lookup]
      cases hk : (k == k2) with
      | true =>
        have h1 : k = k2 := by simpa using hk
        simp [h1, h2]
      | false => simpa using ih

theorem mapDelete_length (m : List (String × Nat)) (key : String) (v : Nat)
    (hn : (m.map Prod.fst).Nodup) (h : m.lookup key = some v) :
    (mapDelete m key).length + 1 = m.length := by
  induction m with
  | nil => simp at h
  | cons e rest ih =>
    obtain ⟨k2, v2⟩ := e
    simp only [List.map_cons, List.nodup_cons, List.mem_map, Prod.exists, exists_and_right,
      exists_eq_right, not_exists] at hn
    by_cases h2 : k2 = key
    · subst h2
      have hrest : rest.filter (fun e => e.1 != k2) = rest := by
        simp only [List.filter_eq_self, bne_iff_ne, ne_eq, Prod.forall]
        intro a b hab hak
        exact hn.1 b (hak ▸ hab)
      simp [mapDelete, List.filter_cons, hrest]
    · have hb : (k2 != key) = true := by simpa using h2
      have hkb : (key == k2) = false := by simpa using fun h => h2 h.symm
      simp only [List.lookup, hkb] at h
      have := ih hn.2 h
      simp only [mapDelete, List.filter_cons, hb, if_true, List.length_cons] at this ⊢
      omega

@[simp] theorem updateHandler_cache (c : Client) (p : Nat)
    (f : observationsHandler → observationsHandler) :
    (c.updateHandler p f).observeResourceCache = c.observeResourceCache := rfl

@[simp] theorem updateHandler_log (c : Client) (p : Nat)
    (f : observationsHandler → observationsHandler) :
    (c.updateHandler p f).log = c.log := rfl

@[simp] theorem updateHandler_subscriptions (c : Client) (p : Nat)
    (f : observationsHandler → observationsHandler) :
    (c.updateHandler p f).subscriptions = c.subscriptions := rfl

@[simp] theorem updateHandler_handlers_length (c : Client) (p : Nat)
    (f : observationsHandler → observationsHandler) :
    (c.updateHandler p f).handlers.length = c.handlers.length := by
  simp [Client.updateHandler]

theorem handlerAt_updateHandler (c : Client) (p q : Nat)
    (f : observationsHandler → observationsHandler) (hp : p < c.handlers.length) :
    (c.updateHandler p f).handlerAt q = if q = p then f (c.handlerAt p) else c.handlerAt q := by
  simp only [Client.updateHandler, Client.handlerAt, List.getD_eq_getElem?_getD,
    List.getElem?_set]
  by_cases h : p = q
  · subst h; simp [hp]
  · have hqp : ¬ q = p := fun h2 => h h2.symm
    simp [h, hqp]

/-- C4: unsubscribing subscriber `sub` of an entry that holds it among `k >= 1`
subscribers removes exactly that subscriber and touches no other entry.  When it was
the only one, the entry leaves the registry and, the entry holding the device
reference `d`, the device is asked once to stop the stored physical observation, is
removed from the permanent cache and released, and the answer of the device is
returned.  When others remain, nothing is logged (no device call), the registry is
unchanged, the entry keeps the other `k - 1` subscribers and nil is returned. -/
theorem StopObservingResource_removes_subscriber (stopResult : Option String) (c : Client)
    (observationID key sub : String) (p s : Nat)
    (hparse : parseIDs observationID = .ok (key, sub))
    (hcache : c.observeResourceCache.lookup key = some p)
    (hp : p < c.handlers.length)
    (hsub : (c.handlerAt p).observations.lookup sub = some s)
    (hnodup : ((c.handlerAt p).observations.map Prod.fst).Nodup) :
    ((StopObservingResource stopResult c observationID).1.handlerAt p).observations
        = (c.handlerAt p).observations.filter (fun e => e.1 != sub) ∧
    (∀ k, ((StopObservingResource stopResult c observationID).1.handlerAt p).observations.lookup k
        = if k = sub then none else (c.handlerAt p).observations.lookup k) ∧
    ((StopObservingResource stopResult c observationID).1.handlerAt p).observations.length + 1
        = (c.handlerAt p).observations.length ∧
    (∀ q, q ≠ p → (StopObservingResource stopResult c observationID).1.handlerAt q
        = c.handlerAt q) ∧
    (StopObservingResource stopResult c observationID).1.subscriptions = c.subscriptions ∧
    ((c.handlerAt p).observations.length = 1 →
      (StopObservingResource stopResult c observationID).1.observeResourceCache.lookup key = none ∧
      (∀ d, (c.handlerAt p).device = some d →
        (StopObservingResource stopResult c observationID).1.log
          = c.log ++ [Call.stopObservingResource key d (c.handlerAt p).observationID,
              Call.removeDeviceFromPermanentCache d.DeviceID d, Call.release d] ∧
        (StopObservingResource stopResult c observationID).2 = stopResult)) ∧
    (1 < (c.handlerAt p).observations.length →
      (StopObservingResource stopResult c observationID).1.log = c.log ∧
      (StopObservingResource stopResult c observationID).1.observeResourceCache
        = c.observeResourceCache ∧
      (StopObservingResource stopResult c observationID).2 = none) := by
  have hlen := mapDelete_length (c.handlerAt p).observations sub s hnodup hsub
  have hat : ∀ q, (c.updateHandler p fun o =>
        { o with observations := mapDelete o.observations sub }).handlerAt q
      = if q = p then { c.handlerAt p with
          observations := mapDelete (c.handlerAt p).observations sub } else c.handlerAt q :=
    fun q => handlerAt_updateHandler c p q _ hp
  have hatp := hat p
  simp only [if_true] at hatp
  have hobs := congrArg observationsHandler.observations hatp
  simp only at hobs
  have hshared :
      (∀ r : Client × Option String,
        r.1.handlers = (c.updateHandler p fun o =>
          { o with observations := mapDelete o.observations sub }).handlers →
        r.1.subscriptions = c.subscriptions →
        (r.1.handlerAt p).observations
            = (c.handlerAt p).observations.filter (fun e => e.1 != sub) ∧
        (∀ k, (r.1.handlerAt p).observations.lookup k
            = if k = sub then none else (c.handlerAt p).observations.lookup k) ∧
        (r.1.handlerAt p).observations.length + 1 = (c.handlerAt p).observations.length ∧
        (∀ q, q ≠ p → r.1.handlerAt q = c.handlerAt q) ∧
        r.1.subscriptions = c.subscriptions) := by
    intro r hh hs
    have hq : ∀ q, r.1.handlerAt q = (c.updateHandler p fun o =>
        { o with observations := mapDelete o.observations sub }).handlerAt q := by
      intro q; simp only [Client.handlerAt, hh]
    refine ⟨?_, ?_, ?_, ?_, hs⟩
    · rw [hq, hobs]; rfl
    · intro k; rw [hq, hobs]; exact lookup_mapDelete _ _ _
    · rw [hq, hobs]; exact hlen
    · intro q hne
      rw [hq, hat q, if_neg hne]
  by_cases hone : (c.handlerAt p).observations.length = 1
  · have hzero : (mapDelete (c.handlerAt p).observations sub).length = 0 := by omega
    cases hdev : (c.handlerAt p).device with
    | none =>
      have hr : StopObservingResource stopResult c observationID
          = ({ (c.updateHandler p fun o =>
                { o with observations := mapDelete o.observations sub }) with
                observeResourceCache := mapDelete c.observeResourceCache key }, none) := by
        simp only [StopObservingResource, hparse, hcache, hsub, hatp, hzero, hdev, if_true]
        rfl
      obtain ⟨h1, h2, h3, h4, h5⟩ := hshared (StopObservingResource stopResult c observationID)
        (by rw [hr]) (by rw [hr]; rfl)
      refine ⟨h1, h2, h3, h4, h5, ?_, ?_⟩
      · intro _
        rw [hr]
        exact ⟨by simp [lookup_mapDelete], by intro d hd; simp at hd⟩
      · intro h; omega
    | some d =>
      have hr : StopObservingResource stopResult c observationID
          = ({ (c.updateHandler p fun o =>
                { o with observations := mapDelete o.observations sub }) with
                observeResourceCache := mapDelete c.observeResourceCache key,
                log := c.log ++ [Call.stopObservingResource key d (c.handlerAt p).observationID,
                  Call.removeDeviceFromPermanentCache d.DeviceID d, Call.release d] },
              stopResult) := by
        simp only [StopObservingResource, hparse, hcache, hsub, hatp, hzero, hdev, if_true]
        simp [Client.emit]
      obtain ⟨h1, h2, h3, h4, h5⟩ := hshared (StopObservingResource stopResult c observationID)
        (by rw [hr]) (by rw [hr]; rfl)
      refine ⟨h1, h2, h3, h4, h5, ?_, ?_⟩
      · intro _
        rw [hr]
        refine ⟨by simp [lookup_mapDelete], ?_⟩
        intro d2 hd2
        simp only [Option.some.injEq] at hd2
        subst hd2
        exact ⟨rfl, rfl⟩
      · intro h; omega
  · have hpos : (mapDelete (c.handlerAt p).observations sub).length ≠ 0 := by
      have : (c.handlerAt p).observations.length ≠ 0 := by
        intro h0
        rw [List.length_eq_zero.mp h0] at hsub
        simp at hsub
      omega
    have hr : StopObservingResource stopResult c observationID
        = ((c.updateHandler p fun o =>
              { o with observations := mapDelete o.observations sub }), none) := by
      simp only [StopObservingResource, hparse, hcache, hsub, hatp, hpos, if_false]
    obtain ⟨h1, h2, h3, h4, h5⟩ := hshared (StopObservingResource stopResult c observationID)
      (by rw [hr]) (by rw [hr]; rfl)
    refine ⟨h1, h2, h3, h4, h5, ?_, ?_⟩
    · intro h; exact absurd h hone
    · intro _
      rw [hr]
      exact ⟨rfl, rfl, rfl⟩

theorem StopObservingResource_removes_subscriber_witness :
    (StopObservingResource (some "timeout") sampleClient1 "key-dev-1-sensor/u1").1.log
      = sampleClient1.log ++ [Call.stopObservingResource "key-dev-1-sensor" ⟨1, "dev-1"⟩ "obs-1",
          Call.removeDeviceFromPermanentCache "dev-1" ⟨1, "dev-1"⟩, Call.release ⟨1, "dev-1"⟩] ∧
    (StopObservingResource (some "timeout") sampleClient1 "key-dev-1-sensor/u1").2
      = some "timeout" ∧
    (StopObservingResource (some "timeout") sampleClient1
      "key-dev-1-sensor/u1").1.observeResourceCache.lookup "key-dev-1-sensor" = none ∧
    (StopObservingResource none sampleClient2 "key-dev-1-sensor/u2").1.log = sampleClient2.log ∧
    ((StopObservingResource none sampleClient2 "key-dev-1-sensor/u2").1.handlerAt 0).observations
      = [("u1", 0)] :=
  have h1 := StopObservingResource_removes_subscriber (some "timeout") sampleClient1
    "key-dev-1-sensor/u1" "key-dev-1-sensor" "u1" 0 0 rfl rfl (by decide) rfl (by decide)
  have h2 := StopObservingResource_removes_subscriber none sampleClient2
    "key-dev-1-sensor/u2" "key-dev-1-sensor" "u2" 0 1 rfl rfl (by decide) rfl (by decide)
  ⟨((h1.2.2.2.2.2.1 rfl).2 ⟨1, "dev-1"⟩ rfl).1, ((h1.2.2.2.2.2.1 rfl).2 ⟨1, "dev-1"⟩ rfl).2,
    (h1.2.2.2.2.2.1 rfl).1, (h2.2.2.2.2.2.2 (by decide)).1, h2.1⟩

theorem ObserveResource_loaded (newV5 : String → String) (out : ObserveOutcome) (c : Client)
    (deviceID href : String) (handler codec p : Nat) (u : String)
    (hcache : c.observeResourceCache.lookup (newV5 (deviceID ++ href)) = some p)
    (hu : out.newV4 = .ok u) :
    ObserveResource newV5 out c deviceID href handler codec
      = ((Client.updateHandler
            { c with subscriptions := c.subscriptions ++
                [⟨handler, codec, false, (c.handlerAt p).lastMessage⟩] } p
            fun o => { o with observations := mapStore o.observations u c.subscriptions.length }).emit
          (Call.goHandleFirstMessage c.subscriptions.length),
        .ok (getObservationID (newV5 (deviceID ++ href)) u)) := by
  simp only [ObserveResource, hu, LoadOrStoreWithFunc, hcache, if_true]

theorem foldl_HandleMessage_frame (ss : List Nat) (c : Client) (decode : Option decodeFunc) :
    (ss.foldl (fun c s => observationHandler.HandleMessage c s decode) c).observeResourceCache
        = c.observeResourceCache ∧
    (ss.foldl (fun c s => observationHandler.HandleMessage c s decode) c).handlers = c.handlers ∧
    (ss.foldl (fun c s => observationHandler.HandleMessage c s decode) c).subscriptions.length
        = c.subscriptions.length := by
  induction ss generalizing c with
  | nil => simp
  | cons s rest ih =>
    simp only [List.foldl_cons]
    obtain ⟨h1, h2, h3⟩ := ih (observationHandler.HandleMessage c s decode)
    rw [h1, h2, h3]
    simp only [observationHandler.HandleMessage, observationHandler.handleMessageLocked]
    cases decode with
    | none => simp [Client.updateSubscription]
    | some f =>
      simp only
      split_ifs <;> simp [Client.updateSubscription, Client.emit]

theorem Handle_ok_frame (c : Client) (o : Nat) (m : Message) :
    (observationsHandler.Handle c o (.ok m)).observeResourceCache = c.observeResourceCache ∧
    (observationsHandler.Handle c o (.ok m)).handlers
        = c.handlers.set o { c.handlerAt o with lastMessage := some m } ∧
    (observationsHandler.Handle c o (.ok m)).subscriptions.length = c.subscriptions.length := by
  simp only [observationsHandler.Handle, createDecodeFunc]
  obtain ⟨h1, h2, h3⟩ := foldl_HandleMessage_frame
    (((c.updateHandler o fun h => { h with lastMessage := some m }).handlerAt o).observations.map
      Prod.snd)
    (c.updateHandler o fun h => { h with lastMessage := some m }) (some m)
  rw [h1, h2, h3]
  exact ⟨rfl, rfl, rfl⟩

theorem handleAll_frame (o : Nat) (msgs : List Message) (c : Client)
    (ho : o < c.handlers.length) :
    (handleAll o msgs c).observeResourceCache = c.observeResourceCache ∧
    (handleAll o msgs c).handlers.length = c.handlers.length ∧
    (handleAll o msgs c).subscriptions.length = c.subscriptions.length ∧
    ((handleAll o msgs c).handlerAt o).lastMessage
      = (match msgs.getLast? with
        | some m => some m
        | none => (c.handlerAt o).lastMessage) := by
  induction msgs generalizing c with
  | nil => simp [handleAll]
  | cons m rest ih =>
    obtain ⟨h1, h2, h3⟩ := Handle_ok_frame c o m
    have ho2 : o < (observationsHandler.Handle c o (.ok m)).handlers.length := by
      rw [h2]; simpa using ho
    obtain ⟨i1, i2, i3, i4⟩ := ih (observationsHandler.Handle c o (.ok m)) ho2
    simp only [handleAll]
    refine ⟨by rw [i1, h1], by rw [i2, h2]; simp, by rw [i3, h3], ?_⟩
    rw [i4]
    have hlast : ((observationsHandler.Handle c o (.ok m)).handlerAt o).lastMessage = some m := by
      simp only [Client.handlerAt, h2, List.getD_eq_getElem?_getD]
      simp [ho]
    cases rest with
    | nil => simp [hlast]
    | cons m2 rest2 =>
      rw [List.getLast?_cons_cons]
      cases hgl : (m2 :: rest2).getLast? with
      | none => simp at hgl
      | some x => rfl

theorem subscriptionAt_append (c : Client) (h : observationHandler) (p : Nat)
    (f : observationsHandler → observationsHandler) (call : Call) :
    ((Client.updateHandler { c with subscriptions := c.subscriptions ++ [h] } p f).emit
      call).subscriptionAt c.subscriptions.length = h := by
  simp [Client.subscriptionAt, Client.emit, Client.updateHandler]

theorem HandleFirstMessage_eq (c : Client) (s : Nat) (h : observationHandler)
    (hs : c.subscriptionAt s = h) :
    observationHandler.HandleFirstMessage c s
      = match h.firstMessage with
        | none => c
        | some f => if h.isClosed then c else c.emit (Call.handle h.handler f h.codec) := by
  subst hs
  simp only [observationHandler.HandleFirstMessage, observationHandler.handleMessageLocked]

/-- C10: the pending replay of a subscriber that joins an existing registry entry is
the content of the replay cell of the entry at that time.  After the entry has
handled the physical messages `msgs`, the cell holds the last of them (and what it
held before when there is none); a subscriber that then joins gets that content as its
pending replay and nothing else is called but the launch of the replay; the replay,
run before any later message, calls `Handle` of the new consumer handler once, with
the last message; and when no message was ever handled, the replay calls nothing. -/
theorem late_joiner_replays_latest_message (newV5 : String → String) (out : ObserveOutcome)
    (c : Client) (deviceID href : String) (handler codec p : Nat) (u : String)
    (msgs : List Message)
    (hcache : c.observeResourceCache.lookup (newV5 (deviceID ++ href)) = some p)
    (hp : p < c.handlers.length)
    (hu : out.newV4 = .ok u) :
    ((handleAll p msgs c).handlerAt p).lastMessage
      = (match msgs.getLast? with
        | some m => some m
        | none => (c.handlerAt p).lastMessage) ∧
    (ObserveResource newV5 out (handleAll p msgs c) deviceID href handler codec).2
      = .ok (getObservationID (newV5 (deviceID ++ href)) u) ∧
    (ObserveResource newV5 out (handleAll p msgs c) deviceID href handler codec).1.log
      = (handleAll p msgs c).log
        ++ [Call.goHandleFirstMessage (handleAll p msgs c).subscriptions.length] ∧
    (ObserveResource newV5 out (handleAll p msgs c) deviceID href handler codec).1.subscriptionAt
        (handleAll p msgs c).subscriptions.length
      = ⟨handler, codec, false, ((handleAll p msgs c).handlerAt p).lastMessage⟩ ∧
    (∀ m, msgs.getLast? = some m →
      (observationHandler.HandleFirstMessage
          (ObserveResource newV5 out (handleAll p msgs c) deviceID href handler codec).1
          (handleAll p msgs c).subscriptions.length).log
        = (ObserveResource newV5 out (handleAll p msgs c) deviceID href handler codec).1.log
          ++ [Call.handle handler m codec]) ∧
    (msgs = [] → (c.handlerAt p).lastMessage = none →
      observationHandler.HandleFirstMessage
          (ObserveResource newV5 out (handleAll p msgs c) deviceID href handler codec).1
          (handleAll p msgs c).subscriptions.length
        = (ObserveResource newV5 out (handleAll p msgs c) deviceID href handler codec).1) := by
  obtain ⟨f1, f2, f3, f4⟩ := handleAll_frame p msgs c hp
  have hcache1 : (handleAll p msgs c).observeResourceCache.lookup (newV5 (deviceID ++ href))
      = some p := by rw [f1]; exact hcache
  have hobs := ObserveResource_loaded newV5 out (handleAll p msgs c) deviceID href handler codec
    p u hcache1 hu
  have hsub := subscriptionAt_append (handleAll p msgs c)
    ⟨handler, codec, false, ((handleAll p msgs c).handlerAt p).lastMessage⟩ p
    (fun o => { o with
      observations := mapStore o.observations u ((handleAll p msgs c).subscriptions.length) })
    (Call.goHandleFirstMessage (handleAll p msgs c).subscriptions.length)
  rw [hobs]
  refine ⟨f4, rfl, rfl, hsub, ?_, ?_⟩
  · intro m hm
    rw [HandleFirstMessage_eq _ _ _ hsub]
    simp only [f4, hm]
    rfl
  · intro hnil hnone
    subst hnil
    rw [HandleFirstMessage_eq _ _ _ hsub]
    simp only [f4, List.getLast?_nil, hnone]

theorem late_joiner_replays_latest_message_witness :
    (observationHandler.HandleFirstMessage
        (ObserveResource sampleNewV5 (sampleOutcome "u3")
          (handleAll 0 [⟨some "U1"⟩, ⟨some "U2"⟩] sampleClient2) "dev-1" "/sensor" 12 0).1
        (handleAll 0 [⟨some "U1"⟩, ⟨some "U2"⟩] sampleClient2).subscriptions.length).log
      = (ObserveResource sampleNewV5 (sampleOutcome "u3")
          (handleAll 0 [⟨some "U1"⟩, ⟨some "U2"⟩] sampleClient2) "dev-1" "/sensor" 12 0).1.log
        ++ [Call.handle 12 ⟨some "U2"⟩ 0] ∧
    observationHandler.HandleFirstMessage
        (ObserveResource sampleNewV5 (sampleOutcome "u2")
          (handleAll 0 [] sampleClient1) "dev-1" "/sensor" 11 0).1
        (handleAll 0 [] sampleClient1).subscriptions.length
      = (ObserveResource sampleNewV5 (sampleOutcome "u2")
          (handleAll 0 [] sampleClient1) "dev-1" "/sensor" 11 0).1 :=
  ⟨(late_joiner_replays_latest_message sampleNewV5 (sampleOutcome "u3") sampleClient2
      "dev-1" "/sensor" 12 0 0 "u3" [⟨some "U1"⟩, ⟨some "U2"⟩] rfl (by decide) rfl).2.2.2.2.1
      ⟨some "U2"⟩ rfl,
    (late_joiner_replays_latest_message sampleNewV5 (sampleOutcome "u2") sampleClient1
      "dev-1" "/sensor" 11 0 0 "u2" [] rfl (by decide) rfl).2.2.2.2.2 rfl rfl⟩

theorem splitChars_of_not_mem (sep : Char) (b : List Char) (h : sep ∉ b) :
    splitChars sep b = [b] := by
  induction b with
  | nil => rfl
  | cons c cs ih =>
    simp only [List.mem_cons, not_or] at h
    have hc : ¬ c = sep := fun e => h.1 e.symm
    simp [splitChars, hc, ih h.2]

theorem splitChars_append (sep : Char) (a b : List Char) (h : sep ∉ a) :
    splitChars sep (a ++ sep :: b) = a :: splitChars sep b := by
  induction a with
  | nil => simp [splitChars]
  | cons c cs ih =>
    simp only [List.mem_cons, not_or] at h
    have hc : ¬ c = sep := fun e => h.1 e.symm
    simp [splitChars, hc, ih h.2]

theorem noSlash_iff (s : String) : noSlash s = true ↔ '/' ∉ s.data := by
  simp [noSlash]

/-- The composite identifier of two texts without `/` parses back to them. -/
theorem parseIDs_getObservationID (key u : String) (hk : noSlash key = true)
    (hu : noSlash u = true) :
    parseIDs (getObservationID key u) = .ok (key, u) := by
  rw [noSlash_iff] at hk hu
  have hdata : (getObservationID key u).data = key.data ++ '/' :: u.data := by
    simp [getObservationID, String.data_append]
  simp only [parseIDs, Split, hdata, splitChars_append _ _ _ hk, splitChars_of_not_mem _ _ hu,
    List.map_cons, List.map_nil]

theorem lookup_cons_ite (rest : List (String × Nat)) (k k2 : String) (v2 : Nat) :
    ((k2, v2) :: rest).lookup k = if k = k2 then some v2 else rest.lookup k := by
  by_cases hk : k = k2
  · subst hk; simp [List.lookup]
  · have hb : (k == k2) = false := by simpa using hk
    simp [List.lookup, hb, hk]

theorem lookup_map_replace (m : List (String × Nat)) (key k : String) (v : Nat) :
    (m.map fun e => if e.1 = key then (key, v) else e).lookup k
      = if k = key then (m.lookup key).map (fun _ => v) else m.lookup k := by
  induction m with
  | nil => simp
  | cons e rest ih =>
    obtain ⟨k2, v2⟩ := e
    by_cases h2 : k2 = key
    · have hhead : (if (k2, v2).1 = key then (key, v) else (k2, v2)) = (key, v) := by
        simp [h2]
      rw [List.map_cons, hhead, lookup_cons_ite, lookup_cons_ite, ih]
      subst h2
      by_cases hk : k = k2 <;> simp [hk, lookup_cons_ite]
    · have hhead : (if (k2, v2).1 = key then (key, v) else (k2, v2)) = (k2, v2) := by
        simp [h2]
      have h3 : ¬ key = k2 := fun e => h2 e.symm
      rw [List.map_cons, hhead, lookup_cons_ite, lookup_cons_ite, ih]
      by_cases hk : k = k2
      · subst hk; simp [h2, lookup_cons_ite]
      · simp [hk, h3, lookup_cons_ite]

theorem lookup_mapStore (m : List (String × Nat)) (key k : String) (v : Nat) :
    (mapStore m key v).lookup k = if k = key then some v else m.lookup k := by
  unfold mapStore
  cases hl : m.lookup key with
  | none =>
    simp only [Option.isSome_none, Bool.false_eq_true, if_false]
    exact Core.lookup_append_of_none m k key v hl
  | some x =>
    simp only [Option.isSome_some, if_true]
    rw [lookup_map_replace, hl]
    rfl

theorem mapStore_length_of_none (m : List (String × Nat)) (key : String) (v : Nat)
    (h : m.lookup key = none) : (mapStore m key v).length = m.length + 1 := by
  simp [mapStore, h]

theorem issued_append (key : String) (l1 l2 : List Call) :
    issued key (l1 ++ l2) = issued key l1 + issued key l2 := by
  simp [issued]

theorem requested_append (key : String) (l1 l2 : List Call) :
    requested key (l1 ++ l2) = requested key l1 + requested key l2 := by
  simp [requested]

theorem stopped_append (key : String) (l1 l2 : List Call) :
    stopped key (l1 ++ l2) = stopped key l1 + stopped key l2 := by
  simp [stopped]

theorem set_length_append (hs : List observationsHandler) (h h2 : observationsHandler) :
    (hs ++ [h]).set hs.length h2 = hs ++ [h2] := by
  induction hs with
  | nil => rfl
  | cons x rest ih => simp [ih]

theorem getD_length_append (hs : List observationsHandler) (h : observationsHandler) :
    (hs ++ [h]).getD hs.length default = h := by
  induction hs with
  | nil => rfl
  | cons x rest ih => simp [ih]

/-- The client after the first half of `ObserveResource` on a key without entry: the
entry is created and holds the new subscriber. -/
theorem updateHandler_new_entry (c : Client) (cache : List (String × Nat))
    (subs : List observationHandler) (log : List Call) (h : observationsHandler)
    (f : observationsHandler → observationsHandler) :
    Client.updateHandler
        { observeResourceCache := cache, handlers := c.handlers ++ [h],
          subscriptions := subs, log := log } c.handlers.length f
      = { observeResourceCache := cache, handlers := c.handlers ++ [f h],
          subscriptions := subs, log := log } := by
  simp only [Client.updateHandler, Client.handlerAt, getD_length_append, set_length_append]

/-- A call of `ObserveResource` on a key without entry, once `uuid.NewV4` succeeded:
the entry is created with the new subscriber and stays whatever happens next; no stop
request is sent, at most one physical request is made, for this key, and the call
succeeds exactly when the entry ends up with its device reference, in which case the
physical request was made and succeeded. -/
theorem ObserveResource_new (newV5 : String → String) (out : ObserveOutcome) (c : Client)
    (deviceID href : String) (handler codec : Nat) (u : String)
    (hcache : c.observeResourceCache.lookup (newV5 (deviceID ++ href)) = none)
    (hu : out.newV4 = .ok u) :
    ∃ calls dev obsid,
      (ObserveResource newV5 out c deviceID href handler codec).1
        = { observeResourceCache :=
              c.observeResourceCache ++ [(newV5 (deviceID ++ href), c.handlers.length)],
            handlers := c.handlers ++ [⟨newV5 (deviceID ++ href), dev, obsid, none,
              [(u, c.subscriptions.length)]⟩],
            subscriptions := c.subscriptions ++ [⟨handler, codec, false, none⟩],
            log := c.log ++ calls } ∧
      (∀ k, stopped k calls = 0) ∧
      (∀ k, k ≠ newV5 (deviceID ++ href) → issued k calls = 0 ∧ requested k calls = 0) ∧
      issued (newV5 (deviceID ++ href)) calls ≤ 1 ∧
      (((ObserveResource newV5 out c deviceID href handler codec).2
            = .ok (getObservationID (newV5 (deviceID ++ href)) u) ∧
          dev.isSome = true ∧ issued (newV5 (deviceID ++ href)) calls = 1 ∧
          requested (newV5 (deviceID ++ href)) calls = 1) ∨
        ((∃ e, (ObserveResource newV5 out c deviceID href handler codec).2 = .error e) ∧
          dev = none)) := by
  have hget : (c.handlers ++ [(⟨newV5 (deviceID ++ href), none, "", none, []⟩ :
      observationsHandler)]).getD c.handlers.length default
        = ⟨newV5 (deviceID ++ href), none, "", none, []⟩ := getD_length_append _ _
  simp only [ObserveResource, hu, LoadOrStoreWithFunc, hcache, Bool.false_eq_true, if_false,
    Client.handlerAt, hget, updateHandler_new_entry, Client.emit, mapStore, List.lookup,
    Option.isSome_none, List.nil_append]
  cases h1 : out.getRefDevice with
  | error e =>
    refine ⟨[Call.getRefDevice deviceID], none, "", rfl, ?_, ?_, ?_, Or.inr ⟨⟨e, rfl⟩, rfl⟩⟩
    · intro k; simp [stopped]
    · intro k _; simp [issued, requested]
    · simp [issued]
  | ok d =>
    cases h2 : out.getResourceLink with
    | error e =>
      refine ⟨[Call.getRefDevice deviceID, Call.release d], none, "", by simp, ?_, ?_, ?_,
        Or.inr ⟨⟨e, rfl⟩, rfl⟩⟩
      · intro k; simp [stopped]
      · intro k _; simp [issued, requested]
      · simp [issued]
    | ok link =>
      cases h3 : out.observeResourceWithCodec with
      | error e =>
        refine ⟨[Call.getRefDevice deviceID,
          Call.observeResourceWithCodec (newV5 (deviceID ++ href)) d link codec c.handlers.length
            none, Call.release d], none, "", by simp [Except.toOption], ?_, ?_, ?_,
          Or.inr ⟨⟨e, rfl⟩, rfl⟩⟩
        · intro k; simp [stopped]
        · intro k hk
          have hk2 : ¬ newV5 (deviceID ++ href) = k := fun e => hk e.symm
          simp [issued, requested, hk2]
        · simp [issued]
      | ok observationID =>
        cases h4 : out.storeDeviceToPermanentCache with
        | some e =>
          refine ⟨[Call.getRefDevice deviceID,
            Call.observeResourceWithCodec (newV5 (deviceID ++ href)) d link codec
              c.handlers.length (some observationID),
            Call.storeDeviceToPermanentCache d, Call.release d], none, "",
            by simp [Except.toOption], ?_, ?_, ?_, Or.inr ⟨⟨e, rfl⟩, rfl⟩⟩
          · intro k; simp [stopped]
          · intro k hk
            have hk2 : ¬ newV5 (deviceID ++ href) = k := fun e => hk e.symm
            simp [issued, requested, hk2]
          · simp [issued]
        | none =>
          refine ⟨[Call.getRefDevice deviceID,
            Call.observeResourceWithCodec (newV5 (deviceID ++ href)) d link codec
              c.handlers.length (some observationID),
            Call.storeDeviceToPermanentCache d, Call.acquire d, Call.release d], some d,
            observationID, ?_, ?_, ?_, ?_, Or.inl ⟨rfl, rfl, ?_, ?_⟩⟩
          · simp [Except.toOption, Client.updateHandler, Client.handlerAt, getD_length_append,
              set_length_append]
          · intro k; simp [stopped]
          · intro k hk
            have hk2 : ¬ newV5 (deviceID ++ href) = k := fun e => hk e.symm
            simp [issued, requested, hk2]
          · simp [issued]
          · simp [issued]
          · simp [requested]

theorem Inv_init : Inv World.init where
  wf := by intro k p h; simp [World.init, Client.empty] at h
  gen := by intro id h; simp [World.init] at h
  bal_none := by intro k _; rfl
  bal_some := by intro k p h; simp [World.init, Client.empty] at h

theorem step_observe_newV4_error (newV5 : String → String) (w : World)
    (deviceID href : String) (handler codec : Nat) (out : ObserveOutcome) (e : String)
    (hu : out.newV4 = .error e) :
    step newV5 w (Op.observe deviceID href handler codec out) = w := by
  simp [step, ObserveResource, hu]

@[simp] theorem handlerAt_emit (c : Client) (call : Call) (q : Nat) :
    (c.emit call).handlerAt q = c.handlerAt q := rfl

theorem handlerAt_congr (c1 c2 : Client) (q : Nat) (h : c1.handlers = c2.handlers) :
    c1.handlerAt q = c2.handlerAt q := by
  simp only [Client.handlerAt, h]

/-- The invariant is kept when a fresh subscriber `u` joins the entry at `p` and its
composite identifier `id` is returned. -/
theorem Inv_join (w : World) (hw : Inv w) (c2 : Client) (p s : Nat) (key u id : String)
    (hc : c2.observeResourceCache = w.client.observeResourceCache)
    (hl : c2.handlers.length = w.client.handlers.length)
    (hat : ∀ q, c2.handlerAt q = if q = p then { w.client.handlerAt p with
        observations := mapStore (w.client.handlerAt p).observations u s }
      else w.client.handlerAt q)
    (hiss : ∀ k, issued k c2.log = issued k w.client.log)
    (hst : ∀ k, stopped k c2.log = stopped k w.client.log)
    (hparse : parseIDs id = .ok (key, u)) (hfresh : u ∉ w.generated) :
    Inv { client := c2, returned := id :: w.returned, generated := u :: w.generated } := by
  have hnew : ∀ u0, u0 ∈ w.generated → ∀ k2, parseIDs id ≠ .ok (k2, u0) := by
    intro u0 hu0 k2 h
    rw [hparse] at h
    simp only [Except.ok.injEq, Prod.mk.injEq] at h
    exact hfresh (h.2 ▸ hu0)
  refine { wf := ?_, gen := ?_, bal_none := ?_, bal_some := ?_ }
  · intro k q hk
    simp only [hc] at hk
    have := hw.wf k q hk
    simp only [hl, hat q]
    refine ⟨this.1, ?_⟩
    by_cases hq : q = p
    · subst hq; simpa using this.2
    · simpa [hq] using this.2
  · intro id2 hid k u0 hp0
    simp only [List.mem_cons] at hid ⊢
    rcases hid with rfl | hid
    · rw [hparse] at hp0
      simp only [Except.ok.injEq, Prod.mk.injEq] at hp0
      exact Or.inl hp0.2.symm
    · exact Or.inr (hw.gen id2 hid k u0 hp0)
  · intro k hk
    simp only [hc] at hk
    simp only [hiss, hst]
    exact hw.bal_none k hk
  · intro k q hk
    simp only [hc] at hk
    simp only [hiss, hst, hat q]
    rcases hw.bal_some k q hk with ⟨hd, hb⟩ | ⟨hd, hb, u0, hu0, hg0, hr0⟩
    · left
      refine ⟨?_, hb⟩
      by_cases hq : q = p
      · subst hq; simpa using hd
      · simpa [hq] using hd
    · right
      refine ⟨?_, hb, u0, ?_, List.mem_cons_of_mem _ hg0, ?_⟩
      · by_cases hq : q = p
        · subst hq; simpa using hd
        · simpa [hq] using hd
      · by_cases hq : q = p
        · subst hq
          simp only [if_true, lookup_mapStore]
          split_ifs
          · rfl
          · exact hu0
        · simpa [hq] using hu0
      · intro id2 hid k2
        simp only [List.mem_cons] at hid
        rcases hid with rfl | hid
        · exact hnew u0 hg0 k2
        · exact hr0 id2 hid k2

theorem Inv_observe_loaded (newV5 : String → String)
    (hkey : ∀ s, noSlash (newV5 s) = true) (w : World) (hw : Inv w)
    (deviceID href : String) (handler codec p : Nat) (out : ObserveOutcome) (u : String)
    (hcache : w.client.observeResourceCache.lookup (newV5 (deviceID ++ href)) = some p)
    (hu : out.newV4 = .ok u) (hfresh : u ∉ w.generated) (hslash : noSlash u = true) :
    Inv (step newV5 w (Op.observe deviceID href handler codec out)) := by
  have hp := (hw.wf _ _ hcache).1
  have hobs := ObserveResource_loaded newV5 out w.client deviceID href handler codec p u
    hcache hu
  have hstep : step newV5 w (Op.observe deviceID href handler codec out)
      = { client := (ObserveResource newV5 out w.client deviceID href handler codec).1,
          returned := getObservationID (newV5 (deviceID ++ href)) u :: w.returned,
          generated := u :: w.generated } := by
    simp only [step, hu, hobs]
  rw [hstep]
  apply Inv_join w hw _ p w.client.subscriptions.length (newV5 (deviceID ++ href)) u
  · rw [hobs]; rfl
  · rw [hobs]; simp [Client.emit]
  · intro q
    rw [hobs]
    simp only [handlerAt_emit]
    rw [handlerAt_updateHandler _ _ _ _ (by exact hp)]
    rfl
  · intro k; rw [hobs]; simp [Client.emit, issued]
  · intro k; rw [hobs]; simp [Client.emit, stopped]
  · exact parseIDs_getObservationID _ _ (hkey _) hslash
  · exact hfresh

theorem getD_append_left (hs : List observationsHandler) (h : observationsHandler) (q : Nat)
    (hq : q < hs.length) : (hs ++ [h]).getD q default = hs.getD q default := by
  simp [List.getD_eq_getElem?_getD, List.getElem?_append_left hq]

/-- The invariant is kept when an entry is created for a key that had none, with a
fresh subscriber `u`, whether the registration then succeeds (the entry holds a
device reference and the composite identifier is returned) or fails. -/
theorem Inv_create (w : World) (hw : Inv w) (c2 : Client) (key u : String)
    (dev : Option RefDevice) (obsid : String) (calls : List Call) (s : Nat)
    (subs : List observationHandler) (ret : List String)
    (hnone : w.client.observeResourceCache.lookup key = none)
    (hc2 : c2 = { observeResourceCache :=
                    w.client.observeResourceCache ++ [(key, w.client.handlers.length)],
                  handlers := w.client.handlers ++ [⟨key, dev, obsid, none, [(u, s)]⟩],
                  subscriptions := subs, log := w.client.log ++ calls })
    (hst : ∀ k, stopped k calls = 0)
    (hother : ∀ k, k ≠ key → issued k calls = 0)
    (hle : issued key calls ≤ 1)
    (hdev : dev.isSome = true → issued key calls = 1)
    (hfresh : u ∉ w.generated)
    (hret : (ret = w.returned ∧ dev = none) ∨
      (dev.isSome = true ∧ ∃ id, ret = id :: w.returned ∧ parseIDs id = .ok (key, u))) :
    Inv { client := c2, returned := ret, generated := u :: w.generated } := by
  subst hc2
  have hlook : ∀ k, (w.client.observeResourceCache ++ [(key, w.client.handlers.length)]).lookup k
      = if k = key then some w.client.handlers.length
        else w.client.observeResourceCache.lookup k :=
    fun k => Core.lookup_append_of_none _ k key _ hnone
  have hatnew : ∀ (cache : List (String × Nat)) (log : List Call),
      Client.handlerAt (Client.mk cache
        (w.client.handlers ++ [⟨key, dev, obsid, none, [(u, s)]⟩]) subs log)
        w.client.handlers.length
        = ⟨key, dev, obsid, none, [(u, s)]⟩ := by
    intro cache log
    simp only [Client.handlerAt, getD_length_append]
  have hatold : ∀ (cache : List (String × Nat)) (log : List Call) (q : Nat),
      q < w.client.handlers.length →
      Client.handlerAt (Client.mk cache
        (w.client.handlers ++ [⟨key, dev, obsid, none, [(u, s)]⟩]) subs log) q
        = w.client.handlerAt q := by
    intro cache log q hq
    simp only [Client.handlerAt, getD_append_left _ _ _ hq]
  have hretgen : ∀ id, id ∈ ret → ∀ k u0, parseIDs id = .ok (k, u0) →
      u0 = u ∨ u0 ∈ w.generated := by
    intro id hid k u0 hp0
    rcases hret with ⟨rfl, _⟩ | ⟨_, id0, rfl, hparse⟩
    · exact Or.inr (hw.gen id hid k u0 hp0)
    · simp only [List.mem_cons] at hid
      rcases hid with rfl | hid
      · rw [hparse] at hp0
        simp only [Except.ok.injEq, Prod.mk.injEq] at hp0
        exact Or.inl hp0.2.symm
      · exact Or.inr (hw.gen id hid k u0 hp0)
  refine { wf := ?_, gen := ?_, bal_none := ?_, bal_some := ?_ }
  · intro k q hk
    simp only [hlook] at hk
    by_cases hkk : k = key
    · simp only [hkk, if_true, Option.some.injEq] at hk
      subst hk
      refine ⟨by simp, ?_⟩
      rw [hatnew]
      exact hkk.symm
    · simp only [hkk, if_false] at hk
      have := hw.wf k q hk
      refine ⟨by simp; omega, ?_⟩
      rw [hatold _ _ q this.1]
      exact this.2
  · intro id hid k u0 hp0
    simp only [List.mem_cons]
    exact hretgen id hid k u0 hp0
  · intro k hk
    simp only [hlook] at hk
    by_cases hkk : k = key
    · simp [hkk] at hk
    · simp only [hkk, if_false] at hk
      simp only [issued_append, stopped_append, hst, hother k hkk, Nat.add_zero]
      exact hw.bal_none k hk
  · intro k q hk
    simp only [hlook] at hk
    by_cases hkk : k = key
    · simp only [hkk, if_true, Option.some.injEq] at hk
      subst hk
      subst hkk
      have hb := hw.bal_none k hnone
      rw [hatnew]
      simp only [issued_append, stopped_append, hst, Nat.add_zero]
      cases hd : dev with
      | some d =>
        left
        have := hdev (by simp [hd])
        exact ⟨rfl, by omega⟩
      | none =>
        right
        refine ⟨rfl, by omega, u, by simp [List.lookup], List.mem_cons_self _ _, ?_⟩
        intro id hid k2 hp0
        rcases hret with ⟨rfl, _⟩ | ⟨hsome, _⟩
        · exact hfresh (hw.gen id hid k2 u hp0)
        · simp [hd] at hsome
    · simp only [hkk, if_false] at hk
      have hq := (hw.wf k q hk).1
      rw [hatold _ _ q hq]
      simp only [issued_append, stopped_append, hst, hother k hkk, Nat.add_zero]
      rcases hw.bal_some k q hk with ⟨hd, hb⟩ | ⟨hd, hb, u0, hu0, hg0, hr0⟩
      · exact Or.inl ⟨hd, hb⟩
      · right
        refine ⟨hd, hb, u0, hu0, List.mem_cons_of_mem _ hg0, ?_⟩
        intro id hid k2 hp0
        rcases hret with ⟨rfl, _⟩ | ⟨_, id0, rfl, hparse⟩
        · exact hr0 id hid k2 hp0
        · simp only [List.mem_cons] at hid
          rcases hid with rfl | hid
          · rw [hparse] at hp0
            simp only [Except.ok.injEq, Prod.mk.injEq] at hp0
            exact hfresh (hp0.2 ▸ hg0)
          · exact hr0 id hid k2 hp0

theorem Inv_observe_new (newV5 : String → String)
    (hkey : ∀ s, noSlash (newV5 s) = true) (w : World) (hw : Inv w)
    (deviceID href : String) (handler codec : Nat) (out : ObserveOutcome) (u : String)
    (hcache : w.client.observeResourceCache.lookup (newV5 (deviceID ++ href)) = none)
    (hu : out.newV4 = .ok u) (hfresh : u ∉ w.generated) (hslash : noSlash u = true) :
    Inv (step newV5 w (Op.observe deviceID href handler codec out)) := by
  obtain ⟨calls, dev, obsid, hc, hst, hoth, hle, hres⟩ :=
    ObserveResource_new newV5 out w.client deviceID href handler codec u hcache hu
  rcases hres with ⟨hok, hdev, hiss, _⟩ | ⟨⟨e, herr⟩, hdev⟩
  · have hstep : step newV5 w (Op.observe deviceID href handler codec out)
        = { client := (ObserveResource newV5 out w.client deviceID href handler codec).1,
            returned := getObservationID (newV5 (deviceID ++ href)) u :: w.returned,
            generated := u :: w.generated } := by
      simp only [step, hu, hok]
    rw [hstep]
    exact Inv_create w hw _ (newV5 (deviceID ++ href)) u dev obsid calls _ _ _ hcache hc hst
      (fun k hk => (hoth k hk).1) hle (fun _ => hiss) hfresh
      (Or.inr ⟨hdev, _, rfl, parseIDs_getObservationID _ _ (hkey _) hslash⟩)
  · have hstep : step newV5 w (Op.observe deviceID href handler codec out)
        = { client := (ObserveResource newV5 out w.client deviceID href handler codec).1,
            returned := w.returned,
            generated := u :: w.generated } := by
      simp only [step, hu, herr]
    rw [hstep]
    exact Inv_create w hw _ (newV5 (deviceID ++ href)) u dev obsid calls _ _ _ hcache hc hst
      (fun k hk => (hoth k hk).1) hle (fun h => by simp [hdev] at h) hfresh
      (Or.inl ⟨rfl, hdev⟩)

/-- What `StopObservingResource` does to a client whose registry keys lead to allocated
entries: nothing, or the removal of one subscriber from one entry, followed when the
entry is left empty by its removal from the registry and, if it holds a device
reference, by the stop request, the removal from the permanent cache and the
release. -/
theorem StopObservingResource_shape (stopResult : Option String) (c : Client) (id : String)
    (hwf : ∀ k p, c.observeResourceCache.lookup k = some p → p < c.handlers.length) :
    (StopObservingResource stopResult c id).1 = c ∨
    ∃ key sub p s, parseIDs id = .ok (key, sub) ∧
      c.observeResourceCache.lookup key = some p ∧
      (c.handlerAt p).observations.lookup sub = some s ∧
      (∀ q, (StopObservingResource stopResult c id).1.handlerAt q
        = if q = p then { c.handlerAt p with
            observations := mapDelete (c.handlerAt p).observations sub }
          else c.handlerAt q) ∧
      (StopObservingResource stopResult c id).1.handlers.length = c.handlers.length ∧
      (((mapDelete (c.handlerAt p).observations sub).length ≠ 0 ∧
          (StopObservingResource stopResult c id).1.observeResourceCache
            = c.observeResourceCache ∧
          (StopObservingResource stopResult c id).1.log = c.log) ∨
        ((mapDelete (c.handlerAt p).observations sub).length = 0 ∧
          (StopObservingResource stopResult c id).1.observeResourceCache
            = mapDelete c.observeResourceCache key ∧
          (((c.handlerAt p).device = none ∧
              (StopObservingResource stopResult c id).1.log = c.log) ∨
            (∃ d, (c.handlerAt p).device = some d ∧
              (StopObservingResource stopResult c id).1.log
                = c.log ++ [Call.stopObservingResource key d (c.handlerAt p).observationID,
                    Call.removeDeviceFromPermanentCache d.DeviceID d, Call.release d])))) := by
  cases hparse : parseIDs id with
  | error e => left; simp [StopObservingResource, hparse]
  | ok ks =>
    obtain ⟨key, sub⟩ := ks
    cases hcache : c.observeResourceCache.lookup key with
    | none => left; simp [StopObservingResource, hparse, hcache]
    | some p =>
      cases hsub : (c.handlerAt p).observations.lookup sub with
      | none => left; simp [StopObservingResource, hparse, hcache, hsub]
      | some s =>
        right
        have hp := hwf key p hcache
        have hat : ∀ q, (c.updateHandler p fun o =>
              { o with observations := mapDelete o.observations sub }).handlerAt q
            = if q = p then { c.handlerAt p with
                observations := mapDelete (c.handlerAt p).observations sub }
              else c.handlerAt q :=
          fun q => handlerAt_updateHandler c p q _ hp
        have hatp := hat p
        simp only [if_true] at hatp
        refine ⟨key, sub, p, s, rfl, hcache, hsub, ?_⟩
        by_cases hzero : (mapDelete (c.handlerAt p).observations sub).length = 0
        · cases hdev : (c.handlerAt p).device with
          | none =>
            have hr : (StopObservingResource stopResult c id).1
                = { (c.updateHandler p fun o =>
                      { o with observations := mapDelete o.observations sub }) with
                    observeResourceCache := mapDelete c.observeResourceCache key } := by
              simp only [StopObservingResource, hparse, hcache, hsub, hatp, hzero, hdev, if_true]
              rfl
            rw [hr]
            refine ⟨?_, by simp, Or.inr ⟨hzero, rfl, Or.inl ⟨rfl, rfl⟩⟩⟩
            intro q
            rw [← hat q]
            exact handlerAt_congr _ _ q rfl
          | some d =>
            have hr : (StopObservingResource stopResult c id).1
                = { (c.updateHandler p fun o =>
                      { o with observations := mapDelete o.observations sub }) with
                    observeResourceCache := mapDelete c.observeResourceCache key,
                    log := c.log ++
                      [Call.stopObservingResource key d (c.handlerAt p).observationID,
                       Call.removeDeviceFromPermanentCache d.DeviceID d, Call.release d] } := by
              simp only [StopObservingResource, hparse, hcache, hsub, hatp, hzero, hdev, if_true]
              simp [Client.emit]
            rw [hr]
            refine ⟨?_, by simp, Or.inr ⟨hzero, rfl, Or.inr ⟨d, rfl, rfl⟩⟩⟩
            intro q
            rw [← hat q]
            exact handlerAt_congr _ _ q rfl
        · have hr : (StopObservingResource stopResult c id).1
              = (c.updateHandler p fun o =>
                  { o with observations := mapDelete o.observations sub }) := by
            simp only [StopObservingResource, hparse, hcache, hsub, hatp, hzero, if_false]
          rw [hr]
          exact ⟨hat, by simp, Or.inl ⟨hzero, rfl, rfl⟩⟩

theorem Inv_stop (w : World) (hw : Inv w) (id : String) (stopResult : Option String)
    (hid : id ∈ w.returned) :
    Inv { w with client := (StopObservingResource stopResult w.client id).1 } := by
  rcases StopObservingResource_shape stopResult w.client id (fun k p h => (hw.wf k p h).1) with
    hsame | ⟨key, sub, p, s, hparse, hcache, hsub, hat, hlen, hcases⟩
  · rw [hsame]; exact hw
  · have hidp := (hw.wf key p hcache).2
    have hne : ∀ k q, k ≠ key → w.client.observeResourceCache.lookup k = some q → q ≠ p := by
      intro k q hk hq hqp
      have := (hw.wf k q hq).2
      rw [hqp, hidp] at this
      exact hk this.symm
    have hpoison : ∀ u0, (∀ id, id ∈ w.returned → ∀ k2, parseIDs id ≠ .ok (k2, u0)) →
        ((w.client.handlerAt p).observations.lookup u0).isSome = true →
        ((mapDelete (w.client.handlerAt p).observations sub).lookup u0).isSome = true := by
      intro u0 hr0 hu0
      have hu0sub : ¬ u0 = sub := by
        intro h
        exact hr0 id hid key (h ▸ hparse)
      rw [lookup_mapDelete, if_neg hu0sub]
      exact hu0
    rcases hcases with ⟨hpos, hc, hlog⟩ | ⟨hzero, hc, hlogs⟩
    · refine { wf := ?_, gen := hw.gen, bal_none := ?_, bal_some := ?_ }
      · intro k q hk
        simp only [hc] at hk
        have := hw.wf k q hk
        simp only [hlen, hat q]
        refine ⟨this.1, ?_⟩
        by_cases hq : q = p
        · subst hq; simpa using this.2
        · simpa [hq] using this.2
      · intro k hk
        simp only [hc] at hk
        simp only [hlog]
        exact hw.bal_none k hk
      · intro k q hk
        simp only [hc] at hk
        simp only [hlog, hat q]
        rcases hw.bal_some k q hk with ⟨hd, hb⟩ | ⟨hd, hb, u0, hu0, hg0, hr0⟩
        · left
          refine ⟨?_, hb⟩
          by_cases hq : q = p
          · subst hq; simpa using hd
          · simpa [hq] using hd
        · right
          refine ⟨?_, hb, u0, ?_, hg0, hr0⟩
          · by_cases hq : q = p
            · subst hq; simpa using hd
            · simpa [hq] using hd
          · by_cases hq : q = p
            · subst hq
              simp only [if_true]
              exact hpoison u0 hr0 hu0
            · simpa [hq] using hu0
    · have hleft : (w.client.handlerAt p).device.isSome = true ∧
          issued key w.client.log = stopped key w.client.log + 1 := by
        rcases hw.bal_some key p hcache with h | ⟨_, _, u0, hu0, _, hr0⟩
        · exact h
        · exfalso
          have := hpoison u0 hr0 hu0
          rw [List.length_eq_zero.mp hzero] at this
          simp at this
      obtain ⟨d, hd, hlog⟩ : ∃ d, (w.client.handlerAt p).device = some d ∧
          (StopObservingResource stopResult w.client id).1.log
            = w.client.log ++ [Call.stopObservingResource key d
                (w.client.handlerAt p).observationID,
              Call.removeDeviceFromPermanentCache d.DeviceID d, Call.release d] := by
        rcases hlogs with ⟨hnone, _⟩ | h
        · rw [hnone] at hleft; simp at hleft
        · exact h
      have hiss : ∀ k, issued k (StopObservingResource stopResult w.client id).1.log
          = issued k w.client.log := by
        intro k; rw [hlog]; simp [issued]
      have hstk : stopped key (StopObservingResource stopResult w.client id).1.log
          = stopped key w.client.log + 1 := by
        rw [hlog]; simp [stopped]
      have hsto : ∀ k, k ≠ key → stopped k (StopObservingResource stopResult w.client id).1.log
          = stopped k w.client.log := by
        intro k hk
        have hk2 : ¬ key = k := fun e => hk e.symm
        rw [hlog]; simp [stopped, hk2]
      have hlook : ∀ k, (StopObservingResource stopResult w.client id).1.observeResourceCache.lookup k
          = if k = key then none else w.client.observeResourceCache.lookup k := by
        intro k; rw [hc]; exact lookup_mapDelete _ _ _
      refine { wf := ?_, gen := hw.gen, bal_none := ?_, bal_some := ?_ }
      · intro k q hk
        simp only [hlook] at hk
        by_cases hkk : k = key
        · simp [hkk] at hk
        · simp only [hkk, if_false] at hk
          have := hw.wf k q hk
          simp only [hlen, hat q, hne k q hkk hk, if_false]
          exact this
      · intro k hk
        simp only [hlook] at hk
        by_cases hkk : k = key
        · subst hkk
          simp only [hiss, hstk]
          exact hleft.2
        · simp only [hkk, if_false] at hk
          simp only [hiss, hsto k hkk]
          exact hw.bal_none k hk
      · intro k q hk
        simp only [hlook] at hk
        by_cases hkk : k = key
        · simp [hkk] at hk
        · simp only [hkk, if_false] at hk
          simp only [hiss, hsto k hkk, hat q, hne k q hkk hk, if_false]
          exact hw.bal_some k q hk

/-- Every admissible call keeps the invariant. -/
theorem Inv_step (newV5 : String → String) (hkey : ∀ s, noSlash (newV5 s) = true)
    (w : World) (hw : Inv w) (op : Op) (hadm : admissible w op = true) :
    Inv (step newV5 w op) := by
  cases op with
  | observe deviceID href handler codec out =>
    cases hu : out.newV4 with
    | error e => rw [step_observe_newV4_error newV5 w deviceID href handler codec out e hu]; exact hw
    | ok u =>
      simp [admissible, hu] at hadm
      cases hcache : w.client.observeResourceCache.lookup (newV5 (deviceID ++ href)) with
      | none =>
        exact Inv_observe_new newV5 hkey w hw deviceID href handler codec out u hcache hu
          hadm.1 hadm.2
      | some p =>
        exact Inv_observe_loaded newV5 hkey w hw deviceID href handler codec p out u hcache hu
          hadm.1 hadm.2
  | stop id stopResult =>
    simp [admissible] at hadm
    exact Inv_stop w hw id stopResult hadm

theorem Inv_run (newV5 : String → String) (hkey : ∀ s, noSlash (newV5 s) = true)
    (ops : List Op) (w : World) (hw : Inv w) (hadm : admissibleRun newV5 w ops = true) :
    Inv (run newV5 w ops) := by
  induction ops generalizing w with
  | nil => exact hw
  | cons op rest ih =>
    simp only [admissibleRun, Bool.and_eq_true] at hadm
    exact ih (step newV5 w op) (Inv_step newV5 hkey w hw op hadm.1) hadm.2

theorem Inv_at_most_one (w : World) (hw : Inv w) (k : String) :
    issued k w.client.log ≤ stopped k w.client.log + 1 := by
  cases hl : w.client.observeResourceCache.lookup k with
  | none => have := hw.bal_none k hl; omega
  | some p =>
    rcases hw.bal_some k p hl with ⟨_, h⟩ | ⟨_, h, _⟩ <;> omega

theorem ObserveResource_loaded_requests (newV5 : String → String) (out : ObserveOutcome)
    (c : Client) (deviceID href : String) (handler codec p : Nat)
    (hcache : c.observeResourceCache.lookup (newV5 (deviceID ++ href)) = some p) (k : String) :
    requested k (ObserveResource newV5 out c deviceID href handler codec).1.log
      = requested k c.log := by
  cases hu : out.newV4 with
  | error e => simp [ObserveResource, hu]
  | ok u =>
    rw [ObserveResource_loaded newV5 out c deviceID href handler codec p u hcache hu]
    simp [Client.emit, requested]

theorem isOk_ObserveResource (newV5 : String → String) (out : ObserveOutcome) (c : Client)
    (deviceID href : String) (handler codec : Nat)
    (h : isOk (ObserveResource newV5 out c deviceID href handler codec).2 = true) :
    ∃ u, out.newV4 = .ok u := by
  cases hu : out.newV4 with
  | error e => simp [ObserveResource, hu, isOk] at h
  | ok u => exact ⟨u, rfl⟩

/-- Successful calls on a pair whose entry exists all join that entry and make no
physical request. -/
theorem observeMany_loaded (newV5 : String → String) (deviceID href : String)
    (calls : List (Nat × Nat × ObserveOutcome)) (c : Client) (p : Nat)
    (hcache : c.observeResourceCache.lookup (newV5 (deviceID ++ href)) = some p)
    (hp : p < c.handlers.length)
    (hok : ∀ r, r ∈ (observeMany newV5 deviceID href calls c).2 → isOk r = true)
    (hnodup : (generatedIDs calls).Nodup)
    (hdisj : ∀ u, u ∈ generatedIDs calls → (c.handlerAt p).observations.lookup u = none) :
    (observeMany newV5 deviceID href calls c).1.observeResourceCache = c.observeResourceCache ∧
    ((observeMany newV5 deviceID href calls c).1.handlerAt p).observations.length
      = (c.handlerAt p).observations.length + calls.length ∧
    ((observeMany newV5 deviceID href calls c).1.handlerAt p).device = (c.handlerAt p).device ∧
    (∀ k, requested k (observeMany newV5 deviceID href calls c).1.log = requested k c.log) ∧
    (∀ k, issued k (observeMany newV5 deviceID href calls c).1.log = issued k c.log) := by
  induction calls generalizing c with
  | nil => simp [observeMany]
  | cons call rest ih =>
    obtain ⟨handler, codec, out⟩ := call
    simp only [observeMany, List.mem_cons, forall_eq_or_imp] at hok
    obtain ⟨u, hu⟩ := isOk_ObserveResource newV5 out c deviceID href handler codec hok.1
    have hobs := ObserveResource_loaded newV5 out c deviceID href handler codec p u hcache hu
    simp only [generatedIDs, hu, List.nodup_cons, List.mem_cons, forall_eq_or_imp] at hnodup hdisj
    have hat : (ObserveResource newV5 out c deviceID href handler codec).1.handlerAt p
        = { c.handlerAt p with
            observations := mapStore (c.handlerAt p).observations u c.subscriptions.length } := by
      rw [hobs]
      simp only [handlerAt_emit]
      rw [handlerAt_updateHandler _ _ _ _ (by exact hp)]
      simp only [if_true]
      rfl
    have hc1 : (ObserveResource newV5 out c deviceID href handler codec).1.observeResourceCache
        = c.observeResourceCache := by rw [hobs]; rfl
    have hp1 : p < (ObserveResource newV5 out c deviceID href handler codec).1.handlers.length := by
      rw [hobs]; simpa [Client.emit] using hp
    have hdisj1 : ∀ u2, u2 ∈ generatedIDs rest →
        ((ObserveResource newV5 out c deviceID href handler codec).1.handlerAt p).observations.lookup
          u2 = none := by
      intro u2 hu2
      rw [hat]
      simp only [lookup_mapStore]
      have hne : ¬ u2 = u := fun e => hnodup.1 (e ▸ hu2)
      rw [if_neg hne]
      exact hdisj.2 u2 hu2
    obtain ⟨i1, i2, i3, i4, i5⟩ := ih (ObserveResource newV5 out c deviceID href handler codec).1
      (by rw [hc1]; exact hcache) hp1 hok.2 hnodup.2 hdisj1
    simp only [observeMany]
    refine ⟨by rw [i1, hc1], ?_, by rw [i3, hat], ?_, ?_⟩
    · rw [i2, hat]
      simp only [mapStore_length_of_none _ _ _ hdisj.1, List.length_cons]
      omega
    · intro k
      rw [i4, hobs]; simp [Client.emit, requested]
    · intro k
      rw [i5, hobs]; simp [Client.emit, issued]

/-- Successful calls on a pair without entry, with distinct subscription identifiers: the first
creates the entry and makes the only physical request, the others join. -/
theorem observeMany_new (newV5 : String → String) (deviceID href : String)
    (calls : List (Nat × Nat × ObserveOutcome)) (c : Client)
    (hcache : c.observeResourceCache.lookup (newV5 (deviceID ++ href)) = none)
    (hne : calls ≠ [])
    (hok : ∀ r, r ∈ (observeMany newV5 deviceID href calls c).2 → isOk r = true)
    (hnodup : (generatedIDs calls).Nodup) :
    (observeMany newV5 deviceID href calls c).1.observeResourceCache
      = c.observeResourceCache ++ [(newV5 (deviceID ++ href), c.handlers.length)] ∧
    ((observeMany newV5 deviceID href calls c).1.handlerAt c.handlers.length).observations.length
      = calls.length ∧
    ((observeMany newV5 deviceID href calls c).1.handlerAt c.handlers.length).device.isSome
      = true ∧
    requested (newV5 (deviceID ++ href)) (observeMany newV5 deviceID href calls c).1.log
      = requested (newV5 (deviceID ++ href)) c.log + 1 ∧
    issued (newV5 (deviceID ++ href)) (observeMany newV5 deviceID href calls c).1.log
      = issued (newV5 (deviceID ++ href)) c.log + 1 := by
  cases calls with
  | nil => exact absurd rfl hne
  | cons call rest =>
    obtain ⟨handler, codec, out⟩ := call
    simp only [observeMany, List.mem_cons, forall_eq_or_imp] at hok
    obtain ⟨u, hu⟩ := isOk_ObserveResource newV5 out c deviceID href handler codec hok.1
    simp only [generatedIDs, hu, List.nodup_cons] at hnodup
    obtain ⟨log1, dev, obsid, hc, _, _, _, hres⟩ :=
      ObserveResource_new newV5 out c deviceID href handler codec u hcache hu
    rcases hres with ⟨_, hdev, hiss, hreq⟩ | ⟨⟨e, herr⟩, _⟩
    · have hat : (ObserveResource newV5 out c deviceID href handler codec).1.handlerAt
          c.handlers.length
          = ⟨newV5 (deviceID ++ href), dev, obsid, none, [(u, c.subscriptions.length)]⟩ := by
        rw [hc]; simp only [Client.handlerAt, getD_length_append]
      have hlook : (ObserveResource newV5 out c deviceID href handler
          codec).1.observeResourceCache.lookup (newV5 (deviceID ++ href))
          = some c.handlers.length := by
        rw [hc]
        simp only [Core.lookup_append_of_none _ _ _ _ hcache, if_true]
      have hdisj : ∀ u2, u2 ∈ generatedIDs rest →
          ((ObserveResource newV5 out c deviceID href handler codec).1.handlerAt
            c.handlers.length).observations.lookup u2 = none := by
        intro u2 hu2
        rw [hat]
        have hne2 : ¬ u2 = u := fun e => hnodup.1 (e ▸ hu2)
        simp [lookup_cons_ite, hne2]
      obtain ⟨i1, i2, i3, i4, i5⟩ := observeMany_loaded newV5 deviceID href rest
        (ObserveResource newV5 out c deviceID href handler codec).1 c.handlers.length hlook
        (by rw [hc]; simp) hok.2 hnodup.2 hdisj
      simp only [observeMany]
      refine ⟨by rw [i1, hc], ?_, by rw [i3, hat]; exact hdev, ?_, ?_⟩
      · rw [i2, hat]; simp; omega
      · rw [i4, hc]; simp only [requested_append, hreq]
      · rw [i5, hc]; simp only [issued_append, hiss]
    · rw [herr] at hok
      simp [isOk] at hok

theorem sampleNewV5_noSlash (s : String) : noSlash (sampleNewV5 s) = true := by
  rw [noSlash_iff]
  simp only [sampleNewV5, String.data_append, List.mem_append, List.mem_map, not_or,
    not_exists, not_and]
  refine ⟨by decide, ?_⟩
  intro ch _
  split_ifs with h
  · decide
  · exact h

/-- What holds of the physical observations of a pair, for a registry hash that
writes no `/`:
(1) after every admissible sequence of `ObserveResource` and `StopObservingResource`
calls, whatever their outcomes, the physical observations started for a key exceed
those stopped by at most one; (2) a call of `ObserveResource` that finds the registry
entry of its key makes no physical request; (3) `N >= 1` successful calls on one pair
with distinct subscription identifiers, from a registry without entry for it, make
exactly one physical request, which succeeds, and leave one new registry entry that
holds the device reference and `N` subscribers. -/
theorem ObserveResource_single_physical_observation (newV5 : String → String)
    (hkey : ∀ s, noSlash (newV5 s) = true) :
    (∀ ops, admissibleRun newV5 World.init ops = true → ∀ k,
      issued k (run newV5 World.init ops).client.log
        ≤ stopped k (run newV5 World.init ops).client.log + 1) ∧
    (∀ out c deviceID href handler codec p,
      c.observeResourceCache.lookup (newV5 (deviceID ++ href)) = some p →
      ∀ k, requested k (ObserveResource newV5 out c deviceID href handler codec).1.log
        = requested k c.log) ∧
    (∀ deviceID href calls c,
      c.observeResourceCache.lookup (newV5 (deviceID ++ href)) = none →
      calls ≠ [] →
      (∀ r, r ∈ (observeMany newV5 deviceID href calls c).2 → isOk r = true) →
      (generatedIDs calls).Nodup →
      (observeMany newV5 deviceID href calls c).1.observeResourceCache
        = c.observeResourceCache ++ [(newV5 (deviceID ++ href), c.handlers.length)] ∧
      ((observeMany newV5 deviceID href calls c).1.handlerAt
        c.handlers.length).observations.length = calls.length ∧
      ((observeMany newV5 deviceID href calls c).1.handlerAt
        c.handlers.length).device.isSome = true ∧
      requested (newV5 (deviceID ++ href)) (observeMany newV5 deviceID href calls c).1.log
        = requested (newV5 (deviceID ++ href)) c.log + 1 ∧
      issued (newV5 (deviceID ++ href)) (observeMany newV5 deviceID href calls c).1.log
        = issued (newV5 (deviceID ++ href)) c.log + 1) := by
  refine ⟨?_, ?_, ?_⟩
  · intro ops hadm k
    exact Inv_at_most_one _ (Inv_run newV5 hkey ops World.init Inv_init hadm) k
  · intro out c deviceID href handler codec p hcache k
    exact ObserveResource_loaded_requests newV5 out c deviceID href handler codec p hcache k
  · intro deviceID href calls c hcache hne hok hnodup
    exact observeMany_new newV5 deviceID href calls c hcache hne hok hnodup

theorem ObserveResource_single_physical_observation_witness :
    issued "key-dev-1-sensor" (run sampleNewV5 World.init sampleOps).client.log
      ≤ stopped "key-dev-1-sensor" (run sampleNewV5 World.init sampleOps).client.log + 1 ∧
    requested "key-dev-1-sensor"
        (ObserveResource sampleNewV5 (sampleOutcome "u2") sampleClient1 "dev-1" "/sensor"
          11 0).1.log
      = requested "key-dev-1-sensor" sampleClient1.log ∧
    ((observeMany sampleNewV5 "dev-1" "/sensor" sampleCalls Client.empty).1.handlerAt
        0).observations.length = 3 ∧
    requested "key-dev-1-sensor"
        (observeMany sampleNewV5 "dev-1" "/sensor" sampleCalls Client.empty).1.log = 1 :=
  have h := ObserveResource_single_physical_observation sampleNewV5 sampleNewV5_noSlash
  have h3 := h.2.2 "dev-1" "/sensor" sampleCalls Client.empty rfl (by simp [sampleCalls])
    (by decide) (by decide)
  ⟨h.1 sampleOps rfl "key-dev-1-sensor",
    h.2.1 (sampleOutcome "u2") sampleClient1 "dev-1" "/sensor" 11 0 0 rfl "key-dev-1-sensor",
    h3.2.1, h3.2.2.2.1⟩

/-- C3 (evaluation at the failing input): after a registration of `/sensor` of `dev-1`
that failed because the device was not found, two successful `ObserveResource` calls
on the same pair, with no unsubscribe in between, make no physical observation
request at all, and the registry entry of the pair holds three subscribers, the failed
one included, and no device reference.  After a registration that failed while the
device was stored, the two successful calls likewise make no request of their own,
and the entry holds three subscribers and no device reference. -/
theorem ObserveResource_joins_failed_registration :
    (ObserveResource sampleNewV5 (sampleOutcomeNoDevice "u1") Client.empty
        "dev-1" "/sensor" 10 0).2 = .error "device not found" ∧
    observeMany sampleNewV5 "dev-1" "/sensor"
        [(11, 0, sampleOutcome "u2"), (12, 0, sampleOutcome "u3")]
        (ObserveResource sampleNewV5 (sampleOutcomeNoDevice "u1") Client.empty
          "dev-1" "/sensor" 10 0).1
      = ({ observeResourceCache := [("key-dev-1-sensor", 0)],
           handlers := [{ id := "key-dev-1-sensor", device := none, observationID := "",
                          lastMessage := none,
                          observations := [("u1", 0), ("u2", 1), ("u3", 2)] }],
           subscriptions := [{ handler := 10, codec := 0, isClosed := false,
                               firstMessage := none },
                             { handler := 11, codec := 0, isClosed := false,
                               firstMessage := none },
                             { handler := 12, codec := 0, isClosed := false,
                               firstMessage := none }],
           log := [Call.getRefDevice "dev-1", Call.goHandleFirstMessage 1,
                   Call.goHandleFirstMessage 2] },
         [.ok "key-dev-1-sensor/u2", .ok "key-dev-1-sensor/u3"]) ∧
    requested "key-dev-1-sensor"
        (observeMany sampleNewV5 "dev-1" "/sensor"
          [(11, 0, sampleOutcome "u2"), (12, 0, sampleOutcome "u3")]
          (ObserveResource sampleNewV5 (sampleOutcomeNoDevice "u1") Client.empty
            "dev-1" "/sensor" 10 0).1).1.log = 0 ∧
    (ObserveResource sampleNewV5 (sampleOutcomeNoStore "u1") Client.empty
        "dev-1" "/sensor" 10 0).2 = .error "cache is full" ∧
    (observeMany sampleNewV5 "dev-1" "/sensor"
        [(11, 0, sampleOutcome "u2"), (12, 0, sampleOutcome "u3")]
        (ObserveResource sampleNewV5 (sampleOutcomeNoStore "u1") Client.empty
          "dev-1" "/sensor" 10 0).1).2
      = [.ok "key-dev-1-sensor/u2", .ok "key-dev-1-sensor/u3"] ∧
    (observeMany sampleNewV5 "dev-1" "/sensor"
        [(11, 0, sampleOutcome "u2"), (12, 0, sampleOutcome "u3")]
        (ObserveResource sampleNewV5 (sampleOutcomeNoStore "u1") Client.empty
          "dev-1" "/sensor" 10 0).1).1.log
      = (ObserveResource sampleNewV5 (sampleOutcomeNoStore "u1") Client.empty
          "dev-1" "/sensor" 10 0).1.log
        ++ [Call.goHandleFirstMessage 1, Call.goHandleFirstMessage 2] ∧
    (observeMany sampleNewV5 "dev-1" "/sensor"
        [(11, 0, sampleOutcome "u2"), (12, 0, sampleOutcome "u3")]
        (ObserveResource sampleNewV5 (sampleOutcomeNoStore "u1") Client.empty
          "dev-1" "/sensor" 10 0).1).1.handlers
      = [{ id := "key-dev-1-sensor", device := none, observationID := "",
           lastMessage := none, observations := [("u1", 0), ("u2", 1), ("u3", 2)] }] :=
  ⟨rfl, rfl, rfl, rfl, rfl, rfl, rfl⟩

theorem splitChars_length (sep : Char) (l : List Char) :
    (splitChars sep l).length = l.count sep + 1 := by
  induction l with
  | nil => rfl
  | cons c cs ih =>
    by_cases hc : c = sep
    · subst hc
      simp [splitChars, ih]
    · have hne : ¬ (c == sep) = true := by simpa using hc
      simp only [splitChars, hc, if_false]
      cases hs : splitChars sep cs with
      | nil => rw [hs] at ih; simp at ih
      | cons x xs =>
        rw [hs] at ih
        simp only [List.length_cons] at ih ⊢
        rw [List.count_cons]
        simp only [hne, if_false, Nat.add_zero]
        exact ih

theorem parseIDs_invalid (ID : String) (h : ID.data.count '/' ≠ 1) :
    parseIDs ID = .error "invalid ID" := by
  have hlen : (Split ID).length ≠ 2 := by
    simp only [Split, List.length_map, splitChars_length]
    omega
  have herr : Go.Errorf "invalid ID" = "invalid ID" := by decide
  unfold parseIDs
  split
  · rename_i v0 v1 heq
    rw [heq] at hlen
    simp at hlen
  · rw [herr]

theorem parseIDs_valid (ID : String) (h : ID.data.count '/' = 1) :
    ∃ key id, parseIDs ID = .ok (key, id) := by
  have hlen : (Split ID).length = 2 := by
    simp only [Split, List.length_map, splitChars_length]
    omega
  match hs : Split ID, hlen with
  | [v0, v1], _ => exact ⟨v0, v1, by simp [parseIDs, hs]⟩

/-- C16: the composite identifier of two texts without `/` parses back to exactly
these two texts; a text that does not hold exactly one `/` makes `parseIDs` return the
`invalid ID` error, and `StopObservingResource` then returns this error and leaves the
client as it was; a text with exactly one `/` parses. -/
theorem parseIDs_roundtrip_and_invalid :
    (∀ key id, noSlash key = true → noSlash id = true →
      parseIDs (getObservationID key id) = .ok (key, id)) ∧
    (∀ ID, ID.data.count '/' ≠ 1 →
      parseIDs ID = .error "invalid ID" ∧
      ∀ stopResult c, StopObservingResource stopResult c ID = (c, some "invalid ID")) ∧
    (∀ ID, ID.data.count '/' = 1 → ∃ key id, parseIDs ID = .ok (key, id)) := by
  refine ⟨fun key id hk hi => parseIDs_getObservationID key id hk hi, ?_, parseIDs_valid⟩
  intro ID h
  have hp := parseIDs_invalid ID h
  refine ⟨hp, ?_⟩
  intro stopResult c
  simp [StopObservingResource, hp]

theorem parseIDs_roundtrip_and_invalid_witness :
    parseIDs (getObservationID "key-dev-1-sensor" "u1") = .ok ("key-dev-1-sensor", "u1") ∧
    parseIDs "dev-1/sensor/u1" = .error "invalid ID" ∧
    StopObservingResource none sampleClient1 "no-separator" = (sampleClient1, some "invalid ID") :=
  ⟨parseIDs_roundtrip_and_invalid.1 "key-dev-1-sensor" "u1" (by decide) (by decide),
    (parseIDs_roundtrip_and_invalid.2.1 "dev-1/sensor/u1" (by decide)).1,
    (parseIDs_roundtrip_and_invalid.2.1 "no-separator" (by decide)).2 none sampleClient1⟩

theorem foldl_emit (f : observationHandler → Call) (l : List (String × Nat)) (c : Client) :
    l.foldl (fun c e => c.emit (f (c.subscriptionAt e.2))) c
      = { c with log := c.log ++ l.map fun e => f (c.subscriptionAt e.2) } := by
  induction l generalizing c with
  | nil => simp
  | cons e rest ih =>
    rw [List.foldl_cons, ih]
    simp [Client.emit, Client.subscriptionAt]

theorem set_getD_self (l : List observationsHandler) (o : Nat) (ho : o < l.length) :
    l.set o (l.getD o default) = l := by
  induction l generalizing o with
  | nil => simp at ho
  | cons x rest ih =>
    cases o with
    | zero => rfl
    | succ n =>
      simp only [List.length_cons, Nat.add_lt_add_iff_right] at ho
      simp only [List.set_cons_succ, List.getD_cons_succ, ih n ho]

theorem updateHandler_self (c : Client) (o : Nat) (f : observationsHandler → observationsHandler)
    (ho : o < c.handlers.length) (hf : f (c.handlerAt o) = c.handlerAt o) :
    c.updateHandler o f = c := by
  unfold Client.updateHandler
  rw [hf]
  unfold Client.handlerAt
  rw [set_getD_self _ _ ho]

/-- Method `closeObservingResource` on an entry that is in the registry and holds a
device reference. -/
theorem closeObservingResource_registered (c : Client) (o p : Nat) (d : RefDevice)
    (hreg : c.observeResourceCache.lookup (c.handlerAt o).id = some p)
    (hdev : (c.handlerAt o).device = some d) :
    closeObservingResource c o
      = { c with
          observeResourceCache := mapDelete c.observeResourceCache (c.handlerAt o).id,
          log := c.log ++ [Call.stopObservingResource (c.handlerAt o).id d
              (c.handlerAt o).observationID,
            Call.removeDeviceFromPermanentCache d.DeviceID d, Call.release d] } := by
  have h1 : ∀ cache : List (String × Nat),
      Client.handlerAt { c with observeResourceCache := cache } o = c.handlerAt o :=
    fun _ => rfl
  simp only [closeObservingResource, hreg, h1, hdev, Client.emit, List.append_assoc,
    List.singleton_append, List.cons_append, List.nil_append]

theorem closeObservingResource_unregistered (c : Client) (o : Nat)
    (hreg : c.observeResourceCache.lookup (c.handlerAt o).id = none) :
    closeObservingResource c o = c := by
  simp only [closeObservingResource, hreg]

/-- The common body of `observationsHandler.OnClose` and `observationsHandler.Error`
on an entry that is in the registry and holds a device reference; `f` builds the
notification of one subscriber. -/
theorem terminate_registered (f : observationHandler → Call) (c : Client) (o p : Nat)
    (d : RefDevice)
    (hreg : c.observeResourceCache.lookup (c.handlerAt o).id = some p)
    (hdev : (c.handlerAt o).device = some d) :
    ((closeObservingResource c o).handlerAt o).observations.foldl
        (fun c e => c.emit (f (c.subscriptionAt e.2)))
        ((closeObservingResource c o).updateHandler o fun h => { h with observations := [] })
      = { observeResourceCache := mapDelete c.observeResourceCache (c.handlerAt o).id,
          handlers := c.handlers.set o { c.handlerAt o with observations := [] },
          subscriptions := c.subscriptions,
          log := c.log ++ [Call.stopObservingResource (c.handlerAt o).id d
              (c.handlerAt o).observationID,
            Call.removeDeviceFromPermanentCache d.DeviceID d, Call.release d]
            ++ (c.handlerAt o).observations.map fun e => f (c.subscriptionAt e.2) } := by
  rw [closeObservingResource_registered c o p d hreg hdev, foldl_emit]
  rfl

/-- The common body of the two termination methods on an entry that is not in the
registry and has no subscriber: nothing happens. -/
theorem terminate_again (f : observationHandler → Call) (c : Client) (o : Nat)
    (ho : o < c.handlers.length)
    (hreg : c.observeResourceCache.lookup (c.handlerAt o).id = none)
    (hempty : (c.handlerAt o).observations = []) :
    ((closeObservingResource c o).handlerAt o).observations.foldl
        (fun c e => c.emit (f (c.subscriptionAt e.2)))
        ((closeObservingResource c o).updateHandler o fun h => { h with observations := [] })
      = c := by
  rw [closeObservingResource_unregistered c o hreg, hempty, List.foldl_nil]
  apply updateHandler_self c o _ ho
  cases hh : c.handlerAt o
  rw [hh] at hempty
  simp only at hempty
  simp [hempty]

/-- After the common body ran on a registered entry, the entry is out of the registry
and has no subscriber, so a second run does nothing. -/
theorem terminate_twice (g : observationHandler → Call) (c : Client) (o : Nat)
    (ho : o < c.handlers.length) (log : List Call) (r : Client)
    (hr : r =
        { observeResourceCache := mapDelete c.observeResourceCache (c.handlerAt o).id,
          handlers := c.handlers.set o { c.handlerAt o with observations := [] },
          subscriptions := c.subscriptions,
          log := log }) :
    r.observeResourceCache.lookup (c.handlerAt o).id = none ∧
    (r.handlerAt o).observations = [] ∧
    ((closeObservingResource r o).handlerAt o).observations.foldl
        (fun c e => c.emit (g (c.subscriptionAt e.2)))
        ((closeObservingResource r o).updateHandler o fun h => { h with observations := [] })
      = r := by
  have hat : r.handlerAt o = { c.handlerAt o with observations := [] } := by
    rw [hr]
    simp only [Client.handlerAt, List.getD_eq_getElem?_getD, List.getElem?_set]
    simp [ho]
  have hlook : r.observeResourceCache.lookup (c.handlerAt o).id = none := by
    rw [hr]; simp [lookup_mapDelete]
  refine ⟨hlook, by rw [hat], ?_⟩
  apply terminate_again g r o
  · rw [hr]; simpa using ho
  · rw [hat]; exact hlook
  · rw [hat]

theorem mapDelete_of_lookup_none (m : List (String × Nat)) (key : String)
    (h : m.lookup key = none) : mapDelete m key = m := by
  induction m with
  | nil => rfl
  | cons e rest ih =>
    obtain ⟨k, v⟩ := e
    rw [lookup_cons_ite] at h
    by_cases hk : key = k
    · simp [hk] at h
    · simp only [hk, if_false] at h
      have hne : (k != key) = true := by simpa using fun e => hk e.symm
      simp only [mapDelete, List.filter_cons, hne, if_true]
      exact congrArg _ (ih h)

/-- Method `closeObservingResource` on an entry that is not in the registry or holds
no device reference: at most the registry changes. -/
theorem closeObservingResource_quiet (c : Client) (o : Nat)
    (h : c.observeResourceCache.lookup (c.handlerAt o).id = none ∨
      (c.handlerAt o).device = none) :
    closeObservingResource c o
      = { c with
          observeResourceCache := mapDelete c.observeResourceCache (c.handlerAt o).id } := by
  cases hreg : c.observeResourceCache.lookup (c.handlerAt o).id with
  | none =>
    rw [closeObservingResource_unregistered c o hreg, mapDelete_of_lookup_none _ _ hreg]
  | some p =>
    have hdev : (c.handlerAt o).device = none := by
      rcases h with h | h
      · rw [hreg] at h; cases h
      · exact h
    have h1 : ∀ cache : List (String × Nat),
        Client.handlerAt { c with observeResourceCache := cache } o = c.handlerAt o :=
      fun _ => rfl
    simp only [closeObservingResource, hreg, h1, hdev]

/-- The common body of `observationsHandler.OnClose` and `observationsHandler.Error`
on an entry that is not in the registry or holds no device reference; `f` builds the
notification of one subscriber. -/
theorem terminate_quiet (f : observationHandler → Call) (c : Client) (o : Nat)
    (h : c.observeResourceCache.lookup (c.handlerAt o).id = none ∨
      (c.handlerAt o).device = none) :
    ((closeObservingResource c o).handlerAt o).observations.foldl
        (fun c e => c.emit (f (c.subscriptionAt e.2)))
        ((closeObservingResource c o).updateHandler o fun h => { h with observations := [] })
      = { observeResourceCache := mapDelete c.observeResourceCache (c.handlerAt o).id,
          handlers := c.handlers.set o { c.handlerAt o with observations := [] },
          subscriptions := c.subscriptions,
          log := c.log ++ (c.handlerAt o).observations.map fun e => f (c.subscriptionAt e.2) } := by
  rw [closeObservingResource_quiet c o h, foldl_emit]
  rfl

/-- The common body of the two termination methods always leaves the client of the
same shape: the key of the entry out of the registry, the entry without subscriber. -/
theorem terminate_shape (f : observationHandler → Call) (c : Client) (o : Nat) :
    ∃ log, ((closeObservingResource c o).handlerAt o).observations.foldl
        (fun c e => c.emit (f (c.subscriptionAt e.2)))
        ((closeObservingResource c o).updateHandler o fun h => { h with observations := [] })
      = { observeResourceCache := mapDelete c.observeResourceCache (c.handlerAt o).id,
          handlers := c.handlers.set o { c.handlerAt o with observations := [] },
          subscriptions := c.subscriptions,
          log := log } := by
  cases hreg : c.observeResourceCache.lookup (c.handlerAt o).id with
  | none => exact ⟨_, terminate_quiet f c o (Or.inl hreg)⟩
  | some p =>
    cases hdev : (c.handlerAt o).device with
    | none => exact ⟨_, terminate_quiet f c o (Or.inr hdev)⟩
    | some d => exact ⟨_, terminate_registered f c o p d hreg hdev⟩

/-- C15 (as amended): termination of the physical observation of the registry entry
at a valid address.  `OnClose` and `Error(err)`, and `Handle` on a message that fails
to decode with `err`, take the key of the entry out of the registry.  When the key
was in the registry and the entry holds a device reference `d`, they ask the device
once to stop the stored physical observation, remove it from the permanent cache and
release it; when the key was not in the registry or the entry holds no device
reference, they make none of these calls.  In every case they then call `OnClose`,
respectively `Error(err)`, once on the consumer handler of every subscriber of the
entry, in the order of the subscriber set; the subscriber set is empty afterwards,
and a second termination call of either kind changes nothing, so it notifies no
one. -/
theorem termination_notifies_each_subscriber_once (c : Client) (o : Nat) (err : String)
    (ho : o < c.handlers.length) :
    (∀ p d, c.observeResourceCache.lookup (c.handlerAt o).id = some p →
      (c.handlerAt o).device = some d →
      (observationsHandler.OnClose c o).log
        = c.log ++ [Call.stopObservingResource (c.handlerAt o).id d
              (c.handlerAt o).observationID,
            Call.removeDeviceFromPermanentCache d.DeviceID d, Call.release d]
          ++ (c.handlerAt o).observations.map fun e =>
            Call.onClose (c.subscriptionAt e.2).handler) ∧
    ((c.observeResourceCache.lookup (c.handlerAt o).id = none ∨
        (c.handlerAt o).device = none) →
      (observationsHandler.OnClose c o).log
        = c.log ++ (c.handlerAt o).observations.map fun e =>
            Call.onClose (c.subscriptionAt e.2).handler) ∧
    (observationsHandler.OnClose c o).observeResourceCache.lookup (c.handlerAt o).id = none ∧
    ((observationsHandler.OnClose c o).handlerAt o).observations = [] ∧
    observationsHandler.OnClose (observationsHandler.OnClose c o) o
      = observationsHandler.OnClose c o ∧
    (∀ err2, observationsHandler.Error (observationsHandler.OnClose c o) o err2
      = observationsHandler.OnClose c o) ∧
    (∀ p d, c.observeResourceCache.lookup (c.handlerAt o).id = some p →
      (c.handlerAt o).device = some d →
      (observationsHandler.Error c o err).log
        = c.log ++ [Call.stopObservingResource (c.handlerAt o).id d
              (c.handlerAt o).observationID,
            Call.removeDeviceFromPermanentCache d.DeviceID d, Call.release d]
          ++ (c.handlerAt o).observations.map fun e =>
            Call.error (c.subscriptionAt e.2).handler err) ∧
    ((c.observeResourceCache.lookup (c.handlerAt o).id = none ∨
        (c.handlerAt o).device = none) →
      (observationsHandler.Error c o err).log
        = c.log ++ (c.handlerAt o).observations.map fun e =>
            Call.error (c.subscriptionAt e.2).handler err) ∧
    (observationsHandler.Error c o err).observeResourceCache.lookup (c.handlerAt o).id = none ∧
    ((observationsHandler.Error c o err).handlerAt o).observations = [] ∧
    (∀ err2, observationsHandler.Error (observationsHandler.Error c o err) o err2
      = observationsHandler.Error c o err) ∧
    observationsHandler.OnClose (observationsHandler.Error c o err) o
      = observationsHandler.Error c o err ∧
    observationsHandler.Handle c o (.error err) = observationsHandler.Error c o err := by
  obtain ⟨l1, hclose⟩ := terminate_shape (fun h => Call.onClose h.handler) c o
  obtain ⟨l2, herror⟩ := terminate_shape (fun h => Call.error h.handler err) c o
  have hclose2 : observationsHandler.OnClose c o = _ := hclose
  have herror2 : observationsHandler.Error c o err = _ := herror
  obtain ⟨a1, a2, a3⟩ := terminate_twice (fun h => Call.onClose h.handler) c o ho _ _ hclose2
  obtain ⟨b1, b2, b3⟩ := terminate_twice (fun h => Call.onClose h.handler) c o ho _ _ herror2
  refine ⟨?_, ?_, a1, a2, a3, ?_, ?_, ?_, b1, b2, ?_, b3, rfl⟩
  · intro p d hreg hdev
    have h : observationsHandler.OnClose c o = _ :=
      terminate_registered (fun h => Call.onClose h.handler) c o p d hreg hdev
    rw [h]
  · intro hq
    have h : observationsHandler.OnClose c o = _ :=
      terminate_quiet (fun h => Call.onClose h.handler) c o hq
    rw [h]
  · intro err2
    exact (terminate_twice (fun h => Call.error h.handler err2) c o ho _ _ hclose2).2.2
  · intro p d hreg hdev
    have h : observationsHandler.Error c o err = _ :=
      terminate_registered (fun h => Call.error h.handler err) c o p d hreg hdev
    rw [h]
  · intro hq
    have h : observationsHandler.Error c o err = _ :=
      terminate_quiet (fun h => Call.error h.handler err) c o hq
    rw [h]
  · intro err2
    exact (terminate_twice (fun h => Call.error h.handler err2) c o ho _ _ herror2).2.2

theorem termination_notifies_each_subscriber_once_witness :
    (observationsHandler.OnClose sampleJoined 0).log
      = sampleJoined.log ++ [Call.stopObservingResource "key-dev-1-sensor" ⟨1, "dev-1"⟩ "obs-1",
          Call.removeDeviceFromPermanentCache "dev-1" ⟨1, "dev-1"⟩, Call.release ⟨1, "dev-1"⟩,
          Call.onClose 10, Call.onClose 11, Call.onClose 12] ∧
    observationsHandler.OnClose (observationsHandler.OnClose sampleJoined 0) 0
      = observationsHandler.OnClose sampleJoined 0 ∧
    (observationsHandler.Error sampleJoined 0 "reset").log
      = sampleJoined.log ++ [Call.stopObservingResource "key-dev-1-sensor" ⟨1, "dev-1"⟩ "obs-1",
          Call.removeDeviceFromPermanentCache "dev-1" ⟨1, "dev-1"⟩, Call.release ⟨1, "dev-1"⟩,
          Call.error 10 "reset", Call.error 11 "reset", Call.error 12 "reset"] ∧
    (observationsHandler.Error sampleUnstored 0 "reset").log
      = sampleUnstored.log ++ [Call.error 10 "reset", Call.error 11 "reset"] ∧
    ((observationsHandler.Error sampleUnstored 0 "reset").handlerAt 0).observations = [] ∧
    observationsHandler.OnClose (observationsHandler.Error sampleUnstored 0 "reset") 0
      = observationsHandler.Error sampleUnstored 0 "reset" :=
  have h := termination_notifies_each_subscriber_once sampleJoined 0 "reset" (by decide)
  have h2 := termination_notifies_each_subscriber_once sampleUnstored 0 "reset" (by decide)
  ⟨h.1 0 ⟨1, "dev-1"⟩ rfl rfl, h.2.2.2.2.1, h.2.2.2.2.2.2.1 0 ⟨1, "dev-1"⟩ rfl rfl,
    h2.2.2.2.2.2.2.2.1 (Or.inr rfl), h2.2.2.2.2.2.2.2.2.2.1, h2.2.2.2.2.2.2.2.2.2.2.2.1⟩

/-- C15 (counterexample): the sample entry whose first registration failed while the
device was stored holds no device reference, although its physical observation was
started and is not stopped, and it has two subscribers.  When the stream terminates,
`OnClose` and `Error` notify both subscribers and take the entry out of the
registry, and they send no stop request to the device and release no device. -/
theorem termination_without_device_reference :
    (sampleUnstored.handlerAt 0).device = none ∧
    issued "key-dev-1-sensor" sampleUnstored.log = 1 ∧
    stopped "key-dev-1-sensor" sampleUnstored.log = 0 ∧
    (observationsHandler.OnClose sampleUnstored 0).log
      = sampleUnstored.log ++ [Call.onClose 10, Call.onClose 11] ∧
    (observationsHandler.OnClose sampleUnstored 0).observeResourceCache = [] ∧
    stopped "key-dev-1-sensor" (observationsHandler.OnClose sampleUnstored 0).log = 0 ∧
    (observationsHandler.Error sampleUnstored 0 "reset").log
      = sampleUnstored.log ++ [Call.error 10 "reset", Call.error 11 "reset"] ∧
    stopped "key-dev-1-sensor" (observationsHandler.Error sampleUnstored 0 "reset").log = 0 :=
  ⟨rfl, rfl, rfl, rfl, rfl, rfl, rfl, rfl⟩

theorem set_getD_subscription (l : List observationHandler) (s q : Nat) (h : observationHandler)
    (hs : s < l.length) :
    (l.set s h).getD q default = if q = s then h else l.getD q default := by
  simp only [List.getD_eq_getElem?_getD, List.getElem?_set]
  by_cases hq : s = q
  · subst hq; simp [hs]
  · have hqs : ¬ q = s := fun e => hq e.symm
    simp [hq, hqs]

/-- A live delivery to a subscriber that is not closed clears its pending replay and
calls `Handle` of its consumer handler. -/
theorem HandleMessage_open (c : Client) (s : Nat) (m : Message)
    (hs : s < c.subscriptions.length) (hopen : (c.subscriptionAt s).isClosed = false) :
    (observationHandler.HandleMessage c s (some m)).log
        = c.log ++ [Call.handle (c.subscriptionAt s).handler m (c.subscriptionAt s).codec] ∧
    (observationHandler.HandleMessage c s (some m)).subscriptionAt s
        = { c.subscriptionAt s with firstMessage := none } ∧
    (observationHandler.HandleMessage c s (some m)).subscriptions.length
        = c.subscriptions.length := by
  have hat : (c.updateSubscription s fun h => { h with firstMessage := none }).subscriptionAt s
      = { c.subscriptionAt s with firstMessage := none } := by
    simp only [Client.updateSubscription, Client.subscriptionAt, set_getD_subscription _ _ _ _ hs,
      if_true]
  have heq : observationHandler.HandleMessage c s (some m)
      = (c.updateSubscription s fun h => { h with firstMessage := none }).emit
          (Call.handle (c.subscriptionAt s).handler m (c.subscriptionAt s).codec) := by
    simp only [observationHandler.HandleMessage, observationHandler.handleMessageLocked, hat,
      hopen, Bool.false_eq_true, if_false]
  rw [heq]
  exact ⟨rfl, hat, by simp [Client.emit, Client.updateSubscription]⟩

/-- Live deliveries one after the other to a subscriber that is not closed. -/
theorem deliverAll_live (s : Nat) (ms : List Message) (c : Client)
    (hs : s < c.subscriptions.length) (hopen : (c.subscriptionAt s).isClosed = false) :
    (deliverAll s (ms.map Delivery.live) c).log
        = c.log ++ ms.map (fun m =>
            Call.handle (c.subscriptionAt s).handler m (c.subscriptionAt s).codec) ∧
    (deliverAll s (ms.map Delivery.live) c).subscriptionAt s
        = (if ms = [] then c.subscriptionAt s
           else { c.subscriptionAt s with firstMessage := none }) ∧
    (deliverAll s (ms.map Delivery.live) c).subscriptions.length = c.subscriptions.length := by
  induction ms generalizing c with
  | nil => simp [deliverAll]
  | cons m rest ih =>
    obtain ⟨h1, h2, h3⟩ := HandleMessage_open c s m hs hopen
    have hopen2 : ((observationHandler.HandleMessage c s (some m)).subscriptionAt s).isClosed
        = false := by rw [h2]; exact hopen
    obtain ⟨i1, i2, i3⟩ := ih (observationHandler.HandleMessage c s (some m))
      (by rw [h3]; exact hs) hopen2
    simp only [List.map_cons, deliverAll, deliver]
    refine ⟨?_, ?_, by rw [i3, h3]⟩
    · rw [i1, h1, h2]; simp
    · rw [i2, h2]
      by_cases hr : rest = [] <;> simp [hr]

/-- C11 (as amended): deliveries to one subscriber that is not closed, in any order of
its single replay task with the live messages: the live messages `before` are
delivered, then the replay task runs, then the live messages `after` are delivered.
`Handle` is called for every live message in order; the replay is delivered, once and
between the two, exactly when a replay is pending and no live message came before
it. -/
theorem replay_only_before_first_live_message (c : Client) (s : Nat)
    (hs : s < c.subscriptions.length) (hopen : (c.subscriptionAt s).isClosed = false)
    (before after : List Message) :
    (deliverAll s (before.map Delivery.live ++ Delivery.replay :: after.map Delivery.live) c).log
      = c.log
        ++ before.map (fun m =>
            Call.handle (c.subscriptionAt s).handler m (c.subscriptionAt s).codec)
        ++ (match before, (c.subscriptionAt s).firstMessage with
            | [], some m0 => [Call.handle (c.subscriptionAt s).handler m0 (c.subscriptionAt s).codec]
            | _, _ => [])
        ++ after.map (fun m =>
            Call.handle (c.subscriptionAt s).handler m (c.subscriptionAt s).codec) := by
  have hsplit : ∀ (l1 l2 : List Delivery) (c : Client),
      deliverAll s (l1 ++ l2) c = deliverAll s l2 (deliverAll s l1 c) := by
    intro l1 l2 c
    induction l1 generalizing c with
    | nil => rfl
    | cons x xs ih =>
      simp only [List.cons_append, deliverAll]
      exact ih _
  obtain ⟨b1, b2, b3⟩ := deliverAll_live s before c hs hopen
  rw [hsplit]
  simp only [deliverAll, deliver]
  have hrep := HandleFirstMessage_eq (deliverAll s (before.map Delivery.live) c) s _ b2
  by_cases hb : before = []
  · subst hb
    simp only [if_true] at hrep
    cases hf : (c.subscriptionAt s).firstMessage with
    | none =>
      rw [hf] at hrep
      simp only at hrep
      rw [hrep]
      obtain ⟨a1, -, -⟩ := deliverAll_live s after _ (by rw [b3]; exact hs)
        (by rw [b2]; simpa using hopen)
      rw [a1, b1, b2]
      simp
    | some m0 =>
      rw [hf, hopen] at hrep
      simp only [Bool.false_eq_true, if_false] at hrep
      rw [hrep]
      have hat : ((deliverAll s ([].map Delivery.live) c).emit
          (Call.handle (c.subscriptionAt s).handler m0 (c.subscriptionAt s).codec)).subscriptionAt s
          = c.subscriptionAt s := by
        simp [deliverAll, Client.emit, Client.subscriptionAt]
      obtain ⟨a1, -, -⟩ := deliverAll_live s after
        ((deliverAll s ([].map Delivery.live) c).emit
          (Call.handle (c.subscriptionAt s).handler m0 (c.subscriptionAt s).codec))
        (by simpa [deliverAll, Client.emit] using hs)
        (by rw [hat]; exact hopen)
      rw [a1, hat]
      simp [deliverAll, Client.emit]
  · simp only [hb, if_false] at hrep b2
    rw [hrep]
    obtain ⟨a1, -, -⟩ := deliverAll_live s after _ (by rw [b3]; exact hs)
      (by rw [b2]; exact hopen)
    rw [a1, b1, b2]
    cases before with
    | nil => exact absurd rfl hb
    | cons x xs => simp

theorem replay_only_before_first_live_message_witness :
    (deliverAll 2 ([].map Delivery.live ++ Delivery.replay :: [⟨some "U2"⟩].map Delivery.live)
        sampleJoined).log
      = sampleJoined.log ++ [Call.handle 12 ⟨some "U1"⟩ 0, Call.handle 12 ⟨some "U2"⟩ 0] ∧
    (deliverAll 2 ([⟨some "U2"⟩].map Delivery.live ++ Delivery.replay :: [].map Delivery.live)
        sampleJoined).log
      = sampleJoined.log ++ [Call.handle 12 ⟨some "U2"⟩ 0] :=
  ⟨replay_only_before_first_live_message sampleJoined 2 (by decide) rfl [] [⟨some "U2"⟩],
    replay_only_before_first_live_message sampleJoined 2 (by decide) rfl [⟨some "U2"⟩] []⟩

/-- C11 (counterexample): the third sample subscriber joined after `U1` had been
delivered and holds `U1` as pending replay; when the live message `U2` is handled
before its replay task runs, the only message its consumer handler ever receives is
`U2`: the replay of `U1` is not delivered. -/
theorem replay_dropped_after_live_message :
    (sampleJoined.subscriptionAt 2).firstMessage = some ⟨some "U1"⟩ ∧
    deliveredTo 12 sampleJoined.log = [] ∧
    deliveredTo 12
      (observationHandler.HandleFirstMessage
        (observationsHandler.Handle sampleJoined 0 (.ok ⟨some "U2"⟩)) 2).log
      = [⟨some "U2"⟩] :=
  ⟨rfl, rfl, rfl⟩

theorem closeObservingResource_subscriptions (c : Client) (o : Nat) :
    (closeObservingResource c o).subscriptions = c.subscriptions := by
  unfold closeObservingResource
  cases c.observeResourceCache.lookup (c.handlerAt o).id with
  | none => rfl
  | some p =>
    simp only
    cases (Client.handlerAt { c with
        observeResourceCache := mapDelete c.observeResourceCache (c.handlerAt o).id } o).device with
    | none => rfl
    | some d => rfl

/-- The termination methods of a registry entry leave every `observationHandler`
object as it is: in particular they never set a flag `isClosed`. -/
theorem termination_keeps_subscriptions (c : Client) (o : Nat) (err : String) :
    (observationsHandler.OnClose c o).subscriptions = c.subscriptions ∧
    (observationsHandler.Error c o err).subscriptions = c.subscriptions := by
  constructor
  · simp only [observationsHandler.OnClose]
    rw [foldl_emit (fun h => Call.onClose h.handler)]
    simp [closeObservingResource_subscriptions]
  · simp only [observationsHandler.Error]
    rw [foldl_emit (fun h => Call.error h.handler err)]
    simp [closeObservingResource_subscriptions]

/-- C18 (evaluation at the failing input): the third sample subscriber holds a pending
replay of `U1` whose task has not run when the physical observation terminates.
`observationsHandler.OnClose` (and likewise `Error`) gives its consumer handler, 12,
the terminal notification and leaves its flag `isClosed` unset, so the replay task that
runs next calls `Handle` of handler 12 with `U1` after the notification.  When the
notification goes through `observationHandler.OnClose` instead, the flag is set and the
replay task calls nothing. -/
theorem replay_delivered_after_termination (c : Client) (o : Nat) (err : String) :
    ((observationsHandler.OnClose c o).subscriptions = c.subscriptions ∧
      (observationsHandler.Error c o err).subscriptions = c.subscriptions) ∧
    terminalsOf 12 (observationsHandler.OnClose sampleJoined 0).log = [Call.onClose 12] ∧
    (observationHandler.HandleFirstMessage (observationsHandler.OnClose sampleJoined 0) 2).log
      = (observationsHandler.OnClose sampleJoined 0).log ++ [Call.handle 12 ⟨some "U1"⟩ 0] ∧
    terminalsOf 12 (observationsHandler.Error sampleJoined 0 "reset").log
      = [Call.error 12 "reset"] ∧
    (observationHandler.HandleFirstMessage
        (observationsHandler.Error sampleJoined 0 "reset") 2).log
      = (observationsHandler.Error sampleJoined 0 "reset").log
        ++ [Call.handle 12 ⟨some "U1"⟩ 0] ∧
    (observationHandler.OnClose sampleJoined 2).log = sampleJoined.log ++ [Call.onClose 12] ∧
    observationHandler.HandleFirstMessage (observationHandler.OnClose sampleJoined 2) 2
      = observationHandler.OnClose sampleJoined 2 :=
  ⟨termination_keeps_subscriptions c o err, rfl, rfl, rfl, rfl, rfl, rfl⟩

end Local
